import Mathlib

/-!
# Replica reconfiguration core of rDSN

A shallow embedding of `src/dist/replication/lib/replica_config.cpp`.

* The replica object is a record `replica`; every member function becomes a
  function taking the replica and returning the replica it leaves behind.
* A failed `dassert` aborts the process: functions that can hit one return
  `Option`, and `none` is the abort.
* Calls into collaborators (stub, prepare list, learner state, RPC layer) are
  appended to `replica.trace` in program order.
* Inside the transition engine a call of `replay_prepare_list` is one entry of the
  trace. Its body is modelled on its own (`replay_prepare_list`, `replay_loop`)
  over the operations of the prepare list and of the mutation type it uses, which
  are the fields of `replay_interface`.
* Values read from collaborators during one handler (decrees, the outcome of a
  non-forced cleanup, the clock, the stub's address) are the fields of
  `environment`; they are fixed for the duration of one handler.
* The thread-affinity assertion `check_hashed_access()` is not modelled: events
  are delivered one at a time.
* Integers are `Int`. Where the code increments a 64-bit signed `ballot` or
  `decree` the result is wrapped to 64 bits (`int64_wrap`), which is what the
  compiled code does; the unsigned counter `next_learning_version` wraps modulo
  `2 ^ 64`. Comparisons and the remaining arithmetic are on `Int`.
-/

namespace rdsn

/-! ## Data model -/

/-- Modelled from the spec: the enum `partition_status` is declared outside the
source file; the spec lists its five values. -/
inductive partition_status
  | PS_INACTIVE
  | PS_ERROR
  | PS_PRIMARY
  | PS_SECONDARY
  | PS_POTENTIAL_SECONDARY
  deriving DecidableEq, Repr

/-- Modelled from the spec: the enum `config_type` is declared outside the source
file; the spec lists its eight values. -/
inductive config_type
  | CT_ASSIGN_PRIMARY
  | CT_UPGRADE_TO_PRIMARY
  | CT_ADD_SECONDARY
  | CT_ADD_SECONDARY_FOR_LB
  | CT_DOWNGRADE_TO_SECONDARY
  | CT_DOWNGRADE_TO_INACTIVE
  | CT_UPGRADE_TO_SECONDARY
  | CT_REMOVE
  deriving DecidableEq, Repr

/-- Error codes the core distinguishes; every other code is `ERR_OTHER n`. -/
inductive error_code
  | ERR_OK
  | ERR_INVALID_VERSION
  | ERR_OTHER (n : Nat)
  deriving DecidableEq, Repr

open partition_status config_type error_code

/-- A network address; `0` is the invalid address. -/
abbrev rpc_address := Nat

/-- The address left behind by `set_invalid()`. -/
def invalid_address : rpc_address := 0

/-- A partition id `(app_id, partition_index)`. -/
abbrev gpid := Nat × Nat

/-- The signature carried by a replica configuration that is not a learner's. -/
def invalid_signature : Nat := 0

/-- The local view `{pid, ballot, status}`, with the learner signature that
`LEARN_ADD_LEARNER` carries. -/
structure replica_configuration where
  pid : gpid
  ballot : Int
  status : partition_status
  learner_signature : Nat
  deriving DecidableEq, Repr

/-- The authoritative membership of one partition. -/
structure partition_configuration where
  pid : gpid
  ballot : Int
  max_replica_count : Int
  primary : rpc_address
  secondaries : List rpc_address
  last_committed_decree : Int
  deriving DecidableEq, Repr

/-- The proposal envelope, also the request sent to the meta service. -/
structure configuration_update_request where
  info : Nat
  config : partition_configuration
  type : config_type
  node : rpc_address
  deriving DecidableEq, Repr

/-- The reply of the meta service. -/
structure configuration_update_response where
  err : error_code
  config : partition_configuration
  deriving DecidableEq, Repr

/-- The payload of `RPC_LEARN_ADD_LEARNER`. -/
structure group_check_request where
  app : Nat
  node : rpc_address
  config : replica_configuration
  last_committed_decree : Int
  deriving DecidableEq, Repr

/-- One learning session as the primary records it. -/
structure remote_learner_state where
  signature : Nat
  prepare_start_decree : Int
  timeout_task : Option Nat
  deriving DecidableEq, Repr

/-- The decree that stands for "no decree". -/
def invalid_decree : Int := -1

/-- The handle of the RPC to the meta service that is in flight: the request
it carries and the delay it was scheduled with. -/
structure rpc_response_task where
  request : configuration_update_request
  delay_ms : Nat
  deriving DecidableEq, Repr

/-- The bookkeeping of a primary (`_primary_states`). The maps are association
lists in insertion order. -/
structure primary_context where
  membership : partition_configuration
  statuses : List (rpc_address × partition_status)
  learners : List (rpc_address × remote_learner_state)
  next_learning_version : Nat
  reconfiguration_task : Option rpc_response_task
  last_prepare_decree_on_new_primary : Int
  deriving DecidableEq, Repr

/-- A call into a collaborator, as recorded in `replica.trace`. -/
inductive action
  | potential_secondary_cleanup (force : Bool)
  | secondary_cleanup (force : Bool)
  | primary_cleanup (clean_pending_mutations : Bool)
  | cleanup_preparing_mutations (wait : Bool)
  | replay_prepare_list
  | init_group_check
  | set_learning_without_prepare
  | prepare_list_truncate (d : Int)
  | prepare_list_reset (d : Int)
  | check_state_completeness
  | notify_replica_state_update (config : replica_configuration) (is_closing : Bool)
  | begin_close_replica
  | init_prepare (mu : Nat)
  | cancel_reconfiguration_task
  | call_meta (target : rpc_address) (request : configuration_update_request)
  | recall_meta (target : rpc_address) (request : configuration_update_request) (delay_ms : Nat)
  | learn_add_learner (node : rpc_address) (request : group_check_request)
  | remove_replica (node : rpc_address) (rconfig : replica_configuration)
  | remove_replica_on_meta_server (app : Nat) (config : partition_configuration)
  deriving DecidableEq, Repr

/-- The replica object of one partition. -/
structure replica where
  config : replica_configuration
  inactive_is_transient : Bool
  last_config_change_time_ms : Nat
  primary_states : primary_context
  app_info : Nat
  trace : List action
  deriving DecidableEq, Repr

/-- What a handler reads from its collaborators while it runs. -/
structure environment where
  primary_address : rpc_address
  is_connected : Bool
  meta_server : rpc_address
  now_ms : Nat
  last_committed_decree : Int
  max_prepared_decree : Int
  prepare_list_max_decree : Int
  app_last_committed_decree : Int
  learning_cleanable : Bool
  checkpoint_cleanable : Bool
  checkpoint_is_running : Bool
  check_possible_work : Int → Option Nat
  default_response : configuration_update_response

/-! ## Accessors and helpers -/

/-- The getter `status()`. -/
def replica.status (s : replica) : partition_status := s.config.status

/-- The getter `get_ballot()`. -/
def replica.get_ballot (s : replica) : Int := s.config.ballot

/-- The getter `get_gpid()`. -/
def replica.get_gpid (s : replica) : gpid := s.config.pid

/-- Record a call into a collaborator. -/
def replica.emit (s : replica) (a : action) : replica :=
  { s with trace := s.trace ++ [a] }

/-- Lookup in a map (`find`). -/
def map_find {β : Type} (m : List (rpc_address × β)) (k : rpc_address) : Option β :=
  m.lookup k

/-- Assignment through `operator[]`: replace the entry of `k`, or add one. -/
def map_set {β : Type} : List (rpc_address × β) → rpc_address → β → List (rpc_address × β)
  | [], k, v => [(k, v)]
  | (k1, v1) :: m, k, v => if k1 = k then (k, v) :: m else (k1, v1) :: map_set m k v

/-- The greatest value of a 64-bit signed integer (`ballot`, `decree`). -/
def int64_max : Int := 9223372036854775807

/-- The least value of a 64-bit signed integer. -/
def int64_min : Int := -9223372036854775808

/-- The value a 64-bit signed integer holds after the arithmetic result `x` is
stored in it (two's complement). -/
def int64_wrap (x : Int) : Int :=
  (x + 9223372036854775808) % 18446744073709551616 - 9223372036854775808

/-- The conversion `static_cast<int>` of a 64-bit difference. -/
def static_cast_int (x : Int) : Int :=
  (x + 2 ^ 31) % 2 ^ 32 - 2 ^ 31

/-- Modelled from the spec: `replica_helper::get_replica_config` is not in the
source file. It projects a partition configuration to one node: PRIMARY if the
node is the primary, SECONDARY if it is among the secondaries, otherwise
INACTIVE, with the partition's pid and ballot. -/
def get_replica_config (pc : partition_configuration) (node : rpc_address) :
    replica_configuration :=
  { pid := pc.pid
    ballot := pc.ballot
    status :=
      if node = pc.primary then PS_PRIMARY
      else if node ∈ pc.secondaries then PS_SECONDARY
      else PS_INACTIVE
    learner_signature := invalid_signature }

/-- Modelled from the spec: `replica_helper::remove_node` is not in the source
file. It removes the node from the list and reports whether it was there. -/
def remove_node (node : rpc_address) (l : List rpc_address) : Bool × List rpc_address :=
  (decide (node ∈ l), l.erase node)

/-- Modelled from the spec: `primary_context::reset_membership` is not in the
source file. It resets the primary bookkeeping with the new configuration; the
flag is reserved and unused. -/
def reset_membership (p : primary_context) (pc : partition_configuration)
    (_clear_learners : Bool) : primary_context :=
  { p with membership := pc }

/-- Modelled from the spec: `primary_context::check_exist` is not in the source
file. A node exists as primary if it is the membership's primary, as secondary
if it is among its secondaries, as potential secondary if it is a learner. -/
def check_exist (p : primary_context) (node : rpc_address) : partition_status → Option Bool
  | PS_PRIMARY => some (decide (p.membership.primary = node))
  | PS_SECONDARY => some (decide (node ∈ p.membership.secondaries))
  | PS_POTENTIAL_SECONDARY => some ((map_find p.learners node).isSome)
  | _ => none

/-- Modelled from the spec: `primary_context::get_node_status` is not in the
source file. It reads the per-peer role, INACTIVE for an unknown node. -/
def get_node_status (p : primary_context) (node : rpc_address) : partition_status :=
  (map_find p.statuses node).getD PS_INACTIVE

/-- Modelled from the spec: `primary_context::get_replica_config` is not in the
source file. It builds the replica configuration of a peer from the membership,
with the given status and learner signature. -/
def primary_context.get_replica_config (p : primary_context) (st : partition_status)
    (learner_signature : Nat) : replica_configuration :=
  { pid := p.membership.pid
    ballot := p.membership.ballot
    status := st
    learner_signature := learner_signature }

/-- Modelled from the spec: `potential_secondary_context::cleanup` is not in the
source file. A forced cleanup succeeds; a non-forced one fails while learning
work is in flight. -/
def potential_secondary_states_cleanup (env : environment) (force : Bool) : Bool :=
  force || env.learning_cleanable

/-- Modelled from the spec: `secondary_context::cleanup` is not in the source
file. A forced cleanup succeeds; a non-forced one fails while a
checkpoint-related task is running. -/
def secondary_states_cleanup (env : environment) (force : Bool) : Bool :=
  force || env.checkpoint_cleanable

/-- Modelled from the spec: `primary_context::cleanup` is not in the source file.
The spec names the call and its flag and attaches no effect on the fields of the
primary bookkeeping modelled here, so it is recorded as a call. -/
@[simp]
def primary_states_cleanup (s : replica) (clean_pending_mutations : Bool) : replica :=
  s.emit (.primary_cleanup clean_pending_mutations)

/-- Modelled from the spec: `replica::set_inactive_state_transient` is not in the
source file. Section 3 of the specification makes `inactive_is_transient` true only
of a replica that entered INACTIVE (invariant 4 holds between events), and section
4.4 sets the flag after the quiesce step: the setter assigns the flag while the
status is INACTIVE and leaves the replica as it is otherwise. -/
def set_inactive_state_transient (s : replica) (t : Bool) : replica :=
  if s.status = PS_INACTIVE then { s with inactive_is_transient := t } else s

/-! ## Transition engine -/

/-- The same-ballot status changes that `update_configuration` lets through. -/
def is_same_ballot_status_change_allowed (s : replica) (olds news : partition_status) : Bool :=
  (olds == PS_INACTIVE && news == PS_POTENTIAL_SECONDARY)
  || (olds == PS_POTENTIAL_SECONDARY && news == PS_SECONDARY)
  || (olds == PS_INACTIVE && news == PS_SECONDARY && s.inactive_is_transient)
  || (olds == PS_INACTIVE && news == PS_PRIMARY && s.inactive_is_transient)
  || (olds == news)

/-- The two assertions at the head of `update_local_configuration`. -/
def update_local_configuration_asserts (s : replica) (config : replica_configuration)
    (same_ballot : Bool) : Bool :=
  (decide (config.ballot > s.get_ballot)
    || (same_ballot && decide (config.ballot = s.get_ballot)))
  && decide (config.pid = s.get_gpid)

/-- The test "skip unnecessary configuration change". -/
def is_unnecessary_change (s : replica) (config : replica_configuration) : Bool :=
  decide (s.status = config.status) && decide (s.get_ballot = config.ballot)

/-- The switch "skip invalid change" of `update_local_configuration`: whether the
change may proceed, and the replica with the cleanup call it made recorded. -/
def pre_transition_gate (env : environment) (s : replica) (config : replica_configuration) :
    Bool × replica :=
  match s.status with
  | PS_ERROR => (false, s)
  | PS_INACTIVE =>
    if (config.status = PS_PRIMARY ∨ config.status = PS_SECONDARY)
        ∧ s.inactive_is_transient = false then (false, s)
    else (true, s)
  | PS_POTENTIAL_SECONDARY =>
    if config.status = PS_INACTIVE then
      (potential_secondary_states_cleanup env false, s.emit (.potential_secondary_cleanup false))
    else (true, s)
  | PS_SECONDARY =>
    if config.status ≠ PS_SECONDARY ∧ config.status ≠ PS_ERROR then
      (secondary_states_cleanup env false, s.emit (.secondary_cleanup false))
    else (true, s)
  | PS_PRIMARY => (true, s)

/-- The transition matrix of `update_local_configuration`: the switch on the old
status and, inside, on the new one, run on the replica that already stores the
new configuration. `none` is an "invalid execution path" assertion. -/
def transition_side_effects (env : environment) (old_status : partition_status)
    (old_ballot : Int) (s : replica) (config : replica_configuration) : Option replica :=
  match old_status with
  | PS_PRIMARY =>
    let s1 := s.emit (.cleanup_preparing_mutations false)
    match config.status with
    | PS_PRIMARY => some (s1.emit .replay_prepare_list)
    | PS_INACTIVE => some (primary_states_cleanup s1 (decide (old_ballot ≠ config.ballot)))
    | PS_SECONDARY => some (primary_states_cleanup s1 true)
    | PS_ERROR => some (primary_states_cleanup s1 true)
    | PS_POTENTIAL_SECONDARY => none
  | PS_SECONDARY =>
    let s1 := s.emit (.cleanup_preparing_mutations false)
    match config.status with
    | PS_PRIMARY => some ((s1.emit .init_group_check).emit .replay_prepare_list)
    | PS_SECONDARY => some s1
    | PS_POTENTIAL_SECONDARY => some (s1.emit .set_learning_without_prepare)
    | PS_INACTIVE => some s1
    | PS_ERROR => some s1
  | PS_POTENTIAL_SECONDARY =>
    match config.status with
    | PS_PRIMARY => none
    | PS_SECONDARY =>
      let s1 := s.emit (.prepare_list_truncate env.app_last_committed_decree)
      let r := potential_secondary_states_cleanup env true
      let s2 := s1.emit (.potential_secondary_cleanup true)
      if r then some (s2.emit .check_state_completeness) else none
    | PS_POTENTIAL_SECONDARY => some s
    | PS_INACTIVE => some s
    | PS_ERROR =>
      some ((s.emit (.prepare_list_reset env.app_last_committed_decree)).emit
        (.potential_secondary_cleanup false))
  | PS_INACTIVE =>
    match config.status with
    | PS_PRIMARY =>
      if s.inactive_is_transient then
        some ((({ s with inactive_is_transient := false }).emit .init_group_check).emit
          .replay_prepare_list)
      else none
    | PS_SECONDARY =>
      if s.inactive_is_transient then some { s with inactive_is_transient := false } else none
    | PS_POTENTIAL_SECONDARY => some { s with inactive_is_transient := false }
    | PS_INACTIVE => some s
    | PS_ERROR =>
      let s1 :=
        if s.inactive_is_transient then
          (primary_states_cleanup s true).emit (.secondary_cleanup false)
        else s
      some { s1 with inactive_is_transient := false }
  | PS_ERROR =>
    match config.status with
    | PS_ERROR => some s
    | _ => none

/-- The tail "start pending mutations if necessary". -/
def start_pending_mutations (env : environment) (s : replica) : replica :=
  if s.status = PS_PRIMARY then
    match env.check_possible_work
        (static_cast_int (env.prepare_list_max_decree - env.last_committed_decree)) with
    | some next => s.emit (.init_prepare next)
    | none => s
  else s

/-- The notification of the stub after the transition, the close request, and the
return value of `update_local_configuration`. -/
def post_transition (env : environment) (old_status : partition_status) (old_ballot : Int)
    (s : replica) (config : replica_configuration) : Bool × replica :=
  if s.status ≠ old_status then
    let is_closing :=
      s.status == PS_ERROR || (s.status == PS_INACTIVE && decide (s.get_ballot > old_ballot))
    let s1 := s.emit (.notify_replica_state_update config is_closing)
    if is_closing then (false, s1.emit .begin_close_replica)
    else (true, start_pending_mutations env s1)
  else
    (true, start_pending_mutations env (s.emit (.notify_replica_state_update config false)))

/-- The function `replica::update_local_configuration`. -/
def update_local_configuration (env : environment) (s : replica)
    (config : replica_configuration) (same_ballot : Bool) : Option (Bool × replica) :=
  if update_local_configuration_asserts s config same_ballot = false then none
  else
    let old_status := s.status
    let old_ballot := s.get_ballot
    if is_unnecessary_change s config then some (true, s)
    else
      match pre_transition_gate env s config with
      | (false, s1) => some (false, s1)
      | (true, s1) =>
        let s2 := { s1 with config := config, last_config_change_time_ms := env.now_ms }
        if env.max_prepared_decree ≥ env.last_committed_decree then
          match transition_side_effects env old_status old_ballot s2 config with
          | none => none
          | some s3 => some (post_transition env old_status old_ballot s3 config)
        else none

/-- The function `replica::update_local_configuration_with_no_ballot_change`. -/
def update_local_configuration_with_no_ballot_change (env : environment) (s : replica)
    (st : partition_status) : Option (Bool × replica) :=
  if s.status = st then some (false, s)
  else update_local_configuration env s { s.config with status := st } true

/-- The function `replica::update_configuration`. -/
def update_configuration (env : environment) (s : replica) (config : partition_configuration) :
    Option (Bool × replica) :=
  if config.ballot ≥ s.get_ballot then
    let rconfig := get_replica_config config env.primary_address
    let s1 :=
      if rconfig.status = PS_PRIMARY
          ∧ (rconfig.ballot > s.get_ballot ∨ s.status ≠ PS_PRIMARY) then
        { s with
          primary_states :=
            reset_membership s.primary_states config
              (decide (config.primary ≠ env.primary_address)) }
      else s
    if config.ballot > s1.get_ballot
        ∨ is_same_ballot_status_change_allowed s1 s1.status rconfig.status = true then
      update_local_configuration env s1 rconfig true
    else some (false, s1)
  else none

/-! ## Meta-update client -/

/-- The increment `request->config.ballot++` on the 64-bit signed ballot. -/
def next_ballot (b : Int) : Int := int64_wrap (b + 1)

/-- The function `replica::update_configuration_on_meta_server`. -/
def update_configuration_on_meta_server (env : environment) (s : replica) (type : config_type)
    (node : rpc_address) (newConfig : partition_configuration) : Option replica :=
  let newConfig1 := { newConfig with last_committed_decree := env.last_committed_decree }
  if (type ≠ CT_ASSIGN_PRIMARY ∧ type ≠ CT_UPGRADE_TO_PRIMARY)
      ∧ ¬ (s.status = PS_PRIMARY ∧ newConfig1.ballot = s.primary_states.membership.ballot) then
    none
  else
    match update_local_configuration_with_no_ballot_change env s PS_INACTIVE with
    | none => none
    | some (_, s1) =>
      let s2 := set_inactive_state_transient s1 true
      let request : configuration_update_request :=
        { info := s2.app_info
          config := { newConfig1 with ballot := next_ballot newConfig1.ballot }
          type := type
          node := node }
      let s3 :=
        if s2.primary_states.reconfiguration_task.isSome then
          s2.emit .cancel_reconfiguration_task
        else s2
      let s4 := s3.emit (.call_meta env.meta_server request)
      some { s4 with
        primary_states :=
          { s4.primary_states with
            reconfiguration_task := some { request := request, delay_ms := 0 } } }

/-! ## Primary-side edits -/

/-- The function `replica::assign_primary`. -/
def assign_primary (env : environment) (s : replica) (proposal : configuration_update_request) :
    Option replica :=
  if proposal.node ≠ env.primary_address then none
  else if s.status = PS_PRIMARY then some s
  else if proposal.type = CT_UPGRADE_TO_PRIMARY
      ∧ (s.status ≠ PS_SECONDARY ∨ env.checkpoint_is_running = true) then some s
  else
    let config :=
      { proposal.config with
        primary := env.primary_address
        secondaries := (remove_node env.primary_address proposal.config.secondaries).2 }
    update_configuration_on_meta_server env s proposal.type proposal.node config

/-- The assertions shared by the primary-side edits: the proposal's pid, primary
and secondaries are those of the membership. -/
def proposal_matches_membership (s : replica) (proposal : configuration_update_request) : Bool :=
  decide (proposal.config.pid = s.primary_states.membership.pid)
  && decide (proposal.config.primary = s.primary_states.membership.primary)
  && decide (proposal.config.secondaries = s.primary_states.membership.secondaries)

/-- The wrapping pre-increment `++next_learning_version` of the 64-bit counter. -/
def next_signature (v : Nat) : Nat := (v + 1) % 2 ^ 64

/-- The count `potential_secondaries_count` of `add_potential_secondary`. -/
def potential_secondaries_count (s : replica) : Int :=
  ((s.primary_states.membership.secondaries.length + s.primary_states.learners.length : Nat)
    : Int)

/-- The admission control of `add_potential_secondary`: `some true` lets the
proposal through, `some false` ignores it, `none` is the assertion on the type. -/
def admission_control (s : replica) (proposal : configuration_update_request) : Option Bool :=
  if potential_secondaries_count s ≥ s.primary_states.membership.max_replica_count - 1 then
    if proposal.type = CT_ADD_SECONDARY then
      if map_find s.primary_states.learners proposal.node = none then some false
      else some true
    else if proposal.type = CT_ADD_SECONDARY_FOR_LB then
      if potential_secondaries_count s ≥ s.primary_states.membership.max_replica_count then
        some false
      else some true
    else none
  else some true

/-- The tail of `add_potential_secondary`: build the group-check request with the
learner's signature and send it one way to the node. -/
def call_learn_add_learner (env : environment) (s : replica) (node : rpc_address)
    (signature : Nat) : replica :=
  s.emit (.learn_add_learner node
    { app := s.app_info
      node := node
      config := s.primary_states.get_replica_config PS_POTENTIAL_SECONDARY signature
      last_committed_decree := env.last_committed_decree })

/-- The learner registration of `add_potential_secondary` for a node that has no
learner entry: a fresh signature, a learner entry and the peer status. -/
def register_learner (s : replica) (node : rpc_address) : replica :=
  let v := next_signature s.primary_states.next_learning_version
  { s with
    primary_states :=
      { s.primary_states with
        next_learning_version := v
        learners :=
          s.primary_states.learners ++
            [(node, { signature := v, prepare_start_decree := invalid_decree,
                      timeout_task := none })]
        statuses := map_set s.primary_states.statuses node PS_POTENTIAL_SECONDARY } }

/-- The function `replica::add_potential_secondary`. -/
def add_potential_secondary (env : environment) (s : replica)
    (proposal : configuration_update_request) : Option replica :=
  if s.status ≠ PS_PRIMARY then some s
  else if proposal.config.ballot ≠ s.get_ballot then none
  else if proposal_matches_membership s proposal = false then none
  else if check_exist s.primary_states proposal.node PS_PRIMARY ≠ some false then none
  else if check_exist s.primary_states proposal.node PS_SECONDARY ≠ some false then none
  else
    match admission_control s proposal with
    | none => none
    | some false => some s
    | some true =>
      match map_find s.primary_states.learners proposal.node with
      | some it => some (call_learn_add_learner env s proposal.node it.signature)
      | none =>
        let s1 := register_learner s proposal.node
        some (call_learn_add_learner env s1 proposal.node
          s1.primary_states.next_learning_version)

/-- The function `replica::upgrade_to_secondary_on_primary`. -/
def upgrade_to_secondary_on_primary (env : environment) (s : replica) (node : rpc_address) :
    Option replica :=
  let newConfig :=
    { s.primary_states.membership with
      secondaries := s.primary_states.membership.secondaries ++ [node] }
  update_configuration_on_meta_server env s CT_UPGRADE_TO_SECONDARY node newConfig

/-- The function `replica::downgrade_to_secondary_on_primary`. -/
def downgrade_to_secondary_on_primary (env : environment) (s : replica)
    (proposal : configuration_update_request) : Option replica :=
  if proposal.config.ballot ≠ s.get_ballot ∨ s.status ≠ PS_PRIMARY then some s
  else if proposal_matches_membership s proposal = false then none
  else if proposal.node ≠ proposal.config.primary then none
  else
    let config :=
      { proposal.config with
        primary := invalid_address
        secondaries := proposal.config.secondaries ++ [proposal.node] }
    update_configuration_on_meta_server env s CT_DOWNGRADE_TO_SECONDARY proposal.node config

/-- The function `replica::downgrade_to_inactive_on_primary`. -/
def downgrade_to_inactive_on_primary (env : environment) (s : replica)
    (proposal : configuration_update_request) : Option replica :=
  if proposal.config.ballot ≠ s.get_ballot ∨ s.status ≠ PS_PRIMARY then some s
  else if proposal_matches_membership s proposal = false then none
  else if proposal.node = proposal.config.primary then
    update_configuration_on_meta_server env s CT_DOWNGRADE_TO_INACTIVE proposal.node
      { proposal.config with primary := invalid_address }
  else
    let rt := remove_node proposal.node proposal.config.secondaries
    if rt.1 = false then none
    else
      update_configuration_on_meta_server env s CT_DOWNGRADE_TO_INACTIVE proposal.node
        { proposal.config with secondaries := rt.2 }

/-- The function `replica::remove`. -/
def remove (env : environment) (s : replica) (proposal : configuration_update_request) :
    Option replica :=
  if proposal.config.ballot ≠ s.get_ballot ∨ s.status ≠ PS_PRIMARY then some s
  else if proposal_matches_membership s proposal = false then none
  else
    match get_node_status s.primary_states proposal.node with
    | PS_PRIMARY =>
      if proposal.config.primary ≠ proposal.node then none
      else
        update_configuration_on_meta_server env s CT_REMOVE proposal.node
          { proposal.config with primary := invalid_address }
    | PS_SECONDARY =>
      let rt := remove_node proposal.node proposal.config.secondaries
      if rt.1 = false then none
      else
        update_configuration_on_meta_server env s CT_REMOVE proposal.node
          { proposal.config with secondaries := rt.2 }
    | _ => update_configuration_on_meta_server env s CT_REMOVE proposal.node proposal.config

/-! ## Event handlers -/

/-- The dispatch on the proposal type at the end of `on_config_proposal`. -/
def dispatch_proposal (env : environment) (s : replica)
    (proposal : configuration_update_request) : Option replica :=
  match proposal.type with
  | CT_ASSIGN_PRIMARY => assign_primary env s proposal
  | CT_UPGRADE_TO_PRIMARY => assign_primary env s proposal
  | CT_ADD_SECONDARY => add_potential_secondary env s proposal
  | CT_ADD_SECONDARY_FOR_LB => add_potential_secondary env s proposal
  | CT_DOWNGRADE_TO_SECONDARY => downgrade_to_secondary_on_primary env s proposal
  | CT_DOWNGRADE_TO_INACTIVE => downgrade_to_inactive_on_primary env s proposal
  | CT_REMOVE => remove env s proposal
  | CT_UPGRADE_TO_SECONDARY => none

/-- The function `replica::on_config_proposal`. -/
def on_config_proposal (env : environment) (s : replica)
    (proposal : configuration_update_request) : Option replica :=
  if proposal.config.ballot < s.get_ballot then some s
  else if s.primary_states.reconfiguration_task.isSome then some s
  else if proposal.config.ballot > s.get_ballot then
    match update_configuration env s proposal.config with
    | none => none
    | some (false, s1) => some s1
    | some (true, s1) => dispatch_proposal env s1 proposal
  else dispatch_proposal env s proposal

/-- The function `replica::on_remove`. -/
def on_remove (env : environment) (s : replica) (request : replica_configuration) :
    Option replica :=
  if request.ballot < s.get_ballot then some s
  else if request.ballot = s.get_ballot ∧ PS_POTENTIAL_SECONDARY = s.status then some s
  else if request.status ≠ PS_INACTIVE then none
  else (update_local_configuration env s request false).map Prod.snd

/-- The switch on the request type in the reply handler, taken when the meta
service answered `ERR_OK`. -/
def post_update_work (env : environment) (s : replica) (req : configuration_update_request)
    (resp : configuration_update_response) : Option replica :=
  match req.type with
  | CT_UPGRADE_TO_PRIMARY =>
    some { s with
      primary_states :=
        { s.primary_states with
          last_prepare_decree_on_new_primary := env.prepare_list_max_decree } }
  | CT_ASSIGN_PRIMARY =>
    some { s with
      primary_states := { s.primary_states with last_prepare_decree_on_new_primary := 0 } }
  | CT_DOWNGRADE_TO_SECONDARY => some s
  | CT_DOWNGRADE_TO_INACTIVE => some s
  | CT_UPGRADE_TO_SECONDARY => some s
  | CT_REMOVE =>
    if req.node ≠ env.primary_address then
      some (s.emit (.remove_replica req.node (get_replica_config resp.config req.node)))
    else some s
  | _ => none

/-- Clear `_primary_states.reconfiguration_task`. -/
def clear_reconfiguration_task (s : replica) : replica :=
  { s with primary_states := { s.primary_states with reconfiguration_task := none } }

/-- The response the reply handler works with: the unmarshalled message when the
transport succeeded, a default-constructed response otherwise. -/
def received_response (env : environment) (err : error_code)
    (response : configuration_update_response) : configuration_update_response :=
  if err = ERR_OK then response else env.default_response

/-- The error the reply handler works with: the server's error when the
transport succeeded, the transport error otherwise. -/
def effective_error (env : environment) (err : error_code)
    (response : configuration_update_response) : error_code :=
  if err = ERR_OK then (received_response env err response).err else err

/-- The block "post-update work items" of the reply handler: the consistency
assertions and the switch on the request type, taken when the response carries
`ERR_OK`. -/
def post_update_work_items (env : environment) (s : replica)
    (req : configuration_update_request) (resp : configuration_update_response) :
    Option replica :=
  if resp.err = ERR_OK then
    if req.config.pid = resp.config.pid ∧ req.config.primary = resp.config.primary
        ∧ req.config.secondaries = resp.config.secondaries then
      post_update_work env s req resp
    else none
  else some s

/-- The function `replica::on_update_configuration_on_meta_server_reply`: `err` is
the transport error, `response` the message that is unmarshalled when the
transport succeeded, `req` the request the reply answers. -/
def on_update_configuration_on_meta_server_reply (env : environment) (s : replica)
    (err : error_code) (response : configuration_update_response)
    (req : configuration_update_request) : Option replica :=
  if PS_INACTIVE ≠ s.status ∨ env.is_connected = false then some (clear_reconfiguration_task s)
  else
    let resp := received_response env err response
    let err1 := effective_error env err response
    if err1 ≠ ERR_OK ∧ err1 ≠ ERR_INVALID_VERSION then
      let s1 := s.emit (.recall_meta env.meta_server req 1000)
      some { s1 with
        primary_states :=
          { s1.primary_states with
            reconfiguration_task := some { request := req, delay_ms := 1000 } } }
    else if resp.config.ballot < s.get_ballot then some (clear_reconfiguration_task s)
    else
      match post_update_work_items env s req resp with
      | none => none
      | some s1 =>
        match update_configuration env s1 resp.config with
        | none => none
        | some (_, s2) => some (clear_reconfiguration_task s2)

/-- The function `replica::on_config_sync`. -/
def on_config_sync (env : environment) (s : replica) (config : partition_configuration) :
    Option replica :=
  if config.ballot < s.get_ballot then some s
  else if s.status = PS_PRIMARY ∨ s.primary_states.reconfiguration_task.isSome then some s
  else
    match update_configuration env s config with
    | none => none
    | some (_, s1) =>
      if s1.status = PS_INACTIVE ∧ s1.inactive_is_transient = false then
        if config.primary = env.primary_address ∨ config.primary = invalid_address then
          some (s1.emit (.remove_replica_on_meta_server s1.app_info config))
        else some s1
      else some s1

/-- The events delivered to the per-partition executor. -/
inductive event
  | config_proposal (proposal : configuration_update_request)
  | config_sync (config : partition_configuration)
  | remove_request (request : replica_configuration)
  | meta_reply (err : error_code) (response : configuration_update_response)
      (req : configuration_update_request)
  deriving DecidableEq, Repr

/-- Deliver one event to its handler. -/
def deliver (env : environment) (s : replica) : event → Option replica
  | .config_proposal proposal => on_config_proposal env s proposal
  | .config_sync config => on_config_sync env s config
  | .remove_request request => on_remove env s request
  | .meta_reply err response req =>
    on_update_configuration_on_meta_server_reply env s err response req

/-- The part of the replica that is not the trace. -/
def replica.core (s : replica) :
    replica_configuration × Bool × Nat × primary_context × Nat :=
  (s.config, s.inactive_is_transient, s.last_config_change_time_ms, s.primary_states, s.app_info)

/-! ## Sample inputs -/

/-- A sample partition configuration: partition `(1, 0)`, ballot 0, three replicas
at most, no primary, no secondaries. -/
def sample_membership : partition_configuration :=
  { pid := (1, 0), ballot := 0, max_replica_count := 3, primary := invalid_address,
    secondaries := [], last_committed_decree := 0 }

/-- A sample environment: this node has address 1, the stub is connected, every
non-forced cleanup succeeds and the write queue is empty. -/
def sample_env : environment :=
  { primary_address := 1, is_connected := true, meta_server := 9, now_ms := 100,
    last_committed_decree := 0, max_prepared_decree := 0, prepare_list_max_decree := 0,
    app_last_committed_decree := 0, learning_cleanable := true, checkpoint_cleanable := true,
    checkpoint_is_running := false, check_possible_work := fun _ => none,
    default_response := { err := ERR_OK, config := sample_membership } }

/-- A sample replica of partition `(1, 0)` with the given status and ballot, the
flag `inactive_is_transient` unset, no reconfiguration in flight and an empty
trace. -/
def sample_replica (st : partition_status) (b : Int) : replica :=
  { config := { pid := (1, 0), ballot := b, status := st, learner_signature := 0 }
    inactive_is_transient := false
    last_config_change_time_ms := 0
    primary_states :=
      { membership := { sample_membership with ballot := b }, statuses := [], learners := [],
        next_learning_version := 0, reconfiguration_task := none,
        last_prepare_decree_on_new_primary := 0 }
    app_info := 7
    trace := [] }

/-! ## Reachability -/

/-- The states reachable from `s0` by any sequence of events, each delivered with
its own environment and handled to completion. -/
inductive reachable (s0 : replica) : replica → Prop
  | init : reachable s0 s0
  | step {s s1 : replica} (env : environment) (ev : event) :
      reachable s0 s → deliver env s ev = some s1 → reachable s0 s1

/-- Invariant 4: the flag `inactive_is_transient` is set only while INACTIVE. -/
def transient_implies_inactive (s : replica) : Prop :=
  s.inactive_is_transient = true → s.status = PS_INACTIVE

/-- The sample environment while learning work is in flight: the non-forced
cleanup of the potential-secondary state fails. -/
def sample_env_learning : environment :=
  { sample_env with learning_cleanable := false }

/-- A sample proposal of the given type for this node (address 1) at ballot `b`,
whose configuration has the given primary and no secondaries. -/
def sample_proposal (type : config_type) (b : Int) (primary : rpc_address) :
    configuration_update_request :=
  { info := 7
    config := { sample_membership with ballot := b, primary := primary }
    type := type
    node := 1 }

/-- A sample replica configuration for partition `(1, 0)`. -/
def sample_replica_configuration (st : partition_status) (b : Int) : replica_configuration :=
  { pid := (1, 0), ballot := b, status := st, learner_signature := 0 }

/-! ## The transition matrix of the specification -/

/-- The pairs `(old, new)` listed in the transition matrix of the specification. -/
def transition_matrix : List (partition_status × partition_status) :=
  [ (PS_PRIMARY, PS_PRIMARY), (PS_PRIMARY, PS_INACTIVE), (PS_PRIMARY, PS_SECONDARY),
    (PS_PRIMARY, PS_ERROR),
    (PS_SECONDARY, PS_PRIMARY), (PS_SECONDARY, PS_SECONDARY),
    (PS_SECONDARY, PS_POTENTIAL_SECONDARY), (PS_SECONDARY, PS_INACTIVE),
    (PS_SECONDARY, PS_ERROR),
    (PS_POTENTIAL_SECONDARY, PS_SECONDARY), (PS_POTENTIAL_SECONDARY, PS_ERROR),
    (PS_POTENTIAL_SECONDARY, PS_INACTIVE),
    (PS_INACTIVE, PS_PRIMARY), (PS_INACTIVE, PS_SECONDARY),
    (PS_INACTIVE, PS_POTENTIAL_SECONDARY), (PS_INACTIVE, PS_INACTIVE),
    (PS_INACTIVE, PS_ERROR),
    (PS_ERROR, PS_ERROR) ]

/-! ## Sequences of calls into the transition engine -/

/-- One call into the transition engine. -/
inductive config_call
  | local_configuration (rc : replica_configuration) (same_ballot : Bool)
  | configuration (pc : partition_configuration)
  deriving DecidableEq, Repr

/-- Run one call into the transition engine and drop its return value. -/
def apply_config_call (env : environment) (s : replica) : config_call → Option replica
  | .local_configuration rc same_ballot =>
    (update_local_configuration env s rc same_ballot).map Prod.snd
  | .configuration pc => (update_configuration env s pc).map Prod.snd

/-- Run a sequence of calls into the transition engine, each with its own
environment. -/
def apply_config_calls (s : replica) : List (environment × config_call) → Option replica
  | [] => some s
  | (env, c) :: rest =>
    match apply_config_call env s c with
    | none => none
    | some s1 => apply_config_calls s1 rest

/-! ## Learner admission -/

/-- The visible outcome of an accepted add-learner proposal: afterwards the node
has a learner entry, and exactly one `LEARN_ADD_LEARNER` was sent, to that node. -/
def proposal_accepted (s s1 : replica) (node : rpc_address) : Prop :=
  (map_find s1.primary_states.learners node).isSome = true
    ∧ ∃ req, s1.trace = s.trace ++ [.learn_add_learner node req]

/-- What `add_potential_secondary` does once the proposal is admitted. -/
def admit_learner (env : environment) (s : replica) (node : rpc_address) : replica :=
  match map_find s.primary_states.learners node with
  | some it => call_learn_add_learner env s node it.signature
  | none =>
    call_learn_add_learner env (register_learner s node) node
      (register_learner s node).primary_states.next_learning_version

/-- A sample primary (seed scenarios 2 and 3): this node (address 1) is primary at
ballot 5 with secondary 2, at most three replicas, and the given learner table. -/
def sample_primary (learners : List (rpc_address × remote_learner_state)) (version : Nat) :
    replica :=
  { config := { pid := (1, 0), ballot := 5, status := PS_PRIMARY, learner_signature := 0 }
    inactive_is_transient := false
    last_config_change_time_ms := 0
    primary_states :=
      { membership :=
          { sample_membership with ballot := 5, primary := 1, secondaries := [2] }
        statuses :=
          [(1, PS_PRIMARY), (2, PS_SECONDARY)]
            ++ learners.map (fun e => (e.1, PS_POTENTIAL_SECONDARY))
        learners := learners
        next_learning_version := version
        reconfiguration_task := none
        last_prepare_decree_on_new_primary := 0 }
    app_info := 7
    trace := [] }

/-- A sample add-learner proposal of the given type for the given node, matching
the membership of `sample_primary`. -/
def sample_add_learner (type : config_type) (node : rpc_address) :
    configuration_update_request :=
  { info := 7
    config := { sample_membership with ballot := 5, primary := 1, secondaries := [2] }
    type := type
    node := node }

/-- A sample learner entry with the given signature. -/
def sample_learner (signature : Nat) : remote_learner_state :=
  { signature := signature, prepare_start_decree := invalid_decree, timeout_task := none }

/-! ## Learner signatures -/

/-- The signatures in the learner table, in insertion order. -/
def learner_signatures (s : replica) : List Nat :=
  s.primary_states.learners.map (fun e => e.2.signature)

/-- Invariant 6 on one state: the learner signatures are pairwise distinct and
none exceeds `next_learning_version`. -/
def signatures_ok (s : replica) : Prop :=
  (learner_signatures s).Nodup
    ∧ ∀ x ∈ learner_signatures s, x ≤ s.primary_states.next_learning_version

/-- A sequence of calls of `add_potential_secondary`, each with its own
environment. -/
def add_potential_secondaries (s : replica) :
    List (environment × configuration_update_request) → Option replica
  | [] => some s
  | (env, p) :: rest =>
    match add_potential_secondary env s p with
    | none => none
    | some s1 => add_potential_secondaries s1 rest

/-- One call either leaves the learner table alone or appends one learner whose
signature is strictly greater than every signature in the table before. -/
def issues_monotonically (sa sb : replica) : Prop :=
  sb.primary_states.learners = sa.primary_states.learners
    ∨ ∃ n st, sb.primary_states.learners = sa.primary_states.learners ++ [(n, st)]
        ∧ ∀ x ∈ learner_signatures sa, x < st.signature

/-- A sample replica that waits for the meta service: INACTIVE at ballot 1 with the
flag set and an assign-primary request in flight. -/
def sample_waiting : replica :=
  { sample_replica PS_INACTIVE 1 with
    inactive_is_transient := true
    primary_states :=
      { (sample_replica PS_INACTIVE 1).primary_states with
        reconfiguration_task :=
          some { request := sample_proposal CT_ASSIGN_PRIMARY 2 1, delay_ms := 0 } } }

/-! ## Invariants 3 and 5 -/

/-- Invariant 3: a primary's cached membership names this node as primary and
carries the local ballot. -/
def membership_matches (env : environment) (s : replica) : Prop :=
  s.status = PS_PRIMARY →
    s.primary_states.membership.primary = env.primary_address
      ∧ s.primary_states.membership.ballot = s.get_ballot

/-! ## Requests to the meta service -/

/-- Whether a recorded call is a configuration-update request sent to the meta
service (a first send or a delayed retry). -/
def action.is_meta_rpc : action → Bool
  | .call_meta _ _ => true
  | .recall_meta _ _ _ => true
  | _ => false

/-- The requests sent to the meta service so far, in order. -/
def meta_calls (s : replica) : List action :=
  s.trace.filter action.is_meta_rpc

/-- The request `update_configuration_on_meta_server` builds: the given type and
node, the application info, and the given configuration except that the ballot is
incremented and `last_committed_decree` is the replica's. -/
def meta_request (env : environment) (s : replica) (type : config_type) (node : rpc_address)
    (newConfig : partition_configuration) : configuration_update_request :=
  { info := s.app_info
    config :=
      { pid := newConfig.pid
        ballot := next_ballot newConfig.ballot
        max_replica_count := newConfig.max_replica_count
        primary := newConfig.primary
        secondaries := newConfig.secondaries
        last_committed_decree := env.last_committed_decree }
    type := type
    node := node }

/-- The replica a primary becomes by `update_configuration_on_meta_server`:
INACTIVE at the same ballot with the flag set, the request in flight, and the
calls of the quiesce step, of the cancellation of a leftover task and of the
request appended to the trace. -/
def quiesced_primary (env : environment) (s : replica) (type : config_type)
    (node : rpc_address) (newConfig : partition_configuration) : replica :=
  { config := { s.config with status := PS_INACTIVE }
    inactive_is_transient := true
    last_config_change_time_ms := env.now_ms
    primary_states :=
      { s.primary_states with
        reconfiguration_task :=
          some { request := meta_request env s type node newConfig, delay_ms := 0 } }
    app_info := s.app_info
    trace :=
      s.trace ++
        [ .cleanup_preparing_mutations false, .primary_cleanup false,
          .notify_replica_state_update { s.config with status := PS_INACTIVE } false ]
        ++ (if s.primary_states.reconfiguration_task.isSome then
              [.cancel_reconfiguration_task] else [])
        ++ [.call_meta env.meta_server (meta_request env s type node newConfig)] }

/-- The visible outcome of a scheduled retry: the identical request is sent again
with a delay of 1000 ms and recorded as the reconfiguration task, and the stored
configuration and the flag are untouched. -/
def retry_scheduled (env : environment) (s s1 : replica)
    (req : configuration_update_request) : Prop :=
  s1.trace = s.trace ++ [.recall_meta env.meta_server req 1000]
    ∧ s1.primary_states.reconfiguration_task = some { request := req, delay_ms := 1000 }
    ∧ s1.config = s.config
    ∧ s1.inactive_is_transient = s.inactive_is_transient

/-- Invariant 5 as the claims word it: the secondaries are duplicate-free and do
not contain the primary. -/
def secondaries_exclude_primary (pc : partition_configuration) : Prop :=
  pc.secondaries.Nodup ∧ pc.primary ∉ pc.secondaries

/-- Invariant 5 for a configuration that may have no primary: the secondaries are
duplicate-free and no node is both primary and secondary; the invalid address,
which stands for a cleared primary, is not a node. -/
def no_node_twice (pc : partition_configuration) : Prop :=
  pc.secondaries.Nodup ∧ (pc.primary ≠ invalid_address → pc.primary ∉ pc.secondaries)

/-- The configuration `assign_primary` passes to
`update_configuration_on_meta_server`. -/
def assign_primary_config (env : environment) (p : configuration_update_request) :
    partition_configuration :=
  { p.config with
    primary := env.primary_address
    secondaries := (remove_node env.primary_address p.config.secondaries).2 }

/-- The configuration `upgrade_to_secondary_on_primary` passes to
`update_configuration_on_meta_server`. -/
def upgrade_to_secondary_config (s : replica) (node : rpc_address) :
    partition_configuration :=
  { s.primary_states.membership with
    secondaries := s.primary_states.membership.secondaries ++ [node] }

/-- The configuration `downgrade_to_secondary_on_primary` passes to
`update_configuration_on_meta_server`. -/
def downgrade_to_secondary_config (p : configuration_update_request) :
    partition_configuration :=
  { p.config with
    primary := invalid_address
    secondaries := p.config.secondaries ++ [p.node] }

/-- The configuration `downgrade_to_inactive_on_primary` passes to
`update_configuration_on_meta_server`. -/
def downgrade_to_inactive_config (p : configuration_update_request) :
    partition_configuration :=
  if p.node = p.config.primary then { p.config with primary := invalid_address }
  else { p.config with secondaries := (remove_node p.node p.config.secondaries).2 }

/-- The configuration `remove` passes to `update_configuration_on_meta_server`. -/
def remove_config (s : replica) (p : configuration_update_request) : partition_configuration :=
  match get_node_status s.primary_states p.node with
  | PS_PRIMARY => { p.config with primary := invalid_address }
  | PS_SECONDARY =>
    { p.config with secondaries := (remove_node p.node p.config.secondaries).2 }
  | _ => p.config

/-- The sample primary at the greatest 64-bit ballot: this node (address 1) is
primary with secondary 2. -/
def sample_primary_max : replica :=
  { sample_primary [] 0 with
    config :=
      { pid := (1, 0), ballot := int64_max, status := PS_PRIMARY, learner_signature := 0 }
    primary_states :=
      { (sample_primary [] 0).primary_states with
        membership :=
          { sample_membership with ballot := int64_max, primary := 1, secondaries := [2] } } }

/-- The sample environment while the stub is disconnected from the meta service. -/
def sample_env_disconnected : environment :=
  { sample_env with is_connected := false }

/-- The request the primary of seed scenario 2 submits to upgrade node 3 to
secondary. -/
def sample_upgrade_request : configuration_update_request :=
  { info := 7
    config := { sample_membership with ballot := 6, primary := 1, secondaries := [2, 3] }
    type := CT_UPGRADE_TO_SECONDARY
    node := 3 }

/-! ## Preconditions and fatal arms of the transition engine -/

/-- The assertion on the ballot at the head of `update_local_configuration`:
`config.ballot > get_ballot() || (same_ballot && config.ballot == get_ballot())`. -/
def ballot_precondition (s : replica) (config : replica_configuration) (same_ballot : Bool) :
    Bool :=
  decide (config.ballot > s.get_ballot) || (same_ballot && decide (config.ballot = s.get_ballot))

/-- The replica on which `update_configuration` goes on after its first `if`: the
primary bookkeeping is reset when the projection is PRIMARY and the ballot grows
or the replica is not PRIMARY. -/
def membership_reset (env : environment) (s : replica) (config : partition_configuration) :
    replica :=
  if (get_replica_config config env.primary_address).status = PS_PRIMARY
      ∧ ((get_replica_config config env.primary_address).ballot > s.get_ballot
          ∨ s.status ≠ PS_PRIMARY) then
    { s with
      primary_states :=
        reset_membership s.primary_states config
          (decide (config.primary ≠ env.primary_address)) }
  else s

/-- The test of the second `if` of `update_configuration`: whether it goes on to
call `update_local_configuration`. -/
def calls_update_local_configuration (env : environment) (s : replica)
    (config : partition_configuration) : Bool :=
  decide (config.ballot > (membership_reset env s config).get_ballot)
    || is_same_ballot_status_change_allowed (membership_reset env s config)
        (membership_reset env s config).status
        (get_replica_config config env.primary_address).status

/-- The function `update_configuration` as section 4.3 of the specification words
it, for a configuration whose ballot is not below the local one: project `new_pc`
to this node; reset the primary bookkeeping if the projection is PRIMARY and the
ballot grows or the status is not PRIMARY; then, if the ballot grows or the
same-ballot status change is allowed, call `update_local_configuration` with
`same_ballot = (new_pc.ballot == config.ballot)`, else return false. -/
def update_configuration_as_specified (env : environment) (s : replica)
    (new_pc : partition_configuration) : Option (Bool × replica) :=
  let rc := get_replica_config new_pc env.primary_address
  let s1 :=
    if rc.status = PS_PRIMARY ∧ (rc.ballot > s.config.ballot ∨ s.config.status ≠ PS_PRIMARY) then
      { s with
        primary_states :=
          reset_membership s.primary_states new_pc
            (decide (new_pc.primary ≠ env.primary_address)) }
    else s
  if new_pc.ballot > s1.config.ballot
      ∨ is_same_ballot_status_change_allowed s1 s1.config.status rc.status = true then
    update_local_configuration env s1 rc (decide (new_pc.ballot = s1.config.ballot))
  else some (false, s1)

/-- Whether a call of `update_local_configuration` passes the head assertions, the
short-circuit, the gate and the assertion on the decrees, stores the
configuration, and then fails an assertion inside the matrix. -/
def hits_fatal_arm (env : environment) (s : replica) (config : replica_configuration)
    (same_ballot : Bool) : Bool :=
  update_local_configuration_asserts s config same_ballot
    && !is_unnecessary_change s config
    && (pre_transition_gate env s config).1
    && decide (env.max_prepared_decree ≥ env.last_committed_decree)
    && (transition_side_effects env s.status s.get_ballot
          { (pre_transition_gate env s config).2 with
            config := config, last_config_change_time_ms := env.now_ms } config).isNone

/-- Whether a recorded call is a request to close the replica. -/
def action.is_close_request : action → Bool
  | .begin_close_replica => true
  | _ => false

/-- The requests to close the replica made so far. -/
def close_requests (s : replica) : List action :=
  s.trace.filter action.is_close_request

/-- The replica a learner becomes by the promotion to SECONDARY: the requested
configuration is stored, the change time is the clock's, and the calls of the
matrix arm and the notification of the stub are appended to the trace. -/
def promoted_learner (env : environment) (s : replica) (rc : replica_configuration) : replica :=
  { s with
    config := rc
    last_config_change_time_ms := env.now_ms
    trace :=
      s.trace ++
        [ .prepare_list_truncate env.app_last_committed_decree,
          .potential_secondary_cleanup true,
          .check_state_completeness,
          .notify_replica_state_update rc false ] }

/-- A configuration at ballot 6 that names this node (address 1) as primary. -/
def sample_config_self_primary : partition_configuration :=
  { sample_membership with ballot := 6, primary := 1 }


/-! ## Replaying the prepare list -/

/-- What `replay_prepare_list` uses of the replica, of the prepare list and of the
mutation type. Their code is outside the source file, so they are parameters: `σ`
is the state they work on, `μ` the type of mutations. Only `init_prepare` changes
the state; `add_client_request` stands for
`add_client_request(RPC_REPLICATION_WRITE_EMPTY, nullptr)`. -/
structure replay_interface (σ μ : Type) where
  last_committed_decree : σ → Int
  max_decree : σ → Int
  get_mutation_by_decree : σ → Int → Option μ
  new_mutation : σ → Int → μ
  copy_from : μ → μ → μ
  add_client_request : μ → μ
  init_prepare : σ → μ → σ

/-- The loop `for (decree = start; decree <= end; decree++)` of
`replay_prepare_list`, from the given value of `decree` on, run for at most `fuel`
iterations: the calls of `init_prepare` it makes, in order, each with the decree of
its iteration, and the state it leaves; `none` when the loop is still running after
`fuel` iterations. The counter is a 64-bit signed integer. -/
def replay_loop {σ μ : Type} (I : replay_interface σ μ) (end_ : Int) :
    Nat → Int → σ → Option (List (Int × μ) × σ)
  | 0, decree, st => if decree ≤ end_ then none else some ([], st)
  | fuel + 1, decree, st =>
    if decree ≤ end_ then
      let old := I.get_mutation_by_decree st decree
      let mu := I.new_mutation st decree
      let mu1 :=
        match old with
        | some o => I.copy_from mu o
        | none => I.add_client_request mu
      match replay_loop I end_ fuel (int64_wrap (decree + 1)) (I.init_prepare st mu1) with
      | none => none
      | some rest => some ((decree, mu1) :: rest.1, rest.2)
    else some ([], st)

/-- The function `replica::replay_prepare_list`, run for at most `fuel` iterations
of its loop. -/
def replay_prepare_list {σ μ : Type} (I : replay_interface σ μ) (fuel : Nat) (st : σ) :
    Option (List (Int × μ) × σ) :=
  let start := int64_wrap (I.last_committed_decree st + 1)
  let end_ := I.max_decree st
  replay_loop I end_ fuel start st

/-- The state after the given calls of `init_prepare`. -/
def after_prepares {σ μ : Type} (I : replay_interface σ μ) (st : σ) (calls : List (Int × μ)) :
    σ :=
  calls.foldl (fun s e => I.init_prepare s e.2) st

/-- A sample prepare list: the state is the pair of decrees
`(last_committed_decree, max_decree)` and the list of the decrees prepared so far;
a mutation is its decree and its list of requests, where request 0 is the empty
write; decree 4 holds a mutation with request 7. -/
def sample_replay_interface : replay_interface ((Int × Int) × List Int) (Int × List Nat) :=
  { last_committed_decree := fun st => st.1.1
    max_decree := fun st => st.1.2
    get_mutation_by_decree := fun _ d => if d = 4 then some (4, [7]) else none
    new_mutation := fun _ d => (d, [])
    copy_from := fun mu old => (mu.1, old.2)
    add_client_request := fun mu => (mu.1, mu.2 ++ [0])
    init_prepare := fun st mu => (st.1, st.2 ++ [mu.1]) }

/-! ## Frame lemmas of the transition engine -/

@[simp] theorem emit_config (s : replica) (a : action) : (s.emit a).config = s.config := rfl

@[simp] theorem emit_status (s : replica) (a : action) : (s.emit a).status = s.status := rfl

@[simp] theorem emit_get_ballot (s : replica) (a : action) :
    (s.emit a).get_ballot = s.get_ballot := rfl

@[simp] theorem emit_inactive_is_transient (s : replica) (a : action) :
    (s.emit a).inactive_is_transient = s.inactive_is_transient := rfl

@[simp] theorem emit_primary_states (s : replica) (a : action) :
    (s.emit a).primary_states = s.primary_states := rfl

@[simp] theorem emit_app_info (s : replica) (a : action) :
    (s.emit a).app_info = s.app_info := rfl

@[simp] theorem emit_last_config_change_time_ms (s : replica) (a : action) :
    (s.emit a).last_config_change_time_ms = s.last_config_change_time_ms := rfl

@[simp] theorem emit_trace (s : replica) (a : action) : (s.emit a).trace = s.trace ++ [a] := rfl

@[simp] theorem emit_core (s : replica) (a : action) : (s.emit a).core = s.core := rfl

@[simp] theorem set_inactive_state_transient_config (s : replica) (t : Bool) :
    (set_inactive_state_transient s t).config = s.config := by
  unfold set_inactive_state_transient
  split <;> rfl

@[simp] theorem set_inactive_state_transient_primary_states (s : replica) (t : Bool) :
    (set_inactive_state_transient s t).primary_states = s.primary_states := by
  unfold set_inactive_state_transient
  split <;> rfl

@[simp] theorem set_inactive_state_transient_trace (s : replica) (t : Bool) :
    (set_inactive_state_transient s t).trace = s.trace := by
  unfold set_inactive_state_transient
  split <;> rfl

/-- A value in the range of a 64-bit signed integer is stored unchanged. -/
theorem int64_wrap_of_range (x : Int) (h1 : int64_min ≤ x) (h2 : x ≤ int64_max) :
    int64_wrap x = x := by
  unfold int64_wrap
  unfold int64_min at h1
  unfold int64_max at h2
  omega

/-- The increment of a 64-bit ballot below the greatest value is the successor. -/
theorem next_ballot_of_range (b : Int) (h1 : int64_min ≤ b) (h2 : b < int64_max) :
    next_ballot b = b + 1 := by
  unfold next_ballot
  apply int64_wrap_of_range
  · unfold int64_min at h1 ⊢
    omega
  · unfold int64_max at h2 ⊢
    omega

theorem core_eq_iff (s t : replica) :
    s.core = t.core ↔
      s.config = t.config ∧ s.inactive_is_transient = t.inactive_is_transient
        ∧ s.last_config_change_time_ms = t.last_config_change_time_ms
        ∧ s.primary_states = t.primary_states ∧ s.app_info = t.app_info := by
  simp [replica.core, Prod.ext_iff]

theorem start_pending_mutations_core (env : environment) (s : replica) :
    (start_pending_mutations env s).core = s.core := by
  unfold start_pending_mutations
  split
  · split <;> simp
  · rfl

theorem pre_transition_gate_core (env : environment) (s : replica)
    (rc : replica_configuration) : (pre_transition_gate env s rc).2.core = s.core := by
  unfold pre_transition_gate
  split <;> (try split) <;> simp

theorem post_transition_core (env : environment) (os : partition_status) (ob : Int)
    (s : replica) (rc : replica_configuration) :
    (post_transition env os ob s rc).2.core = s.core := by
  unfold post_transition
  dsimp only
  split
  · split <;> simp [start_pending_mutations_core]
  · simp [start_pending_mutations_core]

/-- The matrix touches neither the stored configuration nor the primary
bookkeeping; it leaves `inactive_is_transient` alone or clears it. -/
theorem transition_side_effects_frame (env : environment) (os : partition_status) (ob : Int)
    (s s3 : replica) (rc : replica_configuration)
    (h : transition_side_effects env os ob s rc = some s3) :
    s3.config = s.config ∧ s3.primary_states = s.primary_states
      ∧ s3.app_info = s.app_info
      ∧ s3.last_config_change_time_ms = s.last_config_change_time_ms
      ∧ (s3.inactive_is_transient = s.inactive_is_transient
          ∨ s3.inactive_is_transient = false) := by
  unfold transition_side_effects at h
  cases os <;> cases hrc : rc.status <;> simp [hrc] at h <;>
    first
      | (subst h; split <;> simp)
      | (subst h; simp)
      | (obtain ⟨_, h⟩ := h; subst h; simp)

/-- The outcomes of `update_local_configuration`: skipped, refused by the gate, or
committed. -/
theorem update_local_configuration_cases (env : environment) (s : replica)
    (rc : replica_configuration) (sb r : Bool) (s1 : replica)
    (h : update_local_configuration env s rc sb = some (r, s1)) :
    update_local_configuration_asserts s rc sb = true ∧
    ((is_unnecessary_change s rc = true ∧ r = true ∧ s1 = s)
    ∨ (is_unnecessary_change s rc = false ∧ (pre_transition_gate env s rc).1 = false
        ∧ r = false ∧ s1 = (pre_transition_gate env s rc).2)
    ∨ (is_unnecessary_change s rc = false ∧ (pre_transition_gate env s rc).1 = true
        ∧ env.max_prepared_decree ≥ env.last_committed_decree
        ∧ ∃ s3, transition_side_effects env s.status s.get_ballot
              { (pre_transition_gate env s rc).2 with
                config := rc, last_config_change_time_ms := env.now_ms } rc = some s3
            ∧ (r, s1) = post_transition env s.status s.get_ballot s3 rc)) := by
  unfold update_local_configuration at h
  cases ha : update_local_configuration_asserts s rc sb
  · simp [ha] at h
  · simp only [ha, true_and]
    simp only [ha, Bool.true_eq_false, ↓reduceIte] at h
    cases hu : is_unnecessary_change s rc
    · simp only [Bool.false_eq_true, ↓reduceIte, hu] at h
      rcases hg : pre_transition_gate env s rc with ⟨g, sg⟩
      rw [hg] at h
      cases g
      · simp at h
        simp [h.1, h.2]
      · simp only at h
        by_cases hd : env.max_prepared_decree ≥ env.last_committed_decree
        · simp only [hd, ↓reduceIte] at h
          cases ht : transition_side_effects env s.status s.get_ballot
              { sg with config := rc, last_config_change_time_ms := env.now_ms } rc with
          | none => simp [ht] at h
          | some s3 =>
            simp only [ht, Option.some.injEq] at h
            right; right
            exact ⟨rfl, rfl, hd, s3, rfl, h.symm⟩
        · simp [hd] at h
    · simp [hu] at h
      simp [h.1, h.2]

/-- What `update_local_configuration` leaves behind: the primary bookkeeping is
untouched, and the stored configuration is either the old one (with the flag
and the change time untouched) or the requested one. -/
theorem update_local_configuration_frame (env : environment) (s : replica)
    (rc : replica_configuration) (sb r : Bool) (s1 : replica)
    (h : update_local_configuration env s rc sb = some (r, s1)) :
    s1.primary_states = s.primary_states ∧ s1.app_info = s.app_info ∧
    ((s1.config = s.config ∧ s1.inactive_is_transient = s.inactive_is_transient
        ∧ s1.last_config_change_time_ms = s.last_config_change_time_ms
        ∧ (is_unnecessary_change s rc = true ∨ (pre_transition_gate env s rc).1 = false))
      ∨ (s1.config = rc ∧ is_unnecessary_change s rc = false
          ∧ (pre_transition_gate env s rc).1 = true
          ∧ (s1.inactive_is_transient = s.inactive_is_transient
              ∨ s1.inactive_is_transient = false))) := by
  obtain ⟨_, hc⟩ := update_local_configuration_cases env s rc sb r s1 h
  rcases hc with ⟨hu, _, rfl⟩ | ⟨_, hg, _, rfl⟩ | ⟨hu, hg, _, s3, ht, hp⟩
  · simp [hu]
  · have hcore := pre_transition_gate_core env s rc
    rw [core_eq_iff] at hcore
    obtain ⟨h1, h2, h3, h4, h5⟩ := hcore
    exact ⟨h4, h5, Or.inl ⟨h1, h2, h3, Or.inr hg⟩⟩
  · have hcore := pre_transition_gate_core env s rc
    rw [core_eq_iff] at hcore
    obtain ⟨_, h2, _, h4, h5⟩ := hcore
    obtain ⟨t1, t2, t3, _, t5⟩ := transition_side_effects_frame env _ _ _ s3 rc ht
    have hpc := post_transition_core env s.status s.get_ballot s3 rc
    rw [← hp, core_eq_iff] at hpc
    obtain ⟨p1, p2, _, p4, p5⟩ := hpc
    simp only at p1 p2 p4 p5 t1 t2 t3 t5
    refine ⟨by rw [p4, t2, h4], by rw [p5, t3, h5], Or.inr ⟨by rw [p1, t1], hu, hg, ?_⟩⟩
    rw [p2]
    rcases t5 with t5 | t5
    · left; rw [t5, h2]
    · right; exact t5

theorem asserts_ballot_le (s : replica) (rc : replica_configuration) (sb : Bool)
    (h : update_local_configuration_asserts s rc sb = true) :
    s.config.ballot ≤ rc.ballot ∧ rc.pid = s.config.pid := by
  simp only [update_local_configuration_asserts, replica.get_ballot, replica.get_gpid,
    Bool.and_eq_true, Bool.or_eq_true, decide_eq_true_eq] at h
  obtain ⟨h1, h2⟩ := h
  refine ⟨?_, h2⟩
  rcases h1 with h1 | ⟨_, h1⟩
  · exact le_of_lt h1
  · exact le_of_eq h1.symm

theorem update_local_configuration_ballot_le (env : environment) (s : replica)
    (rc : replica_configuration) (sb r : Bool) (s1 : replica)
    (h : update_local_configuration env s rc sb = some (r, s1)) :
    s.config.ballot ≤ s1.config.ballot := by
  obtain ⟨ha, _⟩ := update_local_configuration_cases env s rc sb r s1 h
  obtain ⟨_, _, hf⟩ := update_local_configuration_frame env s rc sb r s1 h
  rcases hf with ⟨hc, _⟩ | ⟨hc, _⟩
  · rw [hc]
  · rw [hc]; exact (asserts_ballot_le s rc sb ha).1

theorem update_configuration_ballot_le (env : environment) (s : replica)
    (pc : partition_configuration) (r : Bool) (s1 : replica)
    (h : update_configuration env s pc = some (r, s1)) :
    s.config.ballot ≤ s1.config.ballot := by
  unfold update_configuration at h
  split at h
  · dsimp only at h
    split at h
    · split at h
      · have := update_local_configuration_ballot_le _ _ _ _ _ _ h
        exact this
      · simp only [Option.some.injEq, Prod.mk.injEq] at h
        rw [← h.2]
    · split at h
      · exact update_local_configuration_ballot_le _ _ _ _ _ _ h
      · simp only [Option.some.injEq, Prod.mk.injEq] at h
        rw [← h.2]
  · exact absurd h (by simp)

theorem update_configuration_on_meta_server_ballot_le (env : environment) (s : replica)
    (type : config_type) (node : rpc_address) (pc : partition_configuration) (s1 : replica)
    (h : update_configuration_on_meta_server env s type node pc = some s1) :
    s.config.ballot ≤ s1.config.ballot := by
  unfold update_configuration_on_meta_server at h
  dsimp only at h
  split at h
  · exact absurd h (by simp)
  · split at h
    · exact absurd h (by simp)
    · rename_i r s2 hq
      simp only [Option.some.injEq] at h
      subst h
      have : s.config.ballot ≤ s2.config.ballot := by
        unfold update_local_configuration_with_no_ballot_change at hq
        split at hq
        · simp only [Option.some.injEq, Prod.mk.injEq] at hq
          rw [← hq.2]
        · exact update_local_configuration_ballot_le _ _ _ _ _ _ hq
      split <;> simpa using this

/-- The learner admission never touches the stored configuration or the flag. -/
theorem add_potential_secondary_config (env : environment) (s : replica)
    (p : configuration_update_request) (s1 : replica)
    (h : add_potential_secondary env s p = some s1) :
    s1.config = s.config ∧ s1.inactive_is_transient = s.inactive_is_transient := by
  unfold add_potential_secondary at h
  repeat' split at h
  all_goals first
    | contradiction
    | (simp only [Option.some.injEq] at h
       subst h
       simp [call_learn_add_learner, register_learner])

theorem assign_primary_ballot_le (env : environment) (s : replica)
    (p : configuration_update_request) (s1 : replica)
    (h : assign_primary env s p = some s1) : s.config.ballot ≤ s1.config.ballot := by
  unfold assign_primary at h
  repeat' split at h
  all_goals first
    | contradiction
    | (simp only [Option.some.injEq] at h; subst h; exact le_refl _)
    | exact update_configuration_on_meta_server_ballot_le _ _ _ _ _ _ h

theorem downgrade_to_secondary_on_primary_ballot_le (env : environment) (s : replica)
    (p : configuration_update_request) (s1 : replica)
    (h : downgrade_to_secondary_on_primary env s p = some s1) :
    s.config.ballot ≤ s1.config.ballot := by
  unfold downgrade_to_secondary_on_primary at h
  repeat' split at h
  all_goals first
    | contradiction
    | (simp only [Option.some.injEq] at h; subst h; exact le_refl _)
    | exact update_configuration_on_meta_server_ballot_le _ _ _ _ _ _ h

theorem downgrade_to_inactive_on_primary_ballot_le (env : environment) (s : replica)
    (p : configuration_update_request) (s1 : replica)
    (h : downgrade_to_inactive_on_primary env s p = some s1) :
    s.config.ballot ≤ s1.config.ballot := by
  unfold downgrade_to_inactive_on_primary at h
  dsimp only at h
  repeat' split at h
  all_goals first
    | contradiction
    | (simp only [Option.some.injEq] at h; subst h; exact le_refl _)
    | exact update_configuration_on_meta_server_ballot_le _ _ _ _ _ _ h

theorem remove_ballot_le (env : environment) (s : replica)
    (p : configuration_update_request) (s1 : replica)
    (h : remove env s p = some s1) : s.config.ballot ≤ s1.config.ballot := by
  unfold remove at h
  dsimp only at h
  repeat' split at h
  all_goals first
    | contradiction
    | (simp only [Option.some.injEq] at h; subst h; exact le_refl _)
    | exact update_configuration_on_meta_server_ballot_le _ _ _ _ _ _ h

theorem dispatch_proposal_ballot_le (env : environment) (s : replica)
    (p : configuration_update_request) (s1 : replica)
    (h : dispatch_proposal env s p = some s1) : s.config.ballot ≤ s1.config.ballot := by
  unfold dispatch_proposal at h
  split at h
  · exact assign_primary_ballot_le _ _ _ _ h
  · exact assign_primary_ballot_le _ _ _ _ h
  · rw [(add_potential_secondary_config _ _ _ _ h).1]
  · rw [(add_potential_secondary_config _ _ _ _ h).1]
  · exact downgrade_to_secondary_on_primary_ballot_le _ _ _ _ h
  · exact downgrade_to_inactive_on_primary_ballot_le _ _ _ _ h
  · exact remove_ballot_le _ _ _ _ h
  · exact absurd h (by simp)

theorem on_config_proposal_ballot_le (env : environment) (s : replica)
    (p : configuration_update_request) (s1 : replica)
    (h : on_config_proposal env s p = some s1) : s.config.ballot ≤ s1.config.ballot := by
  unfold on_config_proposal at h
  split at h
  · simp only [Option.some.injEq] at h; rw [h]
  · split at h
    · simp only [Option.some.injEq] at h; rw [h]
    · split at h
      · split at h
        · exact absurd h (by simp)
        · rename_i s2 hu
          simp only [Option.some.injEq] at h
          subst h
          exact update_configuration_ballot_le _ _ _ _ _ hu
        · rename_i s2 hu
          exact le_trans (update_configuration_ballot_le _ _ _ _ _ hu)
            (dispatch_proposal_ballot_le _ _ _ _ h)
      · exact dispatch_proposal_ballot_le _ _ _ _ h

theorem on_remove_ballot_le (env : environment) (s : replica)
    (req : replica_configuration) (s1 : replica)
    (h : on_remove env s req = some s1) : s.config.ballot ≤ s1.config.ballot := by
  unfold on_remove at h
  repeat' split at h
  all_goals first
    | contradiction
    | (simp only [Option.some.injEq] at h; subst h; exact le_refl _)
    | (cases hu : update_local_configuration env s req false with
       | none => simp [hu] at h
       | some x =>
         obtain ⟨r, s2⟩ := x
         simp only [hu, Option.map_some', Option.some.injEq] at h
         subst h
         exact update_local_configuration_ballot_le _ _ _ _ _ _ hu)

theorem on_config_sync_ballot_le (env : environment) (s : replica)
    (pc : partition_configuration) (s1 : replica)
    (h : on_config_sync env s pc = some s1) : s.config.ballot ≤ s1.config.ballot := by
  unfold on_config_sync at h
  split at h
  · simp only [Option.some.injEq] at h; rw [h]
  · split at h
    · simp only [Option.some.injEq] at h; rw [h]
    · split at h
      · contradiction
      · rename_i r s2 hu
        have hle := update_configuration_ballot_le _ _ _ _ _ hu
        repeat' split at h
        all_goals (simp only [Option.some.injEq] at h; subst h; simpa using hle)

theorem clear_reconfiguration_task_config (s : replica) :
    (clear_reconfiguration_task s).config = s.config := rfl

theorem post_update_work_config (env : environment) (s : replica)
    (req : configuration_update_request) (resp : configuration_update_response)
    (s1 : replica) (h : post_update_work env s req resp = some s1) :
    s1.config = s.config ∧ s1.inactive_is_transient = s.inactive_is_transient := by
  unfold post_update_work at h
  repeat' split at h
  all_goals first
    | contradiction
    | (simp only [Option.some.injEq] at h; subst h; simp)

theorem post_update_work_items_config (env : environment) (s : replica)
    (req : configuration_update_request) (resp : configuration_update_response)
    (s1 : replica) (h : post_update_work_items env s req resp = some s1) :
    s1.config = s.config ∧ s1.inactive_is_transient = s.inactive_is_transient := by
  unfold post_update_work_items at h
  repeat' split at h
  all_goals first
    | contradiction
    | exact post_update_work_config _ _ _ _ _ h
    | (simp only [Option.some.injEq] at h; subst h; simp)

theorem on_update_configuration_on_meta_server_reply_ballot_le (env : environment)
    (s : replica) (err : error_code) (response : configuration_update_response)
    (req : configuration_update_request) (s1 : replica)
    (h : on_update_configuration_on_meta_server_reply env s err response req = some s1) :
    s.config.ballot ≤ s1.config.ballot := by
  unfold on_update_configuration_on_meta_server_reply at h
  dsimp only at h
  split at h
  · simp only [Option.some.injEq] at h; subst h; exact le_refl _
  · split at h
    · simp only [Option.some.injEq] at h; subst h; exact le_refl _
    · split at h
      · simp only [Option.some.injEq] at h; subst h; exact le_refl _
      · split at h
        · contradiction
        · rename_i s2 hw
          split at h
          · contradiction
          · rename_i r s3 hu
            simp only [Option.some.injEq] at h
            subst h
            have h2 := update_configuration_ballot_le _ _ _ _ _ hu
            rw [(post_update_work_items_config _ _ _ _ _ hw).1] at h2
            exact h2

/-! ## C1: the ballot never decreases -/

/-- C1: every event delivered to `on_config_proposal`, `on_config_sync`, `on_remove`
or the meta-reply handler that runs to completion leaves a local ballot that is
greater than or equal to the ballot before the event. -/
theorem ballot_non_decreasing (env : environment) (s : replica) (ev : event) (s1 : replica)
    (h : deliver env s ev = some s1) : s.config.ballot ≤ s1.config.ballot := by
  cases ev with
  | config_proposal p => exact on_config_proposal_ballot_le env s p s1 h
  | config_sync pc => exact on_config_sync_ballot_le env s pc s1 h
  | remove_request req => exact on_remove_ballot_le env s req s1 h
  | meta_reply err response req =>
    exact on_update_configuration_on_meta_server_reply_ballot_le env s err response req s1 h

/-- C1 at a concrete input: a secondary at ballot 7 receives a config-sync with
ballot 8 and ends at ballot 8. -/
theorem ballot_non_decreasing_witness :
    ∃ s1, deliver sample_env (sample_replica PS_SECONDARY 7)
        (.config_sync { sample_membership with ballot := 8 }) = some s1
      ∧ s1.config.ballot = 8
      ∧ (sample_replica PS_SECONDARY 7).config.ballot ≤ s1.config.ballot :=
  ⟨_, rfl, rfl, ballot_non_decreasing sample_env (sample_replica PS_SECONDARY 7)
    (.config_sync { sample_membership with ballot := 8 }) _ rfl⟩

/-! ## C4: same-ballot status changes -/

/-- C4: for every pair of statuses and every value of `inactive_is_transient`,
`is_same_ballot_status_change_allowed old new` holds exactly when `old = new`, or
the pair is INACTIVE to POTENTIAL_SECONDARY, or POTENTIAL_SECONDARY to SECONDARY,
or `old` is INACTIVE, `new` is SECONDARY or PRIMARY and the flag is set. -/
theorem same_ballot_status_change_allowed_iff (s : replica) (olds news : partition_status) :
    is_same_ballot_status_change_allowed s olds news = true ↔
      (olds = news
        ∨ (olds = PS_INACTIVE ∧ news = PS_POTENTIAL_SECONDARY)
        ∨ (olds = PS_POTENTIAL_SECONDARY ∧ news = PS_SECONDARY)
        ∨ (olds = PS_INACTIVE ∧ (news = PS_SECONDARY ∨ news = PS_PRIMARY)
            ∧ s.inactive_is_transient = true)) := by
  unfold is_same_ballot_status_change_allowed
  cases olds <;> cases news <;> cases s.inactive_is_transient <;> decide

/-! ## C2: the transient flag -/

theorem transition_side_effects_transient (env : environment) (os : partition_status)
    (ob : Int) (s s3 : replica) (rc : replica_configuration)
    (h : transition_side_effects env os ob s rc = some s3)
    (hinv : s.inactive_is_transient = true → os = PS_INACTIVE) :
    s3.inactive_is_transient = true → rc.status = PS_INACTIVE := by
  unfold transition_side_effects at h
  cases os <;> cases hrc : rc.status <;> simp [hrc] at h <;>
    first
      | (subst h; simp_all)
      | (obtain ⟨_, h⟩ := h; subst h; simp_all)

theorem update_local_configuration_transient (env : environment) (s : replica)
    (rc : replica_configuration) (sb r : Bool) (s1 : replica)
    (h : update_local_configuration env s rc sb = some (r, s1))
    (hinv : transient_implies_inactive s) : transient_implies_inactive s1 := by
  obtain ⟨_, hc⟩ := update_local_configuration_cases env s rc sb r s1 h
  have hcore := pre_transition_gate_core env s rc
  rw [core_eq_iff] at hcore
  obtain ⟨g1, g2, _, _, _⟩ := hcore
  rcases hc with ⟨_, _, rfl⟩ | ⟨_, _, _, rfl⟩ | ⟨_, _, _, s3, ht, hp⟩
  · exact hinv
  · intro ht
    rw [g2] at ht
    have := hinv ht
    simpa [replica.status, g1] using this
  · have hpc := post_transition_core env s.status s.get_ballot s3 rc
    rw [← hp, core_eq_iff] at hpc
    obtain ⟨p1, p2, _, _, _⟩ := hpc
    obtain ⟨t1, _⟩ := transition_side_effects_frame env _ _ _ s3 rc ht
    have key := transition_side_effects_transient env _ _ _ s3 rc ht
      (by intro hx; exact hinv (by simpa [g2] using hx))
    intro hx
    simp only at p1 p2 t1
    rw [p2] at hx
    have := key hx
    simp only [replica.status, p1, t1]
    exact this

theorem get_replica_config_status_ne_error (pc : partition_configuration)
    (node : rpc_address) : (get_replica_config pc node).status ≠ PS_ERROR := by
  unfold get_replica_config
  dsimp only
  split
  · decide
  · split <;> decide

/-- What `update_configuration` leaves behind. -/
theorem update_configuration_frame (env : environment) (s : replica)
    (pc : partition_configuration) (r : Bool) (s1 : replica)
    (h : update_configuration env s pc = some (r, s1)) :
    (transient_implies_inactive s → transient_implies_inactive s1)
      ∧ (s.status ≠ PS_ERROR → s1.status ≠ PS_ERROR)
      ∧ s1.primary_states.reconfiguration_task = s.primary_states.reconfiguration_task := by
  unfold update_configuration at h
  split at h
  · dsimp only at h
    have hne := get_replica_config_status_ne_error pc env.primary_address
    have aux : ∀ s0 : replica, s0.config = s.config →
        s0.inactive_is_transient = s.inactive_is_transient →
        s0.primary_states.reconfiguration_task = s.primary_states.reconfiguration_task →
        update_local_configuration env s0 (get_replica_config pc env.primary_address) true
          = some (r, s1) →
        (transient_implies_inactive s → transient_implies_inactive s1)
          ∧ (s.status ≠ PS_ERROR → s1.status ≠ PS_ERROR)
          ∧ s1.primary_states.reconfiguration_task
              = s.primary_states.reconfiguration_task := by
      intro s0 e1 e2 e3 hu
      obtain ⟨f1, _, f3⟩ := update_local_configuration_frame _ _ _ _ _ _ hu
      refine ⟨fun hi => update_local_configuration_transient _ _ _ _ _ _ hu
        (by simpa [transient_implies_inactive, replica.status, e1, e2] using hi), ?_,
        by rw [f1, e3]⟩
      intro hs
      rcases f3 with ⟨c, _⟩ | ⟨c, _⟩
      · simpa [replica.status, c, e1] using hs
      · simpa [replica.status, c] using hne
    split at h
    · split at h
      · exact aux _ (by rfl) (by rfl) (by rfl) h
      · simp only [Option.some.injEq, Prod.mk.injEq] at h
        obtain ⟨_, rfl⟩ := h
        exact ⟨fun hi => hi, fun hs => hs, rfl⟩
    · split at h
      · exact aux _ (by rfl) (by rfl) (by rfl) h
      · simp only [Option.some.injEq, Prod.mk.injEq] at h
        obtain ⟨_, rfl⟩ := h
        exact ⟨fun hi => hi, fun hs => hs, rfl⟩
  · contradiction

theorem quiesce_gate (env : environment) (s : replica)
    (hq : s.status = PS_PRIMARY
      ∨ (s.status ≠ PS_ERROR ∧ env.learning_cleanable = true
          ∧ env.checkpoint_cleanable = true))
    (hne : s.status ≠ PS_INACTIVE) :
    (pre_transition_gate env s { s.config with status := PS_INACTIVE }).1 = true := by
  cases hs : s.status <;>
    simp_all [pre_transition_gate, potential_secondary_states_cleanup,
      secondary_states_cleanup]

theorem quiesce_reaches_inactive (env : environment) (s : replica) (r : Bool) (s1 : replica)
    (h : update_local_configuration_with_no_ballot_change env s PS_INACTIVE = some (r, s1))
    (hq : s.status = PS_PRIMARY ∨ s.status = PS_INACTIVE
      ∨ (s.status ≠ PS_ERROR ∧ env.learning_cleanable = true
          ∧ env.checkpoint_cleanable = true)) :
    s1.status = PS_INACTIVE := by
  unfold update_local_configuration_with_no_ballot_change at h
  split at h
  · rename_i hs
    simp only [Option.some.injEq, Prod.mk.injEq] at h
    rw [← h.2]; exact hs
  · rename_i hs
    obtain ⟨_, _, hf⟩ := update_local_configuration_frame _ _ _ _ _ _ h
    rcases hf with ⟨_, _, _, hu | hg⟩ | ⟨c, _⟩
    · simp only [is_unnecessary_change, Bool.and_eq_true, decide_eq_true_eq] at hu
      exact absurd hu.1 hs
    · have hq1 : s.status = PS_PRIMARY
          ∨ (s.status ≠ PS_ERROR ∧ env.learning_cleanable = true
              ∧ env.checkpoint_cleanable = true) := by
        rcases hq with hq | hq | hq
        · exact Or.inl hq
        · exact absurd hq hs
        · exact Or.inr hq
      rw [quiesce_gate env s hq1 hs] at hg
      contradiction
    · simp [replica.status, c]

theorem update_configuration_on_meta_server_status (env : environment) (s : replica)
    (type : config_type) (node : rpc_address) (pc : partition_configuration) (s1 : replica)
    (h : update_configuration_on_meta_server env s type node pc = some s1)
    (hq : s.status = PS_PRIMARY ∨ s.status = PS_INACTIVE
      ∨ (s.status ≠ PS_ERROR ∧ env.learning_cleanable = true
          ∧ env.checkpoint_cleanable = true)) :
    s1.status = PS_INACTIVE := by
  unfold update_configuration_on_meta_server at h
  dsimp only at h
  split at h
  · contradiction
  · split at h
    · contradiction
    · rename_i r s2 hq2
      simp only [Option.some.injEq] at h
      subst h
      have := quiesce_reaches_inactive env s r s2 hq2 hq
      split <;> simpa [replica.status] using this

theorem inactive_transient_ok (s : replica) (h : s.status = PS_INACTIVE) :
    transient_implies_inactive s := fun _ => h

/-- The setter keeps invariant 4: it assigns the flag only while INACTIVE. -/
theorem set_inactive_state_transient_ok (s : replica) (t : Bool)
    (hinv : transient_implies_inactive s) :
    transient_implies_inactive (set_inactive_state_transient s t) := by
  unfold set_inactive_state_transient
  split
  · rename_i hs
    exact fun _ => hs
  · exact hinv

/-- The quiesce step and the setter keep invariant 4, whether or not the quiesce
step is refused. -/
theorem update_configuration_on_meta_server_transient (env : environment) (s : replica)
    (type : config_type) (node : rpc_address) (pc : partition_configuration) (s1 : replica)
    (h : update_configuration_on_meta_server env s type node pc = some s1)
    (hinv : transient_implies_inactive s) : transient_implies_inactive s1 := by
  unfold update_configuration_on_meta_server at h
  dsimp only at h
  split at h
  · contradiction
  · split at h
    · contradiction
    · rename_i r s2 hq2
      simp only [Option.some.injEq] at h
      subst h
      have h2 : transient_implies_inactive s2 := by
        unfold update_local_configuration_with_no_ballot_change at hq2
        split at hq2
        · simp only [Option.some.injEq, Prod.mk.injEq] at hq2
          rw [← hq2.2]
          exact hinv
        · exact update_local_configuration_transient _ _ _ _ _ _ hq2 hinv
      have h3 := set_inactive_state_transient_ok s2 true h2
      split <;> simpa [transient_implies_inactive, replica.status] using h3

theorem assign_primary_transient (env : environment) (s : replica)
    (p : configuration_update_request) (s1 : replica)
    (h : assign_primary env s p = some s1) (hinv : transient_implies_inactive s) :
    transient_implies_inactive s1 := by
  unfold assign_primary at h
  repeat' split at h
  all_goals first
    | contradiction
    | (simp only [Option.some.injEq] at h; subst h; exact hinv)
    | exact update_configuration_on_meta_server_transient _ _ _ _ _ _ h hinv

theorem downgrade_to_secondary_on_primary_transient (env : environment) (s : replica)
    (p : configuration_update_request) (s1 : replica)
    (h : downgrade_to_secondary_on_primary env s p = some s1)
    (hinv : transient_implies_inactive s) : transient_implies_inactive s1 := by
  unfold downgrade_to_secondary_on_primary at h
  dsimp only at h
  split at h
  · simp only [Option.some.injEq] at h; subst h; exact hinv
  · rename_i hg
    have hp : s.status = PS_PRIMARY := by
      by_contra hc; exact hg (Or.inr hc)
    repeat' split at h
    all_goals first
      | contradiction
      | exact inactive_transient_ok _
          (update_configuration_on_meta_server_status _ _ _ _ _ _ h (Or.inl hp))

theorem downgrade_to_inactive_on_primary_transient (env : environment) (s : replica)
    (p : configuration_update_request) (s1 : replica)
    (h : downgrade_to_inactive_on_primary env s p = some s1)
    (hinv : transient_implies_inactive s) : transient_implies_inactive s1 := by
  unfold downgrade_to_inactive_on_primary at h
  dsimp only at h
  split at h
  · simp only [Option.some.injEq] at h; subst h; exact hinv
  · rename_i hg
    have hp : s.status = PS_PRIMARY := by
      by_contra hc; exact hg (Or.inr hc)
    repeat' split at h
    all_goals first
      | contradiction
      | exact inactive_transient_ok _
          (update_configuration_on_meta_server_status _ _ _ _ _ _ h (Or.inl hp))

theorem remove_transient (env : environment) (s : replica)
    (p : configuration_update_request) (s1 : replica)
    (h : remove env s p = some s1)
    (hinv : transient_implies_inactive s) : transient_implies_inactive s1 := by
  unfold remove at h
  dsimp only at h
  split at h
  · simp only [Option.some.injEq] at h; subst h; exact hinv
  · rename_i hg
    have hp : s.status = PS_PRIMARY := by
      by_contra hc; exact hg (Or.inr hc)
    repeat' split at h
    all_goals first
      | contradiction
      | exact inactive_transient_ok _
          (update_configuration_on_meta_server_status _ _ _ _ _ _ h (Or.inl hp))

theorem dispatch_proposal_transient (env : environment) (s : replica)
    (p : configuration_update_request) (s1 : replica)
    (h : dispatch_proposal env s p = some s1) (hinv : transient_implies_inactive s) :
    transient_implies_inactive s1 := by
  unfold dispatch_proposal at h
  split at h
  · exact assign_primary_transient _ _ _ _ h hinv
  · exact assign_primary_transient _ _ _ _ h hinv
  · obtain ⟨c, t⟩ := add_potential_secondary_config _ _ _ _ h
    simpa [transient_implies_inactive, replica.status, c, t] using hinv
  · obtain ⟨c, t⟩ := add_potential_secondary_config _ _ _ _ h
    simpa [transient_implies_inactive, replica.status, c, t] using hinv
  · exact downgrade_to_secondary_on_primary_transient _ _ _ _ h hinv
  · exact downgrade_to_inactive_on_primary_transient _ _ _ _ h hinv
  · exact remove_transient _ _ _ _ h hinv
  · contradiction

theorem on_config_proposal_transient (env : environment) (s : replica)
    (p : configuration_update_request) (s1 : replica)
    (h : on_config_proposal env s p = some s1) (hinv : transient_implies_inactive s) :
    transient_implies_inactive s1 := by
  unfold on_config_proposal at h
  split at h
  · simp only [Option.some.injEq] at h; subst h; exact hinv
  · split at h
    · simp only [Option.some.injEq] at h; subst h; exact hinv
    · split at h
      · split at h
        · contradiction
        · rename_i s2 hu
          simp only [Option.some.injEq] at h
          subst h
          exact (update_configuration_frame _ _ _ _ _ hu).1 hinv
        · rename_i s2 hu
          obtain ⟨f1, _, _⟩ := update_configuration_frame _ _ _ _ _ hu
          exact dispatch_proposal_transient _ _ _ _ h (f1 hinv)
      · exact dispatch_proposal_transient _ _ _ _ h hinv

theorem on_config_sync_transient (env : environment) (s : replica)
    (pc : partition_configuration) (s1 : replica)
    (h : on_config_sync env s pc = some s1) (hinv : transient_implies_inactive s) :
    transient_implies_inactive s1 := by
  unfold on_config_sync at h
  split at h
  · simp only [Option.some.injEq] at h; subst h; exact hinv
  · split at h
    · simp only [Option.some.injEq] at h; subst h; exact hinv
    · split at h
      · contradiction
      · rename_i r s2 hu
        have h2 := (update_configuration_frame _ _ _ _ _ hu).1 hinv
        repeat' split at h
        all_goals
          (simp only [Option.some.injEq] at h; subst h
           simpa [transient_implies_inactive, replica.status] using h2)

theorem on_remove_transient (env : environment) (s : replica)
    (req : replica_configuration) (s1 : replica)
    (h : on_remove env s req = some s1) (hinv : transient_implies_inactive s) :
    transient_implies_inactive s1 := by
  unfold on_remove at h
  repeat' split at h
  all_goals first
    | contradiction
    | (simp only [Option.some.injEq] at h; subst h; exact hinv)
    | (cases hu : update_local_configuration env s req false with
       | none => simp [hu] at h
       | some x =>
         obtain ⟨r, s2⟩ := x
         simp only [hu, Option.map_some', Option.some.injEq] at h
         subst h
         exact update_local_configuration_transient _ _ _ _ _ _ hu hinv)

theorem on_update_configuration_on_meta_server_reply_transient (env : environment)
    (s : replica) (err : error_code) (response : configuration_update_response)
    (req : configuration_update_request) (s1 : replica)
    (h : on_update_configuration_on_meta_server_reply env s err response req = some s1)
    (hinv : transient_implies_inactive s) : transient_implies_inactive s1 := by
  unfold on_update_configuration_on_meta_server_reply at h
  dsimp only at h
  split at h
  · simp only [Option.some.injEq] at h; subst h; exact hinv
  · split at h
    · simp only [Option.some.injEq] at h; subst h; exact hinv
    · split at h
      · simp only [Option.some.injEq] at h; subst h; exact hinv
      · split at h
        · contradiction
        · rename_i s2 hw
          split at h
          · contradiction
          · rename_i r s3 hu
            simp only [Option.some.injEq] at h
            subst h
            obtain ⟨w1, w2⟩ := post_update_work_items_config _ _ _ _ _ hw
            have h2 : transient_implies_inactive s2 := by
              simpa [transient_implies_inactive, replica.status, w1, w2] using hinv
            exact (update_configuration_frame _ _ _ _ _ hu).1 h2

theorem deliver_transient (env : environment) (s : replica) (ev : event) (s1 : replica)
    (h : deliver env s ev = some s1) (hinv : transient_implies_inactive s) :
    transient_implies_inactive s1 := by
  cases ev with
  | config_proposal p => exact on_config_proposal_transient env s p s1 h hinv
  | config_sync pc => exact on_config_sync_transient env s pc s1 h hinv
  | remove_request req => exact on_remove_transient env s req s1 h hinv
  | meta_reply err response req =>
    exact on_update_configuration_on_meta_server_reply_transient env s err response req s1 h
      hinv

/-- Invariant 4 is kept along every sequence of events. -/
theorem reachable_keeps_invariant4 (s0 s : replica) (h0 : transient_implies_inactive s0)
    (hr : reachable s0 s) : transient_implies_inactive s := by
  induction hr with
  | init => exact h0
  | step env ev _ hd ih => exact deliver_transient env _ ev _ hd ih

/-- C2: in every state reachable from an initial state with the flag unset by any
sequence of `on_config_proposal`, `on_config_sync`, `on_remove` and meta-reply
events, each with its own environment (so with any outcomes of the cleanups),
`inactive_is_transient = true` implies that the status is INACTIVE. -/
theorem transient_implies_inactive_of_reachable (s0 s : replica)
    (h0 : s0.inactive_is_transient = false) (hr : reachable s0 s) :
    s.inactive_is_transient = true → s.status = PS_INACTIVE := by
  induction hr with
  | init => intro ht; rw [h0] at ht; contradiction
  | step env ev _ hd ih => exact deliver_transient env _ ev _ hd ih

/-- C2 at concrete inputs. An inactive replica at ballot 0 receives an
assign-primary proposal at ballot 1 and waits, INACTIVE, with the flag set; a
potential secondary whose learning work is in flight receives the same kind of
proposal, the quiesce step is refused, and the flag stays unset. -/
theorem transient_implies_inactive_witness :
    (deliver sample_env (sample_replica PS_INACTIVE 0)
        (.config_proposal (sample_proposal CT_ASSIGN_PRIMARY 1 invalid_address))).map
      (fun s1 => (s1.inactive_is_transient, s1.status)) = some (true, PS_INACTIVE)
    ∧ (deliver sample_env_learning (sample_replica PS_POTENTIAL_SECONDARY 3)
        (.config_proposal (sample_proposal CT_ASSIGN_PRIMARY 3 invalid_address))).map
      (fun s1 => (s1.inactive_is_transient, s1.status)) = some (false, PS_POTENTIAL_SECONDARY)
    ∧ (((deliver sample_env (sample_replica PS_INACTIVE 0)
          (.config_proposal (sample_proposal CT_ASSIGN_PRIMARY 1 invalid_address))).get
            (by decide)).inactive_is_transient = true →
        ((deliver sample_env (sample_replica PS_INACTIVE 0)
          (.config_proposal (sample_proposal CT_ASSIGN_PRIMARY 1 invalid_address))).get
            (by decide)).status = PS_INACTIVE) :=
  ⟨rfl, rfl, transient_implies_inactive_of_reachable (sample_replica PS_INACTIVE 0) _ rfl
    (reachable.step sample_env
      (.config_proposal (sample_proposal CT_ASSIGN_PRIMARY 1 invalid_address))
      reachable.init (by simp))⟩

/-! ## C3: accepted transitions -/

/-- C3, as stated, fails: a potential secondary at ballot 1 accepts the
configuration POTENTIAL_SECONDARY at ballot 2, and that pair is not in the
matrix. -/
theorem potential_secondary_self_transition_accepted :
    is_unnecessary_change (sample_replica PS_POTENTIAL_SECONDARY 1)
        (sample_replica_configuration PS_POTENTIAL_SECONDARY 2) = false
    ∧ (pre_transition_gate sample_env (sample_replica PS_POTENTIAL_SECONDARY 1)
        (sample_replica_configuration PS_POTENTIAL_SECONDARY 2)).1 = true
    ∧ (update_local_configuration sample_env (sample_replica PS_POTENTIAL_SECONDARY 1)
          (sample_replica_configuration PS_POTENTIAL_SECONDARY 2) false).map
        (fun x => (x.1, x.2.config))
        = some (true, sample_replica_configuration PS_POTENTIAL_SECONDARY 2)
    ∧ (PS_POTENTIAL_SECONDARY, PS_POTENTIAL_SECONDARY) ∉ transition_matrix := by
  refine ⟨rfl, rfl, rfl, by decide⟩

/-- C3, amended: every call of `update_local_configuration` that passes the
short-circuit and the gate and returns has stored the requested configuration,
and its pair (old status, new status) is in the transition matrix of the
specification or is POTENTIAL_SECONDARY to POTENTIAL_SECONDARY. -/
theorem accepted_transition_in_matrix (env : environment) (s : replica)
    (rc : replica_configuration) (sb r : Bool) (s1 : replica)
    (hu : is_unnecessary_change s rc = false)
    (hg : (pre_transition_gate env s rc).1 = true)
    (h : update_local_configuration env s rc sb = some (r, s1)) :
    s1.config = rc
      ∧ ((s.status, rc.status) ∈ transition_matrix
          ∨ (s.status, rc.status) = (PS_POTENTIAL_SECONDARY, PS_POTENTIAL_SECONDARY)) := by
  obtain ⟨_, hc⟩ := update_local_configuration_cases env s rc sb r s1 h
  obtain ⟨_, _, hf⟩ := update_local_configuration_frame env s rc sb r s1 h
  constructor
  · rcases hf with ⟨_, _, _, hx | hx⟩ | ⟨c, _⟩
    · rw [hu] at hx; contradiction
    · rw [hg] at hx; contradiction
    · exact c
  · rcases hc with ⟨hx, _⟩ | ⟨_, hx, _⟩ | ⟨_, _, _, s3, ht, _⟩
    · rw [hu] at hx; contradiction
    · rw [hg] at hx; contradiction
    · revert ht hg
      cases hs : s.status <;> cases hrc : rc.status <;>
        simp [transition_side_effects, pre_transition_gate, transition_matrix, hs, hrc]

/-- The amended C3 at a concrete input: a potential secondary at ballot 9 accepts
SECONDARY at ballot 9. -/
theorem accepted_transition_in_matrix_witness :
    ∃ s1, update_local_configuration sample_env (sample_replica PS_POTENTIAL_SECONDARY 9)
        (sample_replica_configuration PS_SECONDARY 9) true = some (true, s1)
      ∧ s1.config = sample_replica_configuration PS_SECONDARY 9
      ∧ (((sample_replica PS_POTENTIAL_SECONDARY 9).status,
            (sample_replica_configuration PS_SECONDARY 9).status) ∈ transition_matrix
          ∨ ((sample_replica PS_POTENTIAL_SECONDARY 9).status,
              (sample_replica_configuration PS_SECONDARY 9).status)
            = (PS_POTENTIAL_SECONDARY, PS_POTENTIAL_SECONDARY)) :=
  ⟨_, rfl,
    accepted_transition_in_matrix sample_env (sample_replica PS_POTENTIAL_SECONDARY 9)
      (sample_replica_configuration PS_SECONDARY 9) true true _ rfl rfl rfl⟩

/-! ## C5: ERROR is terminal -/

theorem error_gate (env : environment) (s : replica) (rc : replica_configuration)
    (hs : s.status = PS_ERROR) : pre_transition_gate env s rc = (false, s) := by
  unfold pre_transition_gate
  rw [hs]

theorem update_local_configuration_error (env : environment) (s : replica)
    (rc : replica_configuration) (sb r : Bool) (s1 : replica) (hs : s.status = PS_ERROR)
    (h : update_local_configuration env s rc sb = some (r, s1)) :
    s1 = s ∧ (is_unnecessary_change s rc = false → r = false) := by
  obtain ⟨_, hc⟩ := update_local_configuration_cases env s rc sb r s1 h
  rw [error_gate env s rc hs] at hc
  rcases hc with ⟨hu, _, rfl⟩ | ⟨_, _, hr, rfl⟩ | ⟨_, hx, _⟩
  · exact ⟨rfl, fun hn => by rw [hu] at hn; contradiction⟩
  · exact ⟨rfl, fun _ => hr⟩
  · contradiction

theorem update_configuration_error (env : environment) (s : replica)
    (pc : partition_configuration) (r : Bool) (s1 : replica) (hs : s.status = PS_ERROR)
    (h : update_configuration env s pc = some (r, s1)) :
    s1.config = s.config ∧ s1.inactive_is_transient = s.inactive_is_transient := by
  unfold update_configuration at h
  split at h
  · dsimp only at h
    repeat' split at h
    all_goals first
      | (simp only [Option.some.injEq, Prod.mk.injEq] at h
         obtain ⟨_, rfl⟩ := h
         exact ⟨rfl, rfl⟩)
      | (obtain ⟨this, _⟩ := update_local_configuration_error _ _ _ _ _ _ (by exact hs) h
         subst this
         exact ⟨rfl, rfl⟩)
  · contradiction

theorem apply_config_call_error (env : environment) (s : replica) (c : config_call)
    (s1 : replica) (hs : s.status = PS_ERROR) (h : apply_config_call env s c = some s1) :
    s1.config = s.config ∧ s1.inactive_is_transient = s.inactive_is_transient := by
  cases c with
  | local_configuration rc sb =>
    simp only [apply_config_call] at h
    cases hu : update_local_configuration env s rc sb with
    | none => simp [hu] at h
    | some x =>
      obtain ⟨r, s2⟩ := x
      simp only [hu, Option.map_some', Option.some.injEq] at h
      subst h
      rw [(update_local_configuration_error _ _ _ _ _ _ hs hu).1]
      exact ⟨rfl, rfl⟩
  | configuration pc =>
    simp only [apply_config_call] at h
    cases hu : update_configuration env s pc with
    | none => simp [hu] at h
    | some x =>
      obtain ⟨r, s2⟩ := x
      simp only [hu, Option.map_some', Option.some.injEq] at h
      subst h
      exact update_configuration_error _ _ _ _ _ hs hu

theorem apply_config_calls_error (calls : List (environment × config_call)) :
    ∀ (s s1 : replica), s.status = PS_ERROR → apply_config_calls s calls = some s1 →
      s1.config = s.config ∧ s1.inactive_is_transient = s.inactive_is_transient := by
  induction calls with
  | nil =>
    intro s s1 _ h
    simp only [apply_config_calls, Option.some.injEq] at h
    subst h
    exact ⟨rfl, rfl⟩
  | cons c rest ih =>
    intro s s1 hs h
    obtain ⟨env, c⟩ := c
    simp only [apply_config_calls] at h
    split at h
    · contradiction
    · rename_i s2 hc
      obtain ⟨c1, t1⟩ := apply_config_call_error env s c s2 hs hc
      have hs2 : s2.status = PS_ERROR := by simpa [replica.status, c1] using hs
      obtain ⟨c2, t2⟩ := ih s2 s1 hs2 h
      exact ⟨c2.trans c1, t2.trans t1⟩

/-- C5: while the status is ERROR, `update_local_configuration` called with a
configuration that satisfies the ballot precondition changes nothing when it
returns, returns false when the configuration's status or ballot differs from the
current one, and does return when the pid matches; hence no sequence of calls of
`update_local_configuration` and `update_configuration` changes the stored
configuration (so the status stays ERROR) or the flag. -/
theorem error_is_terminal (env : environment) (s : replica) (rc : replica_configuration)
    (sb : Bool) (hs : s.status = PS_ERROR)
    (hb : rc.ballot > s.get_ballot ∨ (sb = true ∧ rc.ballot = s.get_ballot)) :
    (∀ r s1, update_local_configuration env s rc sb = some (r, s1) →
        s1 = s ∧ (¬ (rc.status = s.status ∧ rc.ballot = s.get_ballot) → r = false))
    ∧ (rc.pid = s.get_gpid →
        update_local_configuration env s rc sb
          = some (decide (rc.status = s.status ∧ rc.ballot = s.get_ballot), s))
    ∧ (∀ calls s1, apply_config_calls s calls = some s1 →
        s1.config = s.config ∧ s1.inactive_is_transient = s.inactive_is_transient
          ∧ s1.status = PS_ERROR) := by
  refine ⟨?_, ?_, ?_⟩
  · intro r s1 h
    obtain ⟨e, hr⟩ := update_local_configuration_error env s rc sb r s1 hs h
    refine ⟨e, fun hd => hr ?_⟩
    simp only [is_unnecessary_change, Bool.and_eq_false_iff, decide_eq_false_iff_not]
    by_contra hc
    push_neg at hc
    exact hd ⟨hc.1.symm, hc.2.symm⟩
  · intro hp
    have ha : update_local_configuration_asserts s rc sb = true := by
      simp only [update_local_configuration_asserts, Bool.and_eq_true, Bool.or_eq_true,
        decide_eq_true_eq]
      exact ⟨by rcases hb with hb | hb
                · exact Or.inl hb
                · exact Or.inr hb, hp⟩
    unfold update_local_configuration
    simp only [ha, Bool.true_eq_false, ↓reduceIte, error_gate env s rc hs]
    by_cases hd : rc.status = s.status ∧ rc.ballot = s.get_ballot
    · have hu : is_unnecessary_change s rc = true := by
        simp [is_unnecessary_change, hd.1, hd.2]
      simp [hu, hd]
    · have hu : is_unnecessary_change s rc = false := by
        simp only [is_unnecessary_change, Bool.and_eq_false_iff, decide_eq_false_iff_not]
        by_contra hc
        push_neg at hc
        exact hd ⟨hc.1.symm, hc.2.symm⟩
      simp [hu, hd]
  · intro calls s1 h
    obtain ⟨c, t⟩ := apply_config_calls_error calls s s1 hs h
    exact ⟨c, t, by simpa [replica.status, c] using hs⟩

/-- C5 at a concrete input: a replica in ERROR at ballot 4 is asked to become
INACTIVE at ballot 5; the call returns false and the replica is unchanged. -/
theorem error_is_terminal_witness :
    update_local_configuration sample_env (sample_replica PS_ERROR 4)
        (sample_replica_configuration PS_INACTIVE 5) false
      = some (false, sample_replica PS_ERROR 4)
    ∧ (apply_config_calls (sample_replica PS_ERROR 4)
        [(sample_env, .local_configuration (sample_replica_configuration PS_INACTIVE 5) false),
         (sample_env, .configuration { sample_membership with ballot := 6, primary := 1 })]).map
        (fun s1 => s1.config) = some (sample_replica PS_ERROR 4).config :=
  ⟨(error_is_terminal sample_env (sample_replica PS_ERROR 4)
      (sample_replica_configuration PS_INACTIVE 5) false rfl (Or.inl (by decide))).2.1 rfl,
    rfl⟩

/-! ## C6: closing -/

theorem pre_transition_gate_trace (env : environment) (s : replica)
    (rc : replica_configuration) :
    ∃ g, (pre_transition_gate env s rc).2.trace = s.trace ++ g := by
  unfold pre_transition_gate
  split <;> (try split) <;> first
    | exact ⟨[], (List.append_nil _).symm⟩
    | exact ⟨_, rfl⟩

theorem transition_side_effects_trace (env : environment) (os : partition_status) (ob : Int)
    (s s3 : replica) (rc : replica_configuration)
    (h : transition_side_effects env os ob s rc = some s3) :
    ∃ t, s3.trace = s.trace ++ t := by
  unfold transition_side_effects at h
  cases os <;> cases hrc : rc.status <;> simp [hrc] at h <;>
    first
      | (subst h; split <;> simp)
      | (subst h; simp)
      | (obtain ⟨_, h⟩ := h; subst h; simp)

theorem post_transition_closing (env : environment) (os : partition_status) (ob : Int)
    (s : replica) (rc : replica_configuration) (hcfg : s.config = rc) (hne : rc.status ≠ os)
    (hc : rc.status = PS_ERROR ∨ (rc.status = PS_INACTIVE ∧ rc.ballot > ob)) :
    post_transition env os ob s rc
      = (false, (s.emit (.notify_replica_state_update rc true)).emit .begin_close_replica) := by
  have hclose : (s.status == PS_ERROR
      || (s.status == PS_INACTIVE && decide (s.get_ballot > ob))) = true := by
    simp only [replica.status, replica.get_ballot, hcfg]
    rcases hc with hc | ⟨hc, hb⟩
    · simp [hc]
    · simp [hc, hb]
  unfold post_transition
  have hst : s.status ≠ os := by simpa [replica.status, hcfg] using hne
  simp only [hst, ne_eq, not_false_eq_true, ↓reduceIte, hclose]

/-- C6, as stated, fails: an inactive replica at ballot 0 commits INACTIVE at
ballot 1, a greater ballot; the stub is notified with `is_closing = false`, no
close is requested and the call returns true. -/
theorem inactive_to_inactive_not_closing :
    is_unnecessary_change (sample_replica PS_INACTIVE 0)
        (sample_replica_configuration PS_INACTIVE 1) = false
    ∧ (pre_transition_gate sample_env (sample_replica PS_INACTIVE 0)
        (sample_replica_configuration PS_INACTIVE 1)).1 = true
    ∧ (sample_replica_configuration PS_INACTIVE 1).status = PS_INACTIVE
    ∧ (sample_replica_configuration PS_INACTIVE 1).ballot
        > (sample_replica PS_INACTIVE 0).get_ballot
    ∧ (update_local_configuration sample_env (sample_replica PS_INACTIVE 0)
          (sample_replica_configuration PS_INACTIVE 1) false).map
        (fun x => (x.1, x.2.config, x.2.trace))
        = some (true, sample_replica_configuration PS_INACTIVE 1,
            [.notify_replica_state_update (sample_replica_configuration PS_INACTIVE 1)
              false]) := by
  refine ⟨rfl, rfl, rfl, by decide, rfl⟩

/-- C6, amended: every call of `update_local_configuration` that passes the
short-circuit and the gate and commits a configuration whose status is ERROR, or
whose status is INACTIVE with a ballot strictly greater than the old one while the
old status is not INACTIVE, notifies the stub with `is_closing = true`, then
requests `begin_close_replica`, and returns false. -/
theorem closing_on_commit (env : environment) (s : replica) (rc : replica_configuration)
    (sb r : Bool) (s1 : replica)
    (hu : is_unnecessary_change s rc = false)
    (hg : (pre_transition_gate env s rc).1 = true)
    (h : update_local_configuration env s rc sb = some (r, s1))
    (hc : rc.status = PS_ERROR
      ∨ (rc.status = PS_INACTIVE ∧ s.status ≠ PS_INACTIVE ∧ rc.ballot > s.get_ballot)) :
    r = false ∧ s1.config = rc
      ∧ ∃ pre, s1.trace
          = s.trace ++ pre
            ++ [.notify_replica_state_update rc true, .begin_close_replica] := by
  obtain ⟨_, hcs⟩ := update_local_configuration_cases env s rc sb r s1 h
  rcases hcs with ⟨hx, _⟩ | ⟨_, hx, _⟩ | ⟨_, _, _, s3, ht, hp⟩
  · rw [hu] at hx; contradiction
  · rw [hg] at hx; contradiction
  · obtain ⟨t1, _⟩ := transition_side_effects_frame env _ _ _ s3 rc ht
    obtain ⟨t, ht2⟩ := transition_side_effects_trace env _ _ _ s3 rc ht
    obtain ⟨g, hg2⟩ := pre_transition_gate_trace env s rc
    simp only at t1 ht2
    have hne : rc.status ≠ s.status := by
      rcases hc with hc | ⟨hc, hn, _⟩
      · intro he
        rw [error_gate env s rc (he.symm.trans hc)] at hg
        contradiction
      · intro he
        exact hn (he.symm.trans hc)
    have hc2 : rc.status = PS_ERROR ∨ (rc.status = PS_INACTIVE ∧ rc.ballot > s.get_ballot) := by
      rcases hc with hc | ⟨hc, _, hb⟩
      · exact Or.inl hc
      · exact Or.inr ⟨hc, hb⟩
    rw [post_transition_closing env s.status s.get_ballot s3 rc t1 hne hc2] at hp
    simp only [Prod.mk.injEq] at hp
    obtain ⟨rfl, rfl⟩ := hp
    refine ⟨rfl, by simpa using t1, g ++ t, ?_⟩
    simp [ht2, hg2]

/-- The amended C6 at a concrete input: a secondary at ballot 7 commits INACTIVE at
ballot 8 and is closed. -/
theorem closing_on_commit_witness :
    ∃ s1, update_local_configuration sample_env (sample_replica PS_SECONDARY 7)
        (sample_replica_configuration PS_INACTIVE 8) false = some (false, s1)
      ∧ (false = false ∧ s1.config = sample_replica_configuration PS_INACTIVE 8
          ∧ ∃ pre, s1.trace
              = (sample_replica PS_SECONDARY 7).trace ++ pre
                ++ [.notify_replica_state_update (sample_replica_configuration PS_INACTIVE 8)
                      true, .begin_close_replica]) :=
  ⟨_, rfl,
    closing_on_commit sample_env (sample_replica PS_SECONDARY 7)
      (sample_replica_configuration PS_INACTIVE 8) false false _ rfl rfl rfl
      (Or.inr ⟨rfl, by decide, by decide⟩)⟩

/-! ## C7: seed scenario 1, primary assignment -/

/-- C7, as stated, fails: the proposal's configuration names this node as primary
at a ballot above the local one, so `on_config_proposal` first applies it through
`update_configuration`. With the flag unset the change INACTIVE to PRIMARY is
refused and the proposal is dropped; with the flag set the replica becomes PRIMARY
and `assign_primary` ignores the proposal. No request reaches the meta service. -/
theorem primary_assignment_counterexample :
    (on_config_proposal sample_env (sample_replica PS_INACTIVE 0)
        (sample_proposal CT_ASSIGN_PRIMARY 1 1)).map
      (fun s1 => (s1.status, s1.get_ballot, s1.inactive_is_transient,
        s1.primary_states.reconfiguration_task, s1.trace))
      = some (PS_INACTIVE, 0, false, none, [])
    ∧ (on_config_proposal sample_env
        { sample_replica PS_INACTIVE 0 with inactive_is_transient := true }
        (sample_proposal CT_ASSIGN_PRIMARY 1 1)).map
      (fun s1 => (s1.status, s1.get_ballot, s1.inactive_is_transient,
        s1.primary_states.reconfiguration_task, s1.trace))
      = some (PS_PRIMARY, 1, false, none,
          [.init_group_check, .replay_prepare_list,
           .notify_replica_state_update (sample_replica_configuration PS_PRIMARY 1)
             false]) := by
  refine ⟨rfl, rfl⟩

/-- C7, amended: from a replica with status INACTIVE, ballot 0 and no
reconfiguration in flight, an ASSIGN_PRIMARY proposal for this node whose
configuration has ballot 1, a primary other than this node and no secondaries (for
the replica's partition, with the prepare list not behind the commit point) emits
exactly one request to the meta service, with ballot 2 and type ASSIGN_PRIMARY,
and leaves the replica INACTIVE at ballot 1 with `inactive_is_transient` set and
the request recorded as the reconfiguration task. -/
theorem primary_assignment (env : environment) (s : replica)
    (p : configuration_update_request)
    (hst : s.status = PS_INACTIVE) (hb : s.get_ballot = 0)
    (htask : s.primary_states.reconfiguration_task = none)
    (htype : p.type = CT_ASSIGN_PRIMARY) (hnode : p.node = env.primary_address)
    (hpb : p.config.ballot = 1) (hprim : p.config.primary ≠ env.primary_address)
    (hsec : p.config.secondaries = []) (hpid : p.config.pid = s.get_gpid)
    (hdec : env.max_prepared_decree ≥ env.last_committed_decree) :
    on_config_proposal env s p
      = some
          { config :=
              { pid := p.config.pid, ballot := 1, status := PS_INACTIVE,
                learner_signature := invalid_signature }
            inactive_is_transient := true
            last_config_change_time_ms := env.now_ms
            primary_states :=
              { s.primary_states with
                reconfiguration_task :=
                  some
                    { request :=
                        { info := s.app_info
                          config :=
                            { p.config with
                              primary := env.primary_address
                              secondaries := []
                              ballot := 2
                              last_committed_decree := env.last_committed_decree }
                          type := CT_ASSIGN_PRIMARY
                          node := env.primary_address }
                      delay_ms := 0 } }
            app_info := s.app_info
            trace :=
              s.trace ++
                [ .notify_replica_state_update
                    { pid := p.config.pid, ballot := 1, status := PS_INACTIVE,
                      learner_signature := invalid_signature } false,
                  .call_meta env.meta_server
                    { info := s.app_info
                      config :=
                        { p.config with
                          primary := env.primary_address
                          secondaries := []
                          ballot := 2
                          last_committed_decree := env.last_committed_decree }
                      type := CT_ASSIGN_PRIMARY
                      node := env.primary_address } ] } := by
  obtain ⟨⟨pid, b, st, sig⟩, tr, tm, ps, ai, trace⟩ := s
  obtain ⟨info, ⟨ppid, pb, pm, pp, psec, plc⟩, ty, nd⟩ := p
  simp only [replica.status, replica.get_ballot, replica.get_gpid] at *
  subst hst hb htype hnode hpb hsec hpid
  have hprim2 : ¬ env.primary_address = pp := fun h => hprim h.symm
  have hwrap : int64_wrap 2 = 2 := by decide
  simp [on_config_proposal, update_configuration, update_local_configuration,
    update_local_configuration_asserts, is_unnecessary_change, pre_transition_gate,
    transition_side_effects, post_transition, start_pending_mutations, dispatch_proposal,
    assign_primary, update_configuration_on_meta_server,
    update_local_configuration_with_no_ballot_change, set_inactive_state_transient,
    get_replica_config, remove_node, replica.status, replica.get_ballot, replica.get_gpid,
    replica.emit, next_ballot, hwrap, htask, hprim2, hdec,
    is_same_ballot_status_change_allowed]

/-- The amended C7 at a concrete input: the seed scenario with an invalid primary
in the proposal's configuration. -/
theorem primary_assignment_witness :
    (on_config_proposal sample_env (sample_replica PS_INACTIVE 0)
        (sample_proposal CT_ASSIGN_PRIMARY 1 invalid_address)).map
      (fun s1 => (s1.status, s1.get_ballot, s1.inactive_is_transient, s1.trace))
      = some (PS_INACTIVE, 1, true,
          [ .notify_replica_state_update (sample_replica_configuration PS_INACTIVE 1) false,
            .call_meta 9
              { info := 7
                config := { sample_membership with ballot := 2, primary := 1 }
                type := CT_ASSIGN_PRIMARY
                node := 1 } ]) := by
  rw [primary_assignment sample_env (sample_replica PS_INACTIVE 0)
    (sample_proposal CT_ASSIGN_PRIMARY 1 invalid_address) rfl rfl rfl rfl rfl rfl (by decide)
    rfl rfl (by decide)]
  rfl

/-! ## C8: learner admission -/

theorem map_find_append_new {β : Type} (m : List (rpc_address × β)) (k : rpc_address) (v : β)
    (h : map_find m k = none) : map_find (m ++ [(k, v)]) k = some v := by
  unfold map_find at h ⊢
  rw [List.lookup_append, h]
  simp

theorem map_find_append_old {β : Type} (m : List (rpc_address × β)) (k : rpc_address)
    (e : rpc_address × β) (v : β) (h : map_find m k = some v) :
    map_find (m ++ [e]) k = some v := by
  unfold map_find at h ⊢
  rw [List.lookup_append, h]
  simp

theorem map_find_map_set {β : Type} (m : List (rpc_address × β)) (k : rpc_address) (v : β) :
    map_find (map_set m k v) k = some v := by
  induction m with
  | nil => simp [map_set, map_find]
  | cons e m ih =>
    obtain ⟨k1, v1⟩ := e
    unfold map_set
    split
    · simp [map_find]
    · rename_i hne
      unfold map_find at ih ⊢
      rw [List.lookup_cons]
      have : (k == k1) = false := by
        simp only [beq_eq_false_iff_ne, ne_eq]
        exact fun h => hne h.symm
      rw [this]
      exact ih

/-- Past its assertions, `add_potential_secondary` is the admission control
followed by the learner registration and the RPC. -/
theorem add_potential_secondary_eq (env : environment) (s : replica)
    (p : configuration_update_request) (hst : s.status = PS_PRIMARY)
    (hb : p.config.ballot = s.get_ballot) (hm : proposal_matches_membership s p = true)
    (hnp : p.node ≠ s.primary_states.membership.primary)
    (hns : p.node ∉ s.primary_states.membership.secondaries) :
    add_potential_secondary env s p
      = match admission_control s p with
        | none => none
        | some false => some s
        | some true => some (admit_learner env s p.node) := by
  have hnp2 : ¬ s.primary_states.membership.primary = p.node := fun h => hnp h.symm
  unfold add_potential_secondary admit_learner
  simp only [hst, ne_eq, not_true_eq_false, ↓reduceIte, hb, hm, Bool.true_eq_false,
    check_exist, hnp2, decide_False, hns]
  cases admission_control s p with
  | none => rfl
  | some b =>
    cases b
    · rfl
    · cases map_find s.primary_states.learners p.node <;> rfl

theorem admit_learner_accepted (env : environment) (s : replica) (node : rpc_address) :
    proposal_accepted s (admit_learner env s node) node := by
  unfold admit_learner proposal_accepted
  cases hf : map_find s.primary_states.learners node with
  | some it =>
    simp only [call_learn_add_learner, emit_primary_states, hf, Option.isSome_some, emit_trace,
      true_and]
    exact ⟨_, rfl⟩
  | none =>
    simp only [call_learn_add_learner, emit_primary_states, emit_trace]
    refine ⟨?_, _, rfl⟩
    simp only [register_learner]
    rw [map_find_append_new _ _ _ hf]
    rfl

theorem not_accepted_self (s : replica) (node : rpc_address) : ¬ proposal_accepted s s node := by
  intro h
  obtain ⟨_, req, hreq⟩ := h
  have := congrArg List.length hreq
  simp at this

theorem admission_control_add_secondary (s : replica) (p : configuration_update_request)
    (hty : p.type = CT_ADD_SECONDARY) :
    admission_control s p
      = some (decide (potential_secondaries_count s
            < s.primary_states.membership.max_replica_count - 1
          ∨ (map_find s.primary_states.learners p.node).isSome = true)) := by
  unfold admission_control
  by_cases hc : potential_secondaries_count s
      ≥ s.primary_states.membership.max_replica_count - 1
  · have hlt : ¬ potential_secondaries_count s
        < s.primary_states.membership.max_replica_count - 1 := not_lt.mpr hc
    cases hf : map_find s.primary_states.learners p.node <;> simp [hc, hty, hlt]
  · have hlt : potential_secondaries_count s
        < s.primary_states.membership.max_replica_count - 1 := not_le.mp hc
    simp [hc, hlt]

theorem admission_control_add_secondary_for_lb (s : replica)
    (p : configuration_update_request) (hty : p.type = CT_ADD_SECONDARY_FOR_LB) :
    admission_control s p
      = some (decide (potential_secondaries_count s
            < s.primary_states.membership.max_replica_count)) := by
  unfold admission_control
  by_cases hc : potential_secondaries_count s
      ≥ s.primary_states.membership.max_replica_count - 1
  · by_cases hc2 : potential_secondaries_count s
        ≥ s.primary_states.membership.max_replica_count
    · have hlt : ¬ potential_secondaries_count s
          < s.primary_states.membership.max_replica_count := not_lt.mpr hc2
      simp [hc, hty, hc2, hlt]
    · have hlt : potential_secondaries_count s
          < s.primary_states.membership.max_replica_count := not_le.mp hc2
      simp [hc, hty, hc2, hlt]
  · have hlt : potential_secondaries_count s
        < s.primary_states.membership.max_replica_count := by
      have := not_le.mp hc
      linarith
    simp [hc, hlt]

/-- C8: for a PRIMARY replica and an add-learner proposal whose configuration
matches the membership and whose node is neither primary nor secondary, the call
returns; an ADD_SECONDARY proposal is accepted (a learner entry for the node
exists afterwards and one LEARN_ADD_LEARNER is sent to it) exactly when
`potential_count < max_replica_count - 1` or the node is already a learner; an
ADD_SECONDARY_FOR_LB proposal is accepted exactly when
`potential_count < max_replica_count`; a proposal that is not accepted leaves the
replica unchanged, trace included. -/
theorem add_learner_admission (env : environment) (s : replica)
    (p : configuration_update_request) (hst : s.status = PS_PRIMARY)
    (hinv : s.primary_states.membership.ballot = s.get_ballot)
    (hb : p.config.ballot = s.primary_states.membership.ballot)
    (hpid : p.config.pid = s.primary_states.membership.pid)
    (hprim : p.config.primary = s.primary_states.membership.primary)
    (hsec : p.config.secondaries = s.primary_states.membership.secondaries)
    (hnp : p.node ≠ s.primary_states.membership.primary)
    (hns : p.node ∉ s.primary_states.membership.secondaries)
    (hty : p.type = CT_ADD_SECONDARY ∨ p.type = CT_ADD_SECONDARY_FOR_LB) :
    ∃ s1, add_potential_secondary env s p = some s1
      ∧ (p.type = CT_ADD_SECONDARY →
          (proposal_accepted s s1 p.node ↔
            (potential_secondaries_count s < s.primary_states.membership.max_replica_count - 1
              ∨ (map_find s.primary_states.learners p.node).isSome = true)))
      ∧ (p.type = CT_ADD_SECONDARY_FOR_LB →
          (proposal_accepted s s1 p.node ↔
            potential_secondaries_count s < s.primary_states.membership.max_replica_count))
      ∧ (¬ proposal_accepted s s1 p.node → s1 = s) := by
  have hm : proposal_matches_membership s p = true := by
    simp [proposal_matches_membership, hpid, hprim, hsec]
  have heq := add_potential_secondary_eq env s p hst (hb.trans hinv) hm hnp hns
  have hdec : ∀ c : Prop, [Decidable c] → admission_control s p = some (decide c) →
      ∃ s1, add_potential_secondary env s p = some s1
        ∧ (proposal_accepted s s1 p.node ↔ c)
        ∧ (¬ proposal_accepted s s1 p.node → s1 = s) := by
    intro c _ hc
    rw [hc] at heq
    by_cases hcc : c
    · simp only [hcc, decide_True] at heq
      exact ⟨_, heq, ⟨fun _ => hcc, fun _ => admit_learner_accepted env s p.node⟩,
        fun hn => absurd (admit_learner_accepted env s p.node) hn⟩
    · simp only [hcc, decide_False] at heq
      exact ⟨_, heq, ⟨fun ha => absurd ha (not_accepted_self s p.node),
        fun h => absurd h hcc⟩, fun _ => rfl⟩
  rcases hty with hty | hty
  · obtain ⟨s1, h1, h2, h3⟩ := hdec _ (admission_control_add_secondary s p hty)
    exact ⟨s1, h1, fun _ => h2, fun hx => by rw [hty] at hx; contradiction, h3⟩
  · obtain ⟨s1, h1, h2, h3⟩ := hdec _ (admission_control_add_secondary_for_lb s p hty)
    exact ⟨s1, h1, fun hx => by rw [hty] at hx; contradiction, fun _ => h2, h3⟩

/-- C8 at a concrete input (seed scenario 3): with one secondary and one learner
out of at most three replicas, ADD_SECONDARY for a new node is dropped and
ADD_SECONDARY_FOR_LB for it is accepted. -/
theorem add_learner_admission_witness :
    add_potential_secondary sample_env (sample_primary [(4, sample_learner 1)] 1)
        (sample_add_learner CT_ADD_SECONDARY 5)
      = some (sample_primary [(4, sample_learner 1)] 1)
    ∧ (add_potential_secondary sample_env (sample_primary [(4, sample_learner 1)] 1)
          (sample_add_learner CT_ADD_SECONDARY_FOR_LB 5)).map
        (fun s1 => (s1.primary_states.learners, s1.trace.length))
        = some ([(4, sample_learner 1), (5, sample_learner 2)], 1)
    ∧ ∃ s1, add_potential_secondary sample_env (sample_primary [(4, sample_learner 1)] 1)
          (sample_add_learner CT_ADD_SECONDARY 5) = some s1
        ∧ (¬ proposal_accepted (sample_primary [(4, sample_learner 1)] 1) s1 5 →
            s1 = sample_primary [(4, sample_learner 1)] 1) := by
  refine ⟨rfl, rfl, ?_⟩
  obtain ⟨s1, h1, _, _, h4⟩ := add_learner_admission sample_env
    (sample_primary [(4, sample_learner 1)] 1) (sample_add_learner CT_ADD_SECONDARY 5)
    rfl rfl rfl rfl rfl rfl (by decide) (by decide) (Or.inl rfl)
  exact ⟨s1, h1, h4⟩

/-! ## C9: re-issuing an ADD_SECONDARY proposal -/

theorem admit_learner_found (env : environment) (s : replica) (node : rpc_address)
    (it : remote_learner_state) (h : map_find s.primary_states.learners node = some it) :
    admit_learner env s node = call_learn_add_learner env s node it.signature := by
  unfold admit_learner
  rw [h]

theorem admit_learner_new (env : environment) (s : replica) (node : rpc_address)
    (h : map_find s.primary_states.learners node = none) :
    admit_learner env s node
      = call_learn_add_learner env (register_learner s node) node
          (next_signature s.primary_states.next_learning_version) := by
  unfold admit_learner
  rw [h]
  rfl

theorem admit_learner_frame (env : environment) (s : replica) (node : rpc_address) :
    (admit_learner env s node).config = s.config
      ∧ (admit_learner env s node).primary_states.membership = s.primary_states.membership
      ∧ (admit_learner env s node).app_info = s.app_info := by
  cases hf : map_find s.primary_states.learners node with
  | some it => rw [admit_learner_found env s node it hf]; exact ⟨rfl, rfl, rfl⟩
  | none => rw [admit_learner_new env s node hf]; exact ⟨rfl, rfl, rfl⟩

/-- C9: an accepted ADD_SECONDARY proposal applied a second time leaves the primary
bookkeeping (learners, statuses, `next_learning_version`) exactly as after the
first application, and the second LEARN_ADD_LEARNER carries the signature of the
first; when the node was not a learner, the first application increments
`next_learning_version` by one (as a 64-bit counter), gives the learner that
signature and records the node as POTENTIAL_SECONDARY. -/
theorem add_secondary_idempotent (env env2 : environment) (s : replica)
    (p : configuration_update_request) (hst : s.status = PS_PRIMARY)
    (hinv : s.primary_states.membership.ballot = s.get_ballot)
    (hb : p.config.ballot = s.primary_states.membership.ballot)
    (hpid : p.config.pid = s.primary_states.membership.pid)
    (hprim : p.config.primary = s.primary_states.membership.primary)
    (hsec : p.config.secondaries = s.primary_states.membership.secondaries)
    (hnp : p.node ≠ s.primary_states.membership.primary)
    (hns : p.node ∉ s.primary_states.membership.secondaries)
    (hty : p.type = CT_ADD_SECONDARY)
    (hadm : potential_secondaries_count s < s.primary_states.membership.max_replica_count - 1
      ∨ (map_find s.primary_states.learners p.node).isSome = true) :
    ∃ s1 s2 it, add_potential_secondary env s p = some s1
      ∧ add_potential_secondary env2 s1 p = some s2
      ∧ map_find s1.primary_states.learners p.node = some it
      ∧ s2.primary_states = s1.primary_states
      ∧ s2.config = s1.config
      ∧ s1.trace = s.trace ++
          [.learn_add_learner p.node
            { app := s.app_info, node := p.node
              config := s1.primary_states.get_replica_config PS_POTENTIAL_SECONDARY it.signature
              last_committed_decree := env.last_committed_decree }]
      ∧ s2.trace = s1.trace ++
          [.learn_add_learner p.node
            { app := s.app_info, node := p.node
              config := s1.primary_states.get_replica_config PS_POTENTIAL_SECONDARY it.signature
              last_committed_decree := env2.last_committed_decree }]
      ∧ (map_find s.primary_states.learners p.node = none →
          s1.primary_states.next_learning_version
              = (s.primary_states.next_learning_version + 1) % 2 ^ 64
            ∧ (s.primary_states.next_learning_version + 1 < 2 ^ 64 →
                s1.primary_states.next_learning_version
                  = s.primary_states.next_learning_version + 1)
            ∧ it.signature = s1.primary_states.next_learning_version
            ∧ map_find s1.primary_states.statuses p.node = some PS_POTENTIAL_SECONDARY) := by
  have hm : proposal_matches_membership s p = true := by
    simp [proposal_matches_membership, hpid, hprim, hsec]
  have h1 : add_potential_secondary env s p = some (admit_learner env s p.node) := by
    rw [add_potential_secondary_eq env s p hst (hb.trans hinv) hm hnp hns,
      admission_control_add_secondary s p hty]
    simp [hadm]
  obtain ⟨fc, fm, fa⟩ := admit_learner_frame env s p.node
  obtain ⟨hsome, _⟩ := admit_learner_accepted env s p.node
  have hm1 : proposal_matches_membership (admit_learner env s p.node) p = true := by
    simp [proposal_matches_membership, hpid, hprim, hsec, fm]
  have h2 : add_potential_secondary env2 (admit_learner env s p.node) p
      = some (admit_learner env2 (admit_learner env s p.node) p.node) := by
    rw [add_potential_secondary_eq env2 _ p (by simpa [replica.status, fc] using hst)
        (by simpa [replica.get_ballot, fc] using hb.trans hinv) hm1 (by rw [fm]; exact hnp)
        (by rw [fm]; exact hns),
      admission_control_add_secondary _ p hty]
    simp [hsome]
  cases hf : map_find s.primary_states.learners p.node with
  | some it =>
    have e1 := admit_learner_found env s p.node it hf
    have hf1 : map_find (admit_learner env s p.node).primary_states.learners p.node
        = some it := by rw [e1]; exact hf
    have e2 := admit_learner_found env2 _ p.node it hf1
    refine ⟨_, _, it, h1, h2, hf1, by rw [e2]; rfl, by rw [e2]; rfl, by rw [e1]; rfl,
      by rw [e2, e1]; rfl, fun hn => by simp at hn⟩
  | none =>
    have e1 := admit_learner_new env s p.node hf
    have hf1 : map_find (admit_learner env s p.node).primary_states.learners p.node
        = some { signature := next_signature s.primary_states.next_learning_version
                 prepare_start_decree := invalid_decree, timeout_task := none } := by
      rw [e1]
      exact map_find_append_new _ _ _ hf
    have e2 := admit_learner_found env2 _ p.node _ hf1
    refine ⟨_, _, _, h1, h2, hf1, by rw [e2]; rfl, by rw [e2]; rfl, by rw [e1]; rfl,
      by rw [e2, e1]; rfl, fun _ => ⟨by rw [e1]; rfl, ?_, by rw [e1]; rfl, ?_⟩⟩
    · intro hlt
      rw [e1]
      exact Nat.mod_eq_of_lt hlt
    · rw [e1]
      exact map_find_map_set _ _ _

/-- C9 at a concrete input (seed scenario 2): ADD_SECONDARY for node 3 on a primary
with one secondary and no learner, issued twice. -/
theorem add_secondary_idempotent_witness :
    (add_potential_secondary sample_env (sample_primary [] 0)
        (sample_add_learner CT_ADD_SECONDARY 3)).map
      (fun s1 => (s1.primary_states.learners, s1.primary_states.next_learning_version))
      = some ([(3, sample_learner 1)], 1)
    ∧ ∃ s1 s2 it, add_potential_secondary sample_env (sample_primary [] 0)
          (sample_add_learner CT_ADD_SECONDARY 3) = some s1
        ∧ add_potential_secondary sample_env s1 (sample_add_learner CT_ADD_SECONDARY 3)
            = some s2
        ∧ map_find s1.primary_states.learners 3 = some it
        ∧ s2.primary_states = s1.primary_states := by
  refine ⟨rfl, ?_⟩
  obtain ⟨s1, s2, it, h1, h2, h3, h4, _⟩ := add_secondary_idempotent sample_env sample_env
    (sample_primary [] 0) (sample_add_learner CT_ADD_SECONDARY 3) rfl rfl rfl rfl rfl rfl
    (by decide) (by decide) rfl (Or.inl (by decide))
  exact ⟨s1, s2, it, h1, h2, h3, h4⟩

/-! ## C10: learner signatures are distinct and issued monotonically -/

theorem add_potential_secondary_learners (env : environment) (s : replica)
    (p : configuration_update_request) (s1 : replica)
    (h : add_potential_secondary env s p = some s1) :
    (s1.primary_states.learners = s.primary_states.learners
        ∧ s1.primary_states.next_learning_version = s.primary_states.next_learning_version)
      ∨ (s1.primary_states.learners
            = s.primary_states.learners ++
                [(p.node, { signature := next_signature s.primary_states.next_learning_version
                            prepare_start_decree := invalid_decree, timeout_task := none })]
          ∧ s1.primary_states.next_learning_version
              = next_signature s.primary_states.next_learning_version) := by
  unfold add_potential_secondary at h
  repeat' split at h
  all_goals first
    | contradiction
    | (simp only [Option.some.injEq] at h; subst h; exact Or.inl ⟨rfl, rfl⟩)
    | (simp only [Option.some.injEq] at h; subst h; exact Or.inr ⟨rfl, rfl⟩)

theorem add_potential_secondary_signatures (env : environment) (s : replica)
    (p : configuration_update_request) (s1 : replica) (hok : signatures_ok s)
    (hwrap : s.primary_states.next_learning_version + 1 < 2 ^ 64)
    (h : add_potential_secondary env s p = some s1) :
    signatures_ok s1
      ∧ s.primary_states.next_learning_version ≤ s1.primary_states.next_learning_version
      ∧ s1.primary_states.next_learning_version ≤ s.primary_states.next_learning_version + 1
      ∧ issues_monotonically s s1 := by
  obtain ⟨hnd, hle⟩ := hok
  rcases add_potential_secondary_learners env s p s1 h with ⟨hl, hv⟩ | ⟨hl, hv⟩
  · refine ⟨⟨?_, ?_⟩, by rw [hv], by rw [hv]; exact Nat.le_succ _, Or.inl hl⟩
    · simpa [learner_signatures, hl] using hnd
    · simpa [learner_signatures, hl, hv] using hle
  · have hnext : next_signature s.primary_states.next_learning_version
        = s.primary_states.next_learning_version + 1 := Nat.mod_eq_of_lt hwrap
    rw [hnext] at hl hv
    have hlt : ∀ x ∈ learner_signatures s,
        x < s.primary_states.next_learning_version + 1 :=
      fun x hx => Nat.lt_succ_of_le (hle x hx)
    have hsig : learner_signatures s1
        = learner_signatures s ++ [s.primary_states.next_learning_version + 1] := by
      simp [learner_signatures, hl]
    refine ⟨⟨?_, ?_⟩, by rw [hv]; exact Nat.le_succ _, by rw [hv], Or.inr ⟨_, _, hl, hlt⟩⟩
    · rw [hsig]
      refine List.Nodup.append hnd (List.nodup_singleton _) ?_
      intro x hx hx2
      rw [List.mem_singleton] at hx2
      exact absurd (hlt x hx) (by rw [hx2]; exact lt_irrefl _)
    · intro x hx
      rw [hsig, List.mem_append, List.mem_singleton] at hx
      rw [hv]
      rcases hx with hx | hx
      · exact le_of_lt (hlt x hx)
      · exact le_of_eq hx

theorem add_potential_secondaries_signatures
    (calls : List (environment × configuration_update_request)) :
    ∀ (s s1 : replica), signatures_ok s →
      s.primary_states.next_learning_version + calls.length < 2 ^ 64 →
      add_potential_secondaries s calls = some s1 →
      signatures_ok s1
        ∧ s.primary_states.next_learning_version ≤ s1.primary_states.next_learning_version
        ∧ s1.primary_states.next_learning_version
            ≤ s.primary_states.next_learning_version + calls.length := by
  induction calls with
  | nil =>
    intro s s1 hok _ h
    simp only [add_potential_secondaries, Option.some.injEq] at h
    subst h
    exact ⟨hok, le_refl _, Nat.le_add_right _ _⟩
  | cons c rest ih =>
    intro s s1 hok hwrap h
    obtain ⟨env, p⟩ := c
    simp only [add_potential_secondaries] at h
    simp only [List.length_cons] at hwrap ⊢
    split at h
    · contradiction
    · rename_i s2 hs
      obtain ⟨a1, a2, a3, _⟩ :=
        add_potential_secondary_signatures env s p s2 hok (by omega) hs
      obtain ⟨b1, b2, b3⟩ := ih s2 s1 a1 (by omega) h
      exact ⟨b1, by omega, by omega⟩

/-- C10: from a state whose learner signatures are pairwise distinct and at most
`next_learning_version`, every sequence of `add_potential_secondary` calls that
does not wrap the counter keeps both facts, never decreases
`next_learning_version`, and at each call either leaves the learner table alone or
appends one learner whose signature is strictly greater than every signature in
the table before the call, which holds every learner issued earlier. -/
theorem learner_signatures_distinct_and_increasing (s s1 : replica)
    (calls : List (environment × configuration_update_request)) (hok : signatures_ok s)
    (hwrap : s.primary_states.next_learning_version + calls.length < 2 ^ 64)
    (hrun : add_potential_secondaries s calls = some s1) :
    signatures_ok s1
      ∧ s.primary_states.next_learning_version ≤ s1.primary_states.next_learning_version
      ∧ ∀ pre env p post sa sb, calls = pre ++ (env, p) :: post →
          add_potential_secondaries s pre = some sa →
          add_potential_secondary env sa p = some sb →
          s.primary_states.next_learning_version ≤ sa.primary_states.next_learning_version
            ∧ sa.primary_states.next_learning_version
                ≤ sb.primary_states.next_learning_version
            ∧ issues_monotonically sa sb := by
  obtain ⟨h1, h2, _⟩ := add_potential_secondaries_signatures calls s s1 hok hwrap hrun
  refine ⟨h1, h2, ?_⟩
  intro pre env p post sa sb hsplit hpre hstep
  have hlen : pre.length + 1 ≤ calls.length := by
    rw [hsplit]
    simp
  obtain ⟨a1, a2, a3⟩ := add_potential_secondaries_signatures pre s sa hok (by omega) hpre
  obtain ⟨_, b2, _, b4⟩ := add_potential_secondary_signatures env sa p sb a1 (by omega) hstep
  exact ⟨a2, b2, b4⟩

/-- C10 at a concrete input: a new learner is added to the primary of seed
scenario 3 under the load-balancing rule and the proposal is issued again as
ADD_SECONDARY; the signatures are 1 and 2 and the counter ends at 2. -/
theorem learner_signatures_witness :
    (add_potential_secondaries (sample_primary [(4, sample_learner 1)] 1)
        [(sample_env, sample_add_learner CT_ADD_SECONDARY_FOR_LB 5),
         (sample_env, sample_add_learner CT_ADD_SECONDARY 5)]).map
      (fun s1 => (learner_signatures s1, s1.primary_states.next_learning_version))
      = some ([1, 2], 2)
    ∧ signatures_ok
        ((add_potential_secondaries (sample_primary [(4, sample_learner 1)] 1)
          [(sample_env, sample_add_learner CT_ADD_SECONDARY_FOR_LB 5),
           (sample_env, sample_add_learner CT_ADD_SECONDARY 5)]).get (by decide)) :=
  ⟨rfl,
    (learner_signatures_distinct_and_increasing (sample_primary [(4, sample_learner 1)] 1) _
      [(sample_env, sample_add_learner CT_ADD_SECONDARY_FOR_LB 5),
       (sample_env, sample_add_learner CT_ADD_SECONDARY 5)]
      ⟨by decide, by decide⟩ (by decide) (by simp)).1⟩

/-! ## C18, C19, C20: dropped events -/

/-- C18: a proposal whose ballot is below the local ballot leaves the replica
exactly as it was (configuration, flag, primary bookkeeping) and appends nothing
to the trace, so no RPC is sent. -/
theorem stale_proposal_dropped (env : environment) (s : replica)
    (p : configuration_update_request) (h : p.config.ballot < s.get_ballot) :
    on_config_proposal env s p = some s := by
  unfold on_config_proposal
  rw [if_pos h]

/-- C18 at a concrete input: a secondary at ballot 7 receives a proposal at
ballot 3. -/
theorem stale_proposal_dropped_witness :
    on_config_proposal sample_env (sample_replica PS_SECONDARY 7)
        (sample_proposal CT_ASSIGN_PRIMARY 3 invalid_address)
      = some (sample_replica PS_SECONDARY 7) :=
  stale_proposal_dropped sample_env (sample_replica PS_SECONDARY 7)
    (sample_proposal CT_ASSIGN_PRIMARY 3 invalid_address) (by decide)

/-- C19: a proposal delivered while `reconfiguration_task` is set, whatever its
ballot and type, leaves the replica exactly as it was and appends nothing to the
trace: no second request is started. -/
theorem proposal_dropped_while_in_flight (env : environment) (s : replica)
    (p : configuration_update_request)
    (h : s.primary_states.reconfiguration_task ≠ none) :
    on_config_proposal env s p = some s := by
  have hsome : s.primary_states.reconfiguration_task.isSome = true := by
    cases ht : s.primary_states.reconfiguration_task with
    | none => exact absurd ht h
    | some t => rfl
  unfold on_config_proposal
  by_cases hb : p.config.ballot < s.get_ballot
  · rw [if_pos hb]
  · rw [if_neg hb, if_pos hsome]

/-- C19 at a concrete input: the waiting replica receives a further assign-primary
proposal at a higher ballot. -/
theorem proposal_dropped_while_in_flight_witness :
    on_config_proposal sample_env sample_waiting
        (sample_proposal CT_ASSIGN_PRIMARY 5 invalid_address)
      = some sample_waiting :=
  proposal_dropped_while_in_flight sample_env sample_waiting
    (sample_proposal CT_ASSIGN_PRIMARY 5 invalid_address) (by decide)

/-- C20: a remove request whose ballot is below the local ballot, or equals it
while the status is POTENTIAL_SECONDARY, leaves the replica exactly as it was:
nothing is stored, nothing is appended to the trace, no close is requested. -/
theorem remove_request_ignored (env : environment) (s : replica)
    (req : replica_configuration)
    (h : req.ballot < s.get_ballot
      ∨ (req.ballot = s.get_ballot ∧ s.status = PS_POTENTIAL_SECONDARY)) :
    on_remove env s req = some s := by
  unfold on_remove
  rcases h with h | ⟨h1, h2⟩
  · rw [if_pos h]
  · by_cases hb : req.ballot < s.get_ballot
    · rw [if_pos hb]
    · rw [if_neg hb, if_pos ⟨h1, h2.symm⟩]

/-- C20 at a concrete input: a potential secondary at ballot 4 receives a remove
request at ballot 4. -/
theorem remove_request_ignored_witness :
    on_remove sample_env (sample_replica PS_POTENTIAL_SECONDARY 4)
        (sample_replica_configuration PS_INACTIVE 4)
      = some (sample_replica PS_POTENTIAL_SECONDARY 4) :=
  remove_request_ignored sample_env (sample_replica PS_POTENTIAL_SECONDARY 4)
    (sample_replica_configuration PS_INACTIVE 4) (Or.inr ⟨rfl, rfl⟩)

/-! ## C17: a transition refused by a cleanup is accepted once the cleanup succeeds -/

/-- The committing path of `update_local_configuration`, read forwards. -/
theorem update_local_configuration_commits (env : environment) (s : replica)
    (rc : replica_configuration) (sb : Bool) (sg s3 : replica)
    (ha : update_local_configuration_asserts s rc sb = true)
    (hu : is_unnecessary_change s rc = false)
    (hg : pre_transition_gate env s rc = (true, sg))
    (hd : env.max_prepared_decree ≥ env.last_committed_decree)
    (ht : transition_side_effects env s.status s.get_ballot
        { sg with config := rc, last_config_change_time_ms := env.now_ms } rc = some s3) :
    update_local_configuration env s rc sb
      = some (post_transition env s.status s.get_ballot s3 rc) := by
  unfold update_local_configuration
  simp only [ha, Bool.true_eq_false, ↓reduceIte, hu, Bool.false_eq_true, hg, hd, ht]

theorem post_transition_config (env : environment) (os : partition_status) (ob : Int)
    (s : replica) (rc : replica_configuration) :
    (post_transition env os ob s rc).2.config = s.config := by
  have h := post_transition_core env os ob s rc
  rw [core_eq_iff] at h
  exact h.1

/-- C17: when `update_local_configuration` is refused because the non-forced cleanup
of the potential-secondary state (POTENTIAL_SECONDARY to INACTIVE) or of the
secondary state (SECONDARY to anything but SECONDARY and ERROR) reports in-flight
work, it returns false and leaves `config`, `inactive_is_transient` and
`last_config_change_time_ms` unchanged; the identical call made once the cleanups
succeed (with the prepare list not behind the commit point) returns and has stored
the requested configuration. -/
theorem refused_by_cleanup_then_accepted (env : environment) (s : replica)
    (rc : replica_configuration) (sb r : Bool) (s1 : replica)
    (h : update_local_configuration env s rc sb = some (r, s1))
    (hrej : (s.status = PS_POTENTIAL_SECONDARY ∧ rc.status = PS_INACTIVE
        ∧ potential_secondary_states_cleanup env false = false)
      ∨ (s.status = PS_SECONDARY ∧ rc.status ≠ PS_SECONDARY ∧ rc.status ≠ PS_ERROR
        ∧ secondary_states_cleanup env false = false)) :
    r = false ∧ s1.config = s.config
      ∧ s1.inactive_is_transient = s.inactive_is_transient
      ∧ s1.last_config_change_time_ms = s.last_config_change_time_ms
      ∧ ∀ env2 : environment,
          (s.status = PS_POTENTIAL_SECONDARY →
            potential_secondary_states_cleanup env2 false = true) →
          (s.status = PS_SECONDARY → secondary_states_cleanup env2 false = true) →
          env2.max_prepared_decree ≥ env2.last_committed_decree →
          ∃ r2 s2, update_local_configuration env2 s1 rc sb = some (r2, s2)
            ∧ s2.config = rc := by
  obtain ⟨ha, hc⟩ := update_local_configuration_cases env s rc sb r s1 h
  have hu : is_unnecessary_change s rc = false := by
    simp only [is_unnecessary_change, Bool.and_eq_false_iff, decide_eq_false_iff_not]
    left
    rcases hrej with ⟨h1, h2, _⟩ | ⟨h1, h2, _⟩
    · rw [h1, h2]; decide
    · rw [h1]; exact fun he => h2 he.symm
  have hgate : pre_transition_gate env s rc
      = (false, s.emit (if s.status = PS_POTENTIAL_SECONDARY then
          .potential_secondary_cleanup false else .secondary_cleanup false)) := by
    unfold pre_transition_gate
    rcases hrej with ⟨h1, h2, h3⟩ | ⟨h1, h2, h3, h4⟩
    · simp [h1, h2, h3]
    · simp [h1, h2, h3, h4]
  rw [hgate] at hc
  rcases hc with ⟨hx, _⟩ | ⟨_, _, hr, hs1⟩ | ⟨_, hx, _⟩
  · rw [hu] at hx; contradiction
  · simp only at hs1
    subst hs1
    refine ⟨hr, rfl, rfl, rfl, ?_⟩
    intro env2 hp2 hs2 hd2
    have ha2 : update_local_configuration_asserts
        (s.emit (if s.status = PS_POTENTIAL_SECONDARY then
          .potential_secondary_cleanup false else .secondary_cleanup false)) rc sb = true := ha
    have hu2 : is_unnecessary_change
        (s.emit (if s.status = PS_POTENTIAL_SECONDARY then
          .potential_secondary_cleanup false else .secondary_cleanup false)) rc = false := hu
    have hcommit :
        (pre_transition_gate env2
          (s.emit (if s.status = PS_POTENTIAL_SECONDARY then
            .potential_secondary_cleanup false else .secondary_cleanup false)) rc).1 = true →
        (∀ sg : replica, (transition_side_effects env2 s.status s.get_ballot
          { sg with config := rc, last_config_change_time_ms := env2.now_ms } rc).isSome
            = true) →
        ∃ r2 s2, update_local_configuration env2
            (s.emit (if s.status = PS_POTENTIAL_SECONDARY then
              .potential_secondary_cleanup false else .secondary_cleanup false)) rc sb
              = some (r2, s2) ∧ s2.config = rc := by
      intro hg1 hsome
      obtain ⟨s3, ht2⟩ := Option.isSome_iff_exists.mp (hsome (pre_transition_gate env2
        (s.emit (if s.status = PS_POTENTIAL_SECONDARY then
          .potential_secondary_cleanup false else .secondary_cleanup false)) rc).2)
      have hg2 : pre_transition_gate env2
          (s.emit (if s.status = PS_POTENTIAL_SECONDARY then
            .potential_secondary_cleanup false else .secondary_cleanup false)) rc
          = (true, (pre_transition_gate env2
              (s.emit (if s.status = PS_POTENTIAL_SECONDARY then
                .potential_secondary_cleanup false else .secondary_cleanup false)) rc).2) :=
        Prod.ext hg1 rfl
      have hrun := update_local_configuration_commits env2 _ rc sb _ s3 ha2 hu2 hg2 hd2 ht2
      refine ⟨(post_transition env2 _ _ s3 rc).1, (post_transition env2 _ _ s3 rc).2, hrun, ?_⟩
      rw [post_transition_config]
      exact (transition_side_effects_frame env2 _ _ _ s3 rc ht2).1
    rcases hrej with ⟨h1, h2, _⟩ | ⟨h1, h2, h3, _⟩
    · have hp2 := hp2 h1
      refine hcommit ?_ ?_
      · simp [pre_transition_gate, replica.status, replica.emit, h1, h2, hp2] at *
        simp [h1, h2, hp2]
      · intro sg
        simp [transition_side_effects, h1, h2]
    · have hs2 := hs2 h1
      cases hst : rc.status with
      | PS_SECONDARY => exact absurd hst h2
      | PS_ERROR => exact absurd hst h3
      | PS_INACTIVE =>
        refine hcommit ?_ ?_
        · simp [pre_transition_gate, replica.status, replica.emit, h1, hst, hs2] at *
          simp [h1, hst, hs2]
        · intro sg
          simp [transition_side_effects, h1, hst]
      | PS_PRIMARY =>
        refine hcommit ?_ ?_
        · simp [pre_transition_gate, replica.status, replica.emit, h1, hst, hs2] at *
          simp [h1, hst, hs2]
        · intro sg
          simp [transition_side_effects, h1, hst]
      | PS_POTENTIAL_SECONDARY =>
        refine hcommit ?_ ?_
        · simp [pre_transition_gate, replica.status, replica.emit, h1, hst, hs2] at *
          simp [h1, hst, hs2]
        · intro sg
          simp [transition_side_effects, h1, hst]
  · contradiction

/-- C17 at a concrete input: a potential secondary at ballot 3 is asked to become
INACTIVE while learning work is in flight, and again once it is done. -/
theorem refused_by_cleanup_then_accepted_witness :
    update_local_configuration sample_env_learning (sample_replica PS_POTENTIAL_SECONDARY 3)
        (sample_replica_configuration PS_INACTIVE 3) true
      = some (false,
          (sample_replica PS_POTENTIAL_SECONDARY 3).emit (.potential_secondary_cleanup false))
    ∧ ∃ r2 s2, update_local_configuration sample_env
          ((sample_replica PS_POTENTIAL_SECONDARY 3).emit (.potential_secondary_cleanup false))
          (sample_replica_configuration PS_INACTIVE 3) true = some (r2, s2)
        ∧ s2.config = sample_replica_configuration PS_INACTIVE 3 :=
  ⟨rfl,
    (refused_by_cleanup_then_accepted sample_env_learning
      (sample_replica PS_POTENTIAL_SECONDARY 3) (sample_replica_configuration PS_INACTIVE 3)
      true false _ rfl (Or.inl ⟨rfl, rfl, rfl⟩)).2.2.2.2 sample_env (fun _ => rfl)
      (fun _ => rfl) (by decide)⟩

/-! ## C14: invariant 3 under `update_configuration` -/

theorem get_replica_config_primary_iff (pc : partition_configuration) (node : rpc_address) :
    (get_replica_config pc node).status = PS_PRIMARY ↔ node = pc.primary := by
  unfold get_replica_config
  dsimp only
  constructor
  · intro h
    by_contra hne
    rw [if_neg hne] at h
    split at h <;> contradiction
  · intro h
    rw [if_pos h]

theorem primary_gate (env : environment) (s : replica) (rc : replica_configuration)
    (hs : s.status = PS_PRIMARY) : pre_transition_gate env s rc = (true, s) := by
  unfold pre_transition_gate
  rw [hs]

/-- C14: if a primary's membership names this node as primary and carries the local
ballot, the same holds after `update_configuration` returns, for every partition
configuration whose ballot is at least the local one. -/
theorem update_configuration_keeps_membership (env : environment) (s : replica)
    (pc : partition_configuration) (r : Bool) (s1 : replica)
    (hinv : membership_matches env s) (hb : pc.ballot ≥ s.get_ballot)
    (h : update_configuration env s pc = some (r, s1)) : membership_matches env s1 := by
  unfold update_configuration at h
  rw [if_pos hb] at h
  dsimp only at h
  by_cases hreset : (get_replica_config pc env.primary_address).status = PS_PRIMARY
      ∧ ((get_replica_config pc env.primary_address).ballot > s.get_ballot
          ∨ s.status ≠ PS_PRIMARY)
  · rw [if_pos hreset] at h
    obtain ⟨hprim, hwhy⟩ := hreset
    have hself : pc.primary = env.primary_address :=
      ((get_replica_config_primary_iff pc env.primary_address).mp hprim).symm
    split at h
    · obtain ⟨f1, _, f3⟩ := update_local_configuration_frame _ _ _ _ _ _ h
      intro hs1
      rcases f3 with ⟨c, _, _, hx⟩ | ⟨c, _⟩
      · have hsp : s.status = PS_PRIMARY := by simpa [replica.status, c] using hs1
        have hgt : pc.ballot > s.get_ballot := by
          rcases hwhy with hw | hw
          · exact hw
          · exact absurd hsp hw
        rcases hx with hx | hx
        · simp only [is_unnecessary_change, Bool.and_eq_true, decide_eq_true_eq] at hx
          have : s.get_ballot = pc.ballot := hx.2
          omega
        · rw [primary_gate env _ _ (by exact hsp)] at hx
          contradiction
      · rw [f1]
        refine ⟨hself, ?_⟩
        simp only [replica.get_ballot, c]
        rfl
    · rename_i hcond
      simp only [Option.some.injEq, Prod.mk.injEq] at h
      obtain ⟨_, rfl⟩ := h
      intro hs1
      have hsp : s.status = PS_PRIMARY := hs1
      rcases hwhy with hw | hw
      · exact absurd (Or.inl hw) hcond
      · exact absurd hsp hw
  · rw [if_neg hreset] at h
    split at h
    · obtain ⟨f1, _, f3⟩ := update_local_configuration_frame _ _ _ _ _ _ h
      intro hs1
      rcases f3 with ⟨c, _⟩ | ⟨c, hu, _⟩
      · have hsp : s.status = PS_PRIMARY := by simpa [replica.status, c] using hs1
        rw [f1]
        simpa [replica.get_ballot, c] using hinv hsp
      · have hprim : (get_replica_config pc env.primary_address).status = PS_PRIMARY := by
          simpa [replica.status, c] using hs1
        have hno : ¬ ((get_replica_config pc env.primary_address).ballot > s.get_ballot
            ∨ s.status ≠ PS_PRIMARY) := fun hx => hreset ⟨hprim, hx⟩
        push_neg at hno
        obtain ⟨hle, hsp⟩ := hno
        have hbe : (get_replica_config pc env.primary_address).ballot = s.get_ballot :=
          le_antisymm hle hb
        simp only [is_unnecessary_change, Bool.and_eq_false_iff, decide_eq_false_iff_not] at hu
        rcases hu with hu | hu
        · exact absurd (hsp.trans hprim.symm) hu
        · exact absurd hbe.symm hu
    · simp only [Option.some.injEq, Prod.mk.injEq] at h
      obtain ⟨_, rfl⟩ := h
      exact hinv

/-- C14 at a concrete input: the waiting replica (INACTIVE, flag set, ballot 1)
receives the configuration of ballot 2 that names it primary. -/
theorem update_configuration_keeps_membership_witness :
    ∃ s1, update_configuration sample_env sample_waiting
        { sample_membership with ballot := 2, primary := 1 } = some (true, s1)
      ∧ s1.status = PS_PRIMARY
      ∧ membership_matches sample_env s1 :=
  ⟨_, rfl, rfl,
    update_configuration_keeps_membership sample_env sample_waiting
      { sample_membership with ballot := 2, primary := 1 } true _
      (fun h => absurd h (by decide)) (by decide) rfl⟩

/-! ## C12: quiesce and submit -/

/-- From PRIMARY, with its assertions satisfied, `update_configuration_on_meta_server`
returns the quiesced replica. -/
theorem update_configuration_on_meta_server_primary (env : environment) (s : replica)
    (type : config_type) (node : rpc_address) (newConfig : partition_configuration)
    (hs : s.status = PS_PRIMARY)
    (hpre : (type ≠ CT_ASSIGN_PRIMARY ∧ type ≠ CT_UPGRADE_TO_PRIMARY) →
      newConfig.ballot = s.primary_states.membership.ballot)
    (hd : env.max_prepared_decree ≥ env.last_committed_decree) :
    update_configuration_on_meta_server env s type node newConfig
      = some (quiesced_primary env s type node newConfig) := by
  obtain ⟨⟨pid, b, st, sig⟩, tr, tm, ps, ai, trace⟩ := s
  simp only [replica.status] at hs
  subst hs
  have hassert : ¬ ((type ≠ CT_ASSIGN_PRIMARY ∧ type ≠ CT_UPGRADE_TO_PRIMARY)
      ∧ ¬ (PS_PRIMARY = PS_PRIMARY ∧ newConfig.ballot = ps.membership.ballot)) := by
    intro hx
    exact hx.2 ⟨rfl, hpre hx.1⟩
  cases htask : ps.reconfiguration_task <;>
    simp [update_configuration_on_meta_server, update_local_configuration_with_no_ballot_change,
      update_local_configuration, update_local_configuration_asserts, is_unnecessary_change,
      pre_transition_gate, transition_side_effects, post_transition, start_pending_mutations,
      set_inactive_state_transient, replica.status, replica.get_ballot, replica.get_gpid,
      replica.emit, next_ballot, quiesced_primary, meta_request, hd, htask, hassert] <;>
    exact fun h1 h2 => hpre ⟨h1, h2⟩

/-- From PRIMARY, `update_configuration_on_meta_server` returns only if its
assertions hold. -/
theorem update_configuration_on_meta_server_primary_pre (env : environment) (s : replica)
    (type : config_type) (node : rpc_address) (newConfig : partition_configuration)
    (s1 : replica) (hs : s.status = PS_PRIMARY)
    (h : update_configuration_on_meta_server env s type node newConfig = some s1) :
    ((type ≠ CT_ASSIGN_PRIMARY ∧ type ≠ CT_UPGRADE_TO_PRIMARY) →
        newConfig.ballot = s.primary_states.membership.ballot)
      ∧ env.max_prepared_decree ≥ env.last_committed_decree := by
  obtain ⟨⟨pid, b, st, sig⟩, tr, tm, ps, ai, trace⟩ := s
  simp only [replica.status] at hs
  subst hs
  constructor
  · intro ht
    by_contra hne
    simp [update_configuration_on_meta_server, replica.status, ht.1, ht.2] at h
    exact hne h.1
  · by_contra hd
    simp [update_configuration_on_meta_server,
      update_local_configuration_with_no_ballot_change, update_local_configuration,
      update_local_configuration_asserts, is_unnecessary_change, pre_transition_gate,
      replica.status, replica.get_ballot, replica.get_gpid, hd] at h

theorem quiesced_primary_meta_calls (env : environment) (s : replica) (type : config_type)
    (node : rpc_address) (newConfig : partition_configuration) :
    meta_calls (quiesced_primary env s type node newConfig)
      = meta_calls s ++ [.call_meta env.meta_server (meta_request env s type node newConfig)] := by
  cases ht : s.primary_states.reconfiguration_task <;>
    simp [meta_calls, quiesced_primary, List.filter_append, action.is_meta_rpc, ht]

/-- C12, as stated, fails at the greatest 64-bit ballot: the primary at ballot
`INT64_MAX` submits the upgrade of node 3, and the request carries the ballot the
increment wraps to, the least 64-bit value, not `newConfig.ballot + 1`. -/
theorem quiesce_and_submit_wraps :
    sample_primary_max.status = PS_PRIMARY
      ∧ (update_configuration_on_meta_server sample_env sample_primary_max
            CT_UPGRADE_TO_SECONDARY 3
            { sample_membership with
              ballot := int64_max, primary := 1, secondaries := [2, 3] }).map
          (fun s1 =>
            s1.primary_states.reconfiguration_task.map (fun t => t.request.config.ballot))
        = some (some int64_min)
      ∧ int64_min ≠ int64_max + 1 := by
  refine ⟨rfl, by decide, by decide⟩

/-- C12, amended: a call of `update_configuration_on_meta_server` made while the
status is PRIMARY, with a configuration whose ballot is a 64-bit value below the
greatest one, when it returns, leaves the status INACTIVE, the flag set, the local
ballot unchanged and `reconfiguration_task` set, and has sent exactly one request to
the meta service: the given type and node, and the given configuration with the
ballot one higher and `last_committed_decree` the replica's. It returns whenever its
assertions hold (for a primary-side type the configuration carries the
membership's ballot) and the prepare list is not behind the commit point. -/
theorem quiesce_and_submit (env : environment) (s : replica) (type : config_type)
    (node : rpc_address) (newConfig : partition_configuration)
    (hs : s.status = PS_PRIMARY)
    (hlo : int64_min ≤ newConfig.ballot) (hhi : newConfig.ballot < int64_max) :
    (∀ s1, update_configuration_on_meta_server env s type node newConfig = some s1 →
        s1.status = PS_INACTIVE ∧ s1.inactive_is_transient = true
          ∧ s1.get_ballot = s.get_ballot
          ∧ s1.primary_states.reconfiguration_task
              = some { request := meta_request env s type node newConfig, delay_ms := 0 }
          ∧ meta_calls s1
              = meta_calls s
                ++ [.call_meta env.meta_server (meta_request env s type node newConfig)]
          ∧ (meta_request env s type node newConfig).type = type
          ∧ (meta_request env s type node newConfig).node = node
          ∧ (meta_request env s type node newConfig).config
              = { newConfig with
                  ballot := newConfig.ballot + 1
                  last_committed_decree := env.last_committed_decree })
    ∧ (((type ≠ CT_ASSIGN_PRIMARY ∧ type ≠ CT_UPGRADE_TO_PRIMARY) →
          newConfig.ballot = s.primary_states.membership.ballot) →
        env.max_prepared_decree ≥ env.last_committed_decree →
        ∃ s1, update_configuration_on_meta_server env s type node newConfig = some s1) := by
  constructor
  · intro s1 h
    obtain ⟨hpre, hd⟩ :=
      update_configuration_on_meta_server_primary_pre env s type node newConfig s1 hs h
    rw [update_configuration_on_meta_server_primary env s type node newConfig hs hpre hd] at h
    simp only [Option.some.injEq] at h
    subst h
    refine ⟨rfl, rfl, rfl, rfl, quiesced_primary_meta_calls env s type node newConfig, rfl, rfl,
      ?_⟩
    unfold meta_request
    rw [next_ballot_of_range _ hlo hhi]
  · intro hpre hd
    exact ⟨_, update_configuration_on_meta_server_primary env s type node newConfig hs hpre hd⟩

/-- The amended C12 at a concrete input: the primary of seed scenario 2 (ballot 5,
secondary 2) submits the upgrade of node 3 to secondary. -/
theorem quiesce_and_submit_witness :
    (update_configuration_on_meta_server sample_env (sample_primary [] 0)
        CT_UPGRADE_TO_SECONDARY 3
        { sample_membership with ballot := 5, primary := 1, secondaries := [2, 3] }).map
      (fun s1 => (s1.status, s1.inactive_is_transient, s1.get_ballot, meta_calls s1))
      = some (PS_INACTIVE, true, 5,
          [.call_meta 9
            { info := 7
              config :=
                { sample_membership with ballot := 6, primary := 1, secondaries := [2, 3] }
              type := CT_UPGRADE_TO_SECONDARY
              node := 3 }])
    ∧ ∃ s1, update_configuration_on_meta_server sample_env (sample_primary [] 0)
        CT_UPGRADE_TO_SECONDARY 3
        { sample_membership with ballot := 5, primary := 1, secondaries := [2, 3] } = some s1 :=
  ⟨rfl,
    (quiesce_and_submit sample_env (sample_primary [] 0) CT_UPGRADE_TO_SECONDARY 3
      { sample_membership with ballot := 5, primary := 1, secondaries := [2, 3] } rfl
      (by decide) (by decide)).2
      (fun _ => rfl) (by decide)⟩

/-! ## C11: the reply of the meta service -/

theorem emit_meta_calls (s : replica) (a : action) (h : a.is_meta_rpc = false) :
    meta_calls (s.emit a) = meta_calls s := by
  simp [meta_calls, List.filter_append, h]

theorem start_pending_mutations_meta_calls (env : environment) (s : replica) :
    meta_calls (start_pending_mutations env s) = meta_calls s := by
  unfold start_pending_mutations
  split
  · split
    · exact emit_meta_calls _ _ (by rfl)
    · rfl
  · rfl

theorem pre_transition_gate_meta_calls (env : environment) (s : replica)
    (rc : replica_configuration) :
    meta_calls (pre_transition_gate env s rc).2 = meta_calls s := by
  unfold pre_transition_gate
  split <;> (try split) <;> first
    | rfl
    | exact emit_meta_calls _ _ (by rfl)

theorem transition_side_effects_meta_calls (env : environment) (os : partition_status)
    (ob : Int) (s s3 : replica) (rc : replica_configuration)
    (h : transition_side_effects env os ob s rc = some s3) :
    meta_calls s3 = meta_calls s := by
  unfold transition_side_effects at h
  cases os <;> cases hrc : rc.status <;> simp [hrc] at h <;>
    first
      | (subst h; split <;> simp [meta_calls, List.filter_append, action.is_meta_rpc])
      | (subst h; simp [meta_calls, List.filter_append, action.is_meta_rpc])
      | (obtain ⟨_, h⟩ := h; subst h
         simp [meta_calls, List.filter_append, action.is_meta_rpc])

theorem post_transition_meta_calls (env : environment) (os : partition_status) (ob : Int)
    (s : replica) (rc : replica_configuration) :
    meta_calls (post_transition env os ob s rc).2 = meta_calls s := by
  unfold post_transition
  dsimp only
  split
  · split
    · exact (emit_meta_calls _ _ (by rfl)).trans (emit_meta_calls _ _ (by rfl))
    · exact (start_pending_mutations_meta_calls _ _).trans (emit_meta_calls _ _ (by rfl))
  · exact (start_pending_mutations_meta_calls _ _).trans (emit_meta_calls _ _ (by rfl))

theorem update_local_configuration_meta_calls (env : environment) (s : replica)
    (rc : replica_configuration) (sb r : Bool) (s1 : replica)
    (h : update_local_configuration env s rc sb = some (r, s1)) :
    meta_calls s1 = meta_calls s := by
  obtain ⟨_, hc⟩ := update_local_configuration_cases env s rc sb r s1 h
  rcases hc with ⟨_, _, rfl⟩ | ⟨_, _, _, rfl⟩ | ⟨_, _, _, s3, ht, hp⟩
  · rfl
  · exact pre_transition_gate_meta_calls env s rc
  · have h1 := post_transition_meta_calls env s.status s.get_ballot s3 rc
    rw [← hp] at h1
    have h2 := transition_side_effects_meta_calls env _ _ _ s3 rc ht
    have h3 := pre_transition_gate_meta_calls env s rc
    exact h1.trans (h2.trans h3)

theorem update_configuration_meta_calls (env : environment) (s : replica)
    (pc : partition_configuration) (r : Bool) (s1 : replica)
    (h : update_configuration env s pc = some (r, s1)) :
    meta_calls s1 = meta_calls s := by
  unfold update_configuration at h
  split at h
  · dsimp only at h
    repeat' split at h
    all_goals first
      | (simp only [Option.some.injEq, Prod.mk.injEq] at h
         obtain ⟨_, rfl⟩ := h
         rfl)
      | exact (update_local_configuration_meta_calls _ _ _ _ _ _ h :)
  · contradiction

theorem post_update_work_items_meta_calls (env : environment) (s : replica)
    (req : configuration_update_request) (resp : configuration_update_response)
    (s1 : replica) (h : post_update_work_items env s req resp = some s1) :
    meta_calls s1 = meta_calls s := by
  unfold post_update_work_items post_update_work at h
  repeat' split at h
  all_goals first
    | contradiction
    | (simp only [Option.some.injEq] at h; subst h; rfl)
    | (simp only [Option.some.injEq] at h; subst h; exact emit_meta_calls _ _ (by rfl))

/-- From INACTIVE, `update_local_configuration` returns whenever its head assertions
hold and the prepare list is not behind the commit point. -/
theorem update_local_configuration_inactive_returns (env : environment) (s : replica)
    (rc : replica_configuration) (sb : Bool) (hs : s.status = PS_INACTIVE)
    (ha : update_local_configuration_asserts s rc sb = true)
    (hd : env.max_prepared_decree ≥ env.last_committed_decree) :
    ∃ r s1, update_local_configuration env s rc sb = some (r, s1) := by
  cases hu : is_unnecessary_change s rc with
  | true =>
    refine ⟨true, s, ?_⟩
    unfold update_local_configuration
    simp [ha, hu]
  | false =>
    by_cases hcond : (rc.status = PS_PRIMARY ∨ rc.status = PS_SECONDARY)
        ∧ s.inactive_is_transient = false
    · refine ⟨false, s, ?_⟩
      have hg : pre_transition_gate env s rc = (false, s) := by
        unfold pre_transition_gate
        rw [hs]
        simp only [hcond, and_self, ↓reduceIte]
      unfold update_local_configuration
      simp [ha, hu, hg]
    · have hg : pre_transition_gate env s rc = (true, s) := by
        unfold pre_transition_gate
        rw [hs]
        simp only [hcond, ↓reduceIte]
      have hsome : (transition_side_effects env s.status s.get_ballot
          { s with config := rc, last_config_change_time_ms := env.now_ms } rc).isSome
            = true := by
        rw [hs]
        cases hst : rc.status <;> simp [transition_side_effects, hst]
        · cases hf : s.inactive_is_transient
          · exact absurd ⟨Or.inl hst, hf⟩ hcond
          · rfl
        · cases hf : s.inactive_is_transient
          · exact absurd ⟨Or.inr hst, hf⟩ hcond
          · rfl
      obtain ⟨s3, ht⟩ := Option.isSome_iff_exists.mp hsome
      exact ⟨(post_transition env s.status s.get_ballot s3 rc).1,
        (post_transition env s.status s.get_ballot s3 rc).2,
        update_local_configuration_commits env s rc sb s s3 ha hu hg hd ht⟩

/-- From INACTIVE, `update_configuration` returns for every configuration of this
partition whose ballot is at least the local one, when the prepare list is not
behind the commit point. -/
theorem update_configuration_inactive_returns (env : environment) (s : replica)
    (pc : partition_configuration) (hs : s.status = PS_INACTIVE)
    (hb : pc.ballot ≥ s.get_ballot) (hpid : pc.pid = s.get_gpid)
    (hd : env.max_prepared_decree ≥ env.last_committed_decree) :
    ∃ r s1, update_configuration env s pc = some (r, s1) := by
  have aux : ∀ s0 : replica, s0.config = s.config →
      ∃ r s1, update_local_configuration env s0 (get_replica_config pc env.primary_address)
        true = some (r, s1) := by
    intro s0 hc0
    refine update_local_configuration_inactive_returns env s0 _ true
      (by simpa [replica.status, hc0] using hs) ?_ hd
    simp only [update_local_configuration_asserts, replica.get_ballot, replica.get_gpid, hc0,
      get_replica_config, Bool.true_and, Bool.and_eq_true, Bool.or_eq_true, decide_eq_true_eq]
    refine ⟨?_, hpid⟩
    have hb2 : pc.ballot ≥ s.config.ballot := hb
    rcases lt_or_eq_of_le hb2 with hlt | heq
    · exact Or.inl hlt
    · exact Or.inr heq.symm
  unfold update_configuration
  rw [if_pos hb]
  dsimp only
  split
  · split
    · exact aux _ rfl
    · exact ⟨_, _, rfl⟩
  · split
    · exact aux _ rfl
    · exact ⟨_, _, rfl⟩

/-- A terminal reply (effective error OK or INVALID_VERSION) ends with the
reconfiguration task cleared and sends nothing to the meta service. -/
theorem terminal_reply (env : environment) (s : replica) (err : error_code)
    (response : configuration_update_response) (req : configuration_update_request)
    (s1 : replica) (hs : s.status = PS_INACTIVE) (hc : env.is_connected = true)
    (he : effective_error env err response = ERR_OK
      ∨ effective_error env err response = ERR_INVALID_VERSION)
    (h : on_update_configuration_on_meta_server_reply env s err response req = some s1) :
    s1.primary_states.reconfiguration_task = none ∧ meta_calls s1 = meta_calls s := by
  unfold on_update_configuration_on_meta_server_reply at h
  have hguard : ¬ (PS_INACTIVE ≠ s.status ∨ env.is_connected = false) := by
    rw [hs, hc]; simp
  have hterm : ¬ (effective_error env err response ≠ ERR_OK
      ∧ effective_error env err response ≠ ERR_INVALID_VERSION) := by
    rcases he with he | he <;> simp [he]
  rw [if_neg hguard] at h
  dsimp only at h
  rw [if_neg hterm] at h
  split at h
  · simp only [Option.some.injEq] at h
    subst h
    exact ⟨rfl, rfl⟩
  · split at h
    · contradiction
    · rename_i s2 hw
      split at h
      · contradiction
      · rename_i r s3 hu
        simp only [Option.some.injEq] at h
        subst h
        refine ⟨rfl, ?_⟩
        have h1 := update_configuration_meta_calls _ _ _ _ _ hu
        have h2 := post_update_work_items_meta_calls _ _ _ _ _ hw
        exact h1.trans h2

/-- The retry branch of the reply handler. -/
theorem retry_reply (env : environment) (s : replica) (err : error_code)
    (response : configuration_update_response) (req : configuration_update_request)
    (hs : s.status = PS_INACTIVE) (hc : env.is_connected = true)
    (he : effective_error env err response ≠ ERR_OK
      ∧ effective_error env err response ≠ ERR_INVALID_VERSION) :
    ∃ s1, on_update_configuration_on_meta_server_reply env s err response req = some s1
      ∧ retry_scheduled env s s1 req := by
  have hguard : ¬ (PS_INACTIVE ≠ s.status ∨ env.is_connected = false) := by
    rw [hs, hc]; simp
  unfold on_update_configuration_on_meta_server_reply
  rw [if_neg hguard]
  dsimp only
  rw [if_pos he]
  exact ⟨_, rfl, rfl, rfl, rfl, rfl⟩

/-- C11: for a reply delivered while the status is INACTIVE and the stub is
connected, with effective error `e`: when the handler returns, a retry of the
identical request with a delay of 1000 ms is scheduled, the task stays recorded and
`config` and the flag are unchanged, exactly when `e` is neither OK nor
INVALID_VERSION, and in that case the handler does return. With INVALID_VERSION
nothing is sent to the meta service and the task ends cleared; the handler returns
for a server reply INVALID_VERSION about this partition when the prepare list is
not behind the commit point. -/
theorem meta_reply_retry_iff (env : environment) (s : replica) (err : error_code)
    (response : configuration_update_response) (req : configuration_update_request)
    (hs : s.status = PS_INACTIVE) (hc : env.is_connected = true) :
    (∀ s1, on_update_configuration_on_meta_server_reply env s err response req = some s1 →
        (retry_scheduled env s s1 req ↔
          (effective_error env err response ≠ ERR_OK
            ∧ effective_error env err response ≠ ERR_INVALID_VERSION)))
    ∧ ((effective_error env err response ≠ ERR_OK
          ∧ effective_error env err response ≠ ERR_INVALID_VERSION) →
        ∃ s1, on_update_configuration_on_meta_server_reply env s err response req = some s1)
    ∧ (effective_error env err response = ERR_INVALID_VERSION →
        ∀ s1, on_update_configuration_on_meta_server_reply env s err response req = some s1 →
          s1.primary_states.reconfiguration_task = none ∧ meta_calls s1 = meta_calls s)
    ∧ (err = ERR_OK → response.err = ERR_INVALID_VERSION →
        response.config.pid = s.get_gpid →
        env.max_prepared_decree ≥ env.last_committed_decree →
        ∃ s1, on_update_configuration_on_meta_server_reply env s err response req
          = some s1) := by
  refine ⟨?_, ?_, ?_, ?_⟩
  · intro s1 h
    constructor
    · intro hr
      by_contra hne
      have he : effective_error env err response = ERR_OK
          ∨ effective_error env err response = ERR_INVALID_VERSION := by
        by_contra hx
        push_neg at hx
        exact hne hx
      obtain ⟨ht, _⟩ := terminal_reply env s err response req s1 hs hc he h
      rw [hr.2.1] at ht
      contradiction
    · intro he
      obtain ⟨s2, h2, hr⟩ := retry_reply env s err response req hs hc he
      rw [h] at h2
      simp only [Option.some.injEq] at h2
      subst h2
      exact hr
  · intro he
    obtain ⟨s1, h1, _⟩ := retry_reply env s err response req hs hc he
    exact ⟨s1, h1⟩
  · intro he s1 h
    exact terminal_reply env s err response req s1 hs hc (Or.inr he) h
  · intro herr hresp hpid hd
    have hguard : ¬ (PS_INACTIVE ≠ s.status ∨ env.is_connected = false) := by
      rw [hs, hc]; simp
    have hrecv : received_response env err response = response := by
      simp [received_response, herr]
    have heff : effective_error env err response = ERR_INVALID_VERSION := by
      simp [effective_error, received_response, herr, hresp]
    unfold on_update_configuration_on_meta_server_reply
    rw [if_neg hguard]
    dsimp only
    rw [if_neg (by rw [heff]; simp), hrecv]
    by_cases hb : response.config.ballot < s.get_ballot
    · rw [if_pos hb]
      exact ⟨_, rfl⟩
    · rw [if_neg hb]
      have hw : post_update_work_items env s req response = some s := by
        simp [post_update_work_items, hresp]
      rw [hw]
      obtain ⟨r, s2, hu⟩ := update_configuration_inactive_returns env s response.config hs
        (not_lt.mp hb) hpid hd
      dsimp only
      rw [hu]
      exact ⟨_, rfl⟩

/-- C11 at a concrete input: the waiting replica receives a transport error and
schedules the retry of its request. -/
theorem meta_reply_retry_iff_witness :
    (on_update_configuration_on_meta_server_reply sample_env sample_waiting (ERR_OTHER 1)
        sample_env.default_response (sample_proposal CT_ASSIGN_PRIMARY 2 1)).map
      (fun s1 => (s1.trace, s1.primary_states.reconfiguration_task, s1.config))
      = some ([.recall_meta 9 (sample_proposal CT_ASSIGN_PRIMARY 2 1) 1000],
          some { request := sample_proposal CT_ASSIGN_PRIMARY 2 1, delay_ms := 1000 },
          sample_replica_configuration PS_INACTIVE 1)
    ∧ ∃ s1, on_update_configuration_on_meta_server_reply sample_env sample_waiting
        (ERR_OTHER 1) sample_env.default_response (sample_proposal CT_ASSIGN_PRIMARY 2 1)
          = some s1 :=
  ⟨rfl,
    (meta_reply_retry_iff sample_env sample_waiting (ERR_OTHER 1) sample_env.default_response
      (sample_proposal CT_ASSIGN_PRIMARY 2 1) rfl rfl).2.1 ⟨by decide, by decide⟩⟩

/-! ## C16: seed scenario 5, a stranded replica evicts itself -/

/-- C16: every secondary the program can be in (a state reached by events from a
replica created with the flag unset) with no reconfiguration in flight and the
non-forced cleanup of its secondary state succeeding, that receives through
`on_config_sync` a configuration of its partition with a greater ballot, an invalid
primary and secondaries that do not contain this node, whose address is valid, ends
INACTIVE at the new ballot with the flag unset, and `remove_replica_on_meta_server`
is invoked exactly once, with that configuration, after the stub was told that the
replica is closing. -/
theorem stranded_replica_self_evicts (env : environment) (s0 s : replica)
    (pc : partition_configuration)
    (h0 : s0.inactive_is_transient = false) (hr : reachable s0 s)
    (hs : s.status = PS_SECONDARY)
    (htask : s.primary_states.reconfiguration_task = none)
    (hclean : secondary_states_cleanup env false = true)
    (hb : pc.ballot > s.get_ballot) (hprim : pc.primary = invalid_address)
    (hsec : env.primary_address ∉ pc.secondaries)
    (hself : env.primary_address ≠ invalid_address) (hpid : pc.pid = s.get_gpid)
    (hd : env.max_prepared_decree ≥ env.last_committed_decree) :
    on_config_sync env s pc
      = some
          { config :=
              { pid := pc.pid, ballot := pc.ballot, status := PS_INACTIVE,
                learner_signature := invalid_signature }
            inactive_is_transient := false
            last_config_change_time_ms := env.now_ms
            primary_states := s.primary_states
            app_info := s.app_info
            trace :=
              s.trace ++
                [ .secondary_cleanup false, .cleanup_preparing_mutations false,
                  .notify_replica_state_update
                    { pid := pc.pid, ballot := pc.ballot, status := PS_INACTIVE,
                      learner_signature := invalid_signature } true,
                  .begin_close_replica,
                  .remove_replica_on_meta_server s.app_info pc ] } := by
  have hinv : transient_implies_inactive s :=
    reachable_keeps_invariant4 s0 s (fun ht => by rw [h0] at ht; contradiction) hr
  have hflag : s.inactive_is_transient = false := by
    cases hf : s.inactive_is_transient
    · rfl
    · have := hinv hf
      rw [hs] at this
      contradiction
  clear hinv hr h0 s0
  obtain ⟨⟨pid, b, st, sig⟩, tr, tm, ps, ai, trace⟩ := s
  obtain ⟨ppid, pb, pm, pp, psec, plc⟩ := pc
  simp only [replica.status, replica.get_ballot, replica.get_gpid] at *
  subst hs hflag hprim hpid
  have hb1 : ¬ pb < b := not_lt.mpr (le_of_lt hb)
  have hb2 : b ≤ pb := le_of_lt hb
  have hb3 : ¬ b = pb := ne_of_lt hb
  simp [on_config_sync, update_configuration, update_local_configuration,
    update_local_configuration_asserts, is_unnecessary_change, pre_transition_gate,
    transition_side_effects, post_transition, start_pending_mutations, get_replica_config,
    replica.status, replica.get_ballot, replica.get_gpid, replica.emit, htask, hself, hsec,
    hd, hb, hb1, hb2, hb3, hclean, is_same_ballot_status_change_allowed]

/-- C16 at a concrete input (seed scenario 5): local ballot 7, pushed ballot 8. -/
theorem stranded_replica_self_evicts_witness :
    (on_config_sync sample_env (sample_replica PS_SECONDARY 7)
        { sample_membership with ballot := 8 }).map
      (fun s1 => (s1.status, s1.get_ballot, s1.inactive_is_transient,
        s1.trace.filter (fun a => a = .remove_replica_on_meta_server 7
          { sample_membership with ballot := 8 })))
      = some (PS_INACTIVE, 8, false,
          [.remove_replica_on_meta_server 7 { sample_membership with ballot := 8 }]) := by
  rw [stranded_replica_self_evicts sample_env (sample_replica PS_SECONDARY 7)
    (sample_replica PS_SECONDARY 7) { sample_membership with ballot := 8 } rfl reachable.init
    rfl rfl rfl (by decide) rfl (by decide) (by decide) rfl (by decide)]
  rfl

/-! ## C15: submitted configurations and invariant 5 -/

theorem assign_primary_submits (env : environment) (s : replica)
    (p : configuration_update_request) :
    assign_primary env s p = none ∨ assign_primary env s p = some s
      ∨ assign_primary env s p
          = update_configuration_on_meta_server env s p.type p.node
              (assign_primary_config env p) := by
  unfold assign_primary
  split
  · exact Or.inl rfl
  · split
    · exact Or.inr (Or.inl rfl)
    · split
      · exact Or.inr (Or.inl rfl)
      · exact Or.inr (Or.inr rfl)

theorem upgrade_to_secondary_on_primary_submits (env : environment) (s : replica)
    (node : rpc_address) :
    upgrade_to_secondary_on_primary env s node
      = update_configuration_on_meta_server env s CT_UPGRADE_TO_SECONDARY node
          (upgrade_to_secondary_config s node) := rfl

theorem downgrade_to_secondary_on_primary_submits (env : environment) (s : replica)
    (p : configuration_update_request) :
    downgrade_to_secondary_on_primary env s p = none
      ∨ downgrade_to_secondary_on_primary env s p = some s
      ∨ (p.node = p.config.primary
          ∧ downgrade_to_secondary_on_primary env s p
              = update_configuration_on_meta_server env s CT_DOWNGRADE_TO_SECONDARY p.node
                  (downgrade_to_secondary_config p)) := by
  unfold downgrade_to_secondary_on_primary
  split
  · exact Or.inr (Or.inl rfl)
  · split
    · exact Or.inl rfl
    · split
      · exact Or.inl rfl
      · rename_i hn
        exact Or.inr (Or.inr ⟨not_not.mp hn, rfl⟩)

theorem downgrade_to_inactive_on_primary_submits (env : environment) (s : replica)
    (p : configuration_update_request) :
    downgrade_to_inactive_on_primary env s p = none
      ∨ downgrade_to_inactive_on_primary env s p = some s
      ∨ ((p.node = p.config.primary ∨ p.node ∈ p.config.secondaries)
          ∧ downgrade_to_inactive_on_primary env s p
              = update_configuration_on_meta_server env s CT_DOWNGRADE_TO_INACTIVE p.node
                  (downgrade_to_inactive_config p)) := by
  unfold downgrade_to_inactive_on_primary downgrade_to_inactive_config
  split
  · exact Or.inr (Or.inl rfl)
  · split
    · exact Or.inl rfl
    · split
      · rename_i hn
        exact Or.inr (Or.inr ⟨Or.inl hn, rfl⟩)
      · dsimp only
        split
        · exact Or.inl rfl
        · rename_i hrt
          refine Or.inr (Or.inr ⟨Or.inr ?_, rfl⟩)
          simpa [remove_node] using hrt

theorem remove_submits (env : environment) (s : replica) (p : configuration_update_request) :
    remove env s p = none ∨ remove env s p = some s
      ∨ ((get_node_status s.primary_states p.node = PS_PRIMARY → p.config.primary = p.node)
          ∧ (get_node_status s.primary_states p.node = PS_SECONDARY →
              p.node ∈ p.config.secondaries)
          ∧ remove env s p
              = update_configuration_on_meta_server env s CT_REMOVE p.node
                  (remove_config s p)) := by
  unfold remove remove_config
  split
  · exact Or.inr (Or.inl rfl)
  · split
    · exact Or.inl rfl
    · split
      · rename_i hst
        split
        · exact Or.inl rfl
        · rename_i hn
          exact Or.inr (Or.inr ⟨fun _ => not_not.mp hn, fun hx => by rw [hst] at hx; contradiction,
            rfl⟩)
      · rename_i hst
        dsimp only
        split
        · exact Or.inl rfl
        · rename_i hrt
          refine Or.inr (Or.inr ⟨fun hx => by rw [hst] at hx; contradiction, fun _ => ?_, rfl⟩)
          simpa [remove_node] using hrt
      · rename_i hp hs2
        exact Or.inr (Or.inr ⟨fun hx => absurd hx hp, fun hx => absurd hx hs2, rfl⟩)

theorem assign_primary_config_ok (env : environment) (p : configuration_update_request)
    (h : secondaries_exclude_primary p.config) :
    secondaries_exclude_primary (assign_primary_config env p)
      ∧ (assign_primary_config env p).primary = env.primary_address := by
  obtain ⟨hnd, _⟩ := h
  refine ⟨⟨?_, ?_⟩, rfl⟩
  · exact List.Nodup.erase _ hnd
  · exact List.Nodup.not_mem_erase hnd

theorem upgrade_to_secondary_config_ok (s : replica) (node : rpc_address)
    (h : secondaries_exclude_primary s.primary_states.membership)
    (hnp : node ≠ s.primary_states.membership.primary)
    (hns : node ∉ s.primary_states.membership.secondaries) :
    secondaries_exclude_primary (upgrade_to_secondary_config s node) := by
  obtain ⟨hnd, hp⟩ := h
  refine ⟨?_, ?_⟩
  · refine List.Nodup.append hnd (List.nodup_singleton _) ?_
    intro x hx hx2
    rw [List.mem_singleton] at hx2
    exact hns (hx2 ▸ hx)
  · intro hx
    simp only [upgrade_to_secondary_config, List.mem_append, List.mem_singleton] at hx
    rcases hx with hx | hx
    · exact hp hx
    · exact hnp hx.symm

theorem downgrade_to_secondary_config_ok (p : configuration_update_request)
    (h : secondaries_exclude_primary p.config) (hnode : p.node = p.config.primary) :
    no_node_twice (downgrade_to_secondary_config p)
      ∧ (invalid_address ∉ p.config.secondaries → p.node ≠ invalid_address →
          secondaries_exclude_primary (downgrade_to_secondary_config p)) := by
  obtain ⟨hnd, hp⟩ := h
  have hnd2 : (downgrade_to_secondary_config p).secondaries.Nodup := by
    refine List.Nodup.append hnd (List.nodup_singleton _) ?_
    intro x hx hx2
    rw [List.mem_singleton] at hx2
    rw [hx2, hnode] at hx
    exact hp hx
  refine ⟨⟨hnd2, fun hne => absurd rfl hne⟩, fun hi hn => ⟨hnd2, ?_⟩⟩
  intro hx
  simp only [downgrade_to_secondary_config, List.mem_append, List.mem_singleton] at hx
  rcases hx with hx | hx
  · exact hi hx
  · exact hn hx.symm

theorem downgrade_to_inactive_config_ok (p : configuration_update_request)
    (h : secondaries_exclude_primary p.config) :
    no_node_twice (downgrade_to_inactive_config p)
      ∧ (invalid_address ∉ p.config.secondaries →
          secondaries_exclude_primary (downgrade_to_inactive_config p)) := by
  obtain ⟨hnd, hp⟩ := h
  unfold downgrade_to_inactive_config
  split
  · exact ⟨⟨hnd, fun hne => absurd rfl hne⟩, fun hi => ⟨hnd, hi⟩⟩
  · have hnd2 : (p.config.secondaries.erase p.node).Nodup := List.Nodup.erase _ hnd
    have hp2 : p.config.primary ∉ p.config.secondaries.erase p.node :=
      fun hx => hp (List.mem_of_mem_erase hx)
    exact ⟨⟨hnd2, fun _ => hp2⟩, fun _ => ⟨hnd2, hp2⟩⟩

theorem remove_config_ok (s : replica) (p : configuration_update_request)
    (h : secondaries_exclude_primary p.config) :
    no_node_twice (remove_config s p)
      ∧ (invalid_address ∉ p.config.secondaries →
          secondaries_exclude_primary (remove_config s p)) := by
  obtain ⟨hnd, hp⟩ := h
  unfold remove_config
  split
  · exact ⟨⟨hnd, fun hne => absurd rfl hne⟩, fun hi => ⟨hnd, hi⟩⟩
  · have hnd2 : (p.config.secondaries.erase p.node).Nodup := List.Nodup.erase _ hnd
    have hp2 : p.config.primary ∉ p.config.secondaries.erase p.node :=
      fun hx => hp (List.mem_of_mem_erase hx)
    exact ⟨⟨hnd2, fun _ => hp2⟩, fun _ => ⟨hnd2, hp2⟩⟩
  · exact ⟨⟨hnd, fun _ => hp⟩, fun _ => ⟨hnd, hp⟩⟩

/-- C15, as stated, fails for `upgrade_to_secondary_on_primary`: the node is
appended to the secondaries unchecked. On the primary of seed scenario 2, whose
membership has primary 1 and secondaries `[2]`, upgrading node 2 submits the
secondaries `[2, 2]`, and upgrading node 1 submits secondaries that contain the
primary. -/
theorem upgrade_to_secondary_counterexample :
    secondaries_exclude_primary (sample_primary [] 0).primary_states.membership
    ∧ (upgrade_to_secondary_on_primary sample_env (sample_primary [] 0) 2).map
        (fun s1 => s1.primary_states.reconfiguration_task.map
          (fun t => (t.request.config.primary, t.request.config.secondaries)))
        = some (some (1, [2, 2]))
    ∧ ¬ ([2, 2] : List rpc_address).Nodup
    ∧ (upgrade_to_secondary_on_primary sample_env (sample_primary [] 0) 1).map
        (fun s1 => s1.primary_states.reconfiguration_task.map
          (fun t => (t.request.config.primary, t.request.config.secondaries)))
        = some (some (1, [2, 1]))
    ∧ (1 : rpc_address) ∈ ([2, 1] : List rpc_address) := by
  refine ⟨⟨by decide, by decide⟩, rfl, by decide, rfl, by decide⟩

/-- C15, amended: each primary-side edit either aborts on an assertion, ignores the
proposal, or passes on to `update_configuration_on_meta_server` a configuration
that keeps invariant 5 whenever its input configuration has duplicate-free
secondaries that do not contain its primary. For `assign_primary` the submitted
primary is this node and it is not among the secondaries. For
`upgrade_to_secondary_on_primary` this needs the node to be neither the
membership's primary nor one of its secondaries. The edits that clear the primary
submit the invalid address as primary; the secondaries do not contain it when the
input secondaries hold no invalid address and the proposal's node is valid. -/
theorem submitted_configuration_keeps_invariant5 (env : environment) (s : replica)
    (p : configuration_update_request) (node : rpc_address) :
    (secondaries_exclude_primary p.config →
        assign_primary env s p = none ∨ assign_primary env s p = some s
          ∨ (assign_primary env s p
                = update_configuration_on_meta_server env s p.type p.node
                    (assign_primary_config env p)
              ∧ secondaries_exclude_primary (assign_primary_config env p)
              ∧ (assign_primary_config env p).primary = env.primary_address))
    ∧ (secondaries_exclude_primary s.primary_states.membership →
        node ≠ s.primary_states.membership.primary →
        node ∉ s.primary_states.membership.secondaries →
        upgrade_to_secondary_on_primary env s node
            = update_configuration_on_meta_server env s CT_UPGRADE_TO_SECONDARY node
                (upgrade_to_secondary_config s node)
          ∧ secondaries_exclude_primary (upgrade_to_secondary_config s node))
    ∧ (secondaries_exclude_primary p.config →
        downgrade_to_secondary_on_primary env s p = none
          ∨ downgrade_to_secondary_on_primary env s p = some s
          ∨ (downgrade_to_secondary_on_primary env s p
                = update_configuration_on_meta_server env s CT_DOWNGRADE_TO_SECONDARY p.node
                    (downgrade_to_secondary_config p)
              ∧ no_node_twice (downgrade_to_secondary_config p)
              ∧ (invalid_address ∉ p.config.secondaries → p.node ≠ invalid_address →
                  secondaries_exclude_primary (downgrade_to_secondary_config p))))
    ∧ (secondaries_exclude_primary p.config →
        downgrade_to_inactive_on_primary env s p = none
          ∨ downgrade_to_inactive_on_primary env s p = some s
          ∨ (downgrade_to_inactive_on_primary env s p
                = update_configuration_on_meta_server env s CT_DOWNGRADE_TO_INACTIVE p.node
                    (downgrade_to_inactive_config p)
              ∧ no_node_twice (downgrade_to_inactive_config p)
              ∧ (invalid_address ∉ p.config.secondaries →
                  secondaries_exclude_primary (downgrade_to_inactive_config p))))
    ∧ (secondaries_exclude_primary p.config →
        remove env s p = none ∨ remove env s p = some s
          ∨ (remove env s p
                = update_configuration_on_meta_server env s CT_REMOVE p.node
                    (remove_config s p)
              ∧ no_node_twice (remove_config s p)
              ∧ (invalid_address ∉ p.config.secondaries →
                  secondaries_exclude_primary (remove_config s p)))) := by
  refine ⟨?_, ?_, ?_, ?_, ?_⟩
  · intro h
    rcases assign_primary_submits env s p with hx | hx | hx
    · exact Or.inl hx
    · exact Or.inr (Or.inl hx)
    · exact Or.inr (Or.inr ⟨hx, assign_primary_config_ok env p h⟩)
  · intro h hnp hns
    exact ⟨rfl, upgrade_to_secondary_config_ok s node h hnp hns⟩
  · intro h
    rcases downgrade_to_secondary_on_primary_submits env s p with hx | hx | ⟨hn, hx⟩
    · exact Or.inl hx
    · exact Or.inr (Or.inl hx)
    · exact Or.inr (Or.inr ⟨hx, downgrade_to_secondary_config_ok p h hn⟩)
  · intro h
    rcases downgrade_to_inactive_on_primary_submits env s p with hx | hx | ⟨_, hx⟩
    · exact Or.inl hx
    · exact Or.inr (Or.inl hx)
    · exact Or.inr (Or.inr ⟨hx, downgrade_to_inactive_config_ok p h⟩)
  · intro h
    rcases remove_submits env s p with hx | hx | ⟨_, _, hx⟩
    · exact Or.inl hx
    · exact Or.inr (Or.inl hx)
    · exact Or.inr (Or.inr ⟨hx, remove_config_ok s p h⟩)

/-- C15 at a concrete input: on the primary of seed scenario 2, the upgrade of the
new node 3 and the downgrade of the primary to secondary. -/
theorem submitted_configuration_witness :
    (downgrade_to_secondary_on_primary sample_env (sample_primary [] 0)
        (sample_add_learner CT_DOWNGRADE_TO_SECONDARY 1)).map
      (fun s1 => s1.primary_states.reconfiguration_task.map
        (fun t => (t.request.config.primary, t.request.config.secondaries)))
      = some (some (invalid_address, [2, 1]))
    ∧ (upgrade_to_secondary_on_primary sample_env (sample_primary [] 0) 3
          = update_configuration_on_meta_server sample_env (sample_primary [] 0)
              CT_UPGRADE_TO_SECONDARY 3 (upgrade_to_secondary_config (sample_primary [] 0) 3)
        ∧ secondaries_exclude_primary (upgrade_to_secondary_config (sample_primary [] 0) 3)) :=
  ⟨rfl,
    (submitted_configuration_keeps_invariant5 sample_env (sample_primary [] 0)
      (sample_add_learner CT_DOWNGRADE_TO_SECONDARY 1) 3).2.1 ⟨by decide, by decide⟩
      (by decide) (by decide)⟩

/-! ## C13: the reconfiguration round trip -/

theorem post_update_work_items_frame (env : environment) (s : replica)
    (req : configuration_update_request) (resp : configuration_update_response)
    (s1 : replica) (h : post_update_work_items env s req resp = some s1) :
    s1.config = s.config ∧ s1.inactive_is_transient = s.inactive_is_transient
      ∧ s1.primary_states.reconfiguration_task = s.primary_states.reconfiguration_task := by
  unfold post_update_work_items post_update_work at h
  repeat' split at h
  all_goals first
    | contradiction
    | (simp only [Option.some.injEq] at h; subst h; exact ⟨rfl, rfl, rfl⟩)

theorem post_update_work_items_returns (env : environment) (s : replica)
    (req : configuration_update_request) (resp : configuration_update_response)
    (h1 : req.type ≠ CT_ADD_SECONDARY) (h2 : req.type ≠ CT_ADD_SECONDARY_FOR_LB)
    (hc : resp.config = req.config) :
    ∃ s1, post_update_work_items env s req resp = some s1 := by
  unfold post_update_work_items post_update_work
  rw [hc]
  split
  · rw [if_pos ⟨rfl, rfl, rfl⟩]
    cases ht : req.type <;> first
      | exact absurd ht h1
      | exact absurd ht h2
      | exact ⟨_, rfl⟩
      | (dsimp only; split <;> exact ⟨_, rfl⟩)
  · exact ⟨_, rfl⟩

/-- An inactive replica in its transient state that applies a configuration of a
higher ballot naming this node as primary becomes PRIMARY with that membership. -/
theorem update_configuration_becomes_primary (env : environment) (s : replica)
    (pc : partition_configuration) (r : Bool) (s1 : replica)
    (hs : s.status = PS_INACTIVE) (hf : s.inactive_is_transient = true)
    (hb : pc.ballot > s.get_ballot) (hp : pc.primary = env.primary_address)
    (h : update_configuration env s pc = some (r, s1)) :
    s1.status = PS_PRIMARY ∧ s1.get_ballot = pc.ballot ∧ s1.inactive_is_transient = false
      ∧ s1.primary_states.membership = pc
      ∧ s1.primary_states.reconfiguration_task = s.primary_states.reconfiguration_task := by
  have hprim : (get_replica_config pc env.primary_address).status = PS_PRIMARY :=
    (get_replica_config_primary_iff pc env.primary_address).mpr hp.symm
  have hbal : (get_replica_config pc env.primary_address).ballot = pc.ballot := rfl
  unfold update_configuration at h
  rw [if_pos (le_of_lt hb)] at h
  dsimp only at h
  have hreset : (get_replica_config pc env.primary_address).status = PS_PRIMARY
      ∧ ((get_replica_config pc env.primary_address).ballot > s.get_ballot
          ∨ s.status ≠ PS_PRIMARY) := ⟨hprim, Or.inl hb⟩
  rw [if_pos hreset] at h
  split at h
  case isFalse hcond => exact absurd (Or.inl hb) hcond
  obtain ⟨f1, _, f3⟩ := update_local_configuration_frame _ _ _ _ _ _ h
  have hinv := update_local_configuration_transient _ _ _ _ _ _ h
    (inactive_transient_ok _ hs)
  rcases f3 with ⟨_, _, _, hx | hx⟩ | ⟨c, _⟩
  · simp only [is_unnecessary_change, Bool.and_eq_true, decide_eq_true_eq] at hx
    have : s.get_ballot = pc.ballot := hx.2
    omega
  · have hg : (pre_transition_gate env
        { s with
          primary_states :=
            reset_membership s.primary_states pc (decide (pc.primary ≠ env.primary_address)) }
        (get_replica_config pc env.primary_address)).1 = true := by
      have hs2 : s.config.status = PS_INACTIVE := hs
      simp [pre_transition_gate, replica.status, hs2, hf]
    rw [hg] at hx
    contradiction
  · have hst : s1.status = PS_PRIMARY := by simp [replica.status, c, hprim]
    refine ⟨hst, by simp [replica.get_ballot, c, hbal], ?_, by rw [f1]; rfl, by rw [f1]; rfl⟩
    cases hfl : s1.inactive_is_transient
    · rfl
    · have := hinv hfl
      rw [hst] at this
      contradiction

/-- C13, as stated, fails in two ways. The reply handler first asks the stub
whether it is connected: the primary of seed scenario 2 submits the upgrade of node
3 and receives the OK reply carrying the request's configuration while the stub is
disconnected; the task is cleared and the replica stays INACTIVE at ballot 5 with
the flag set. And the ballot is a 64-bit value: the primary at ballot `INT64_MAX`
submits the same upgrade, the request's ballot wraps to the least value, and the OK
reply carrying the request's configuration is discarded as stale, stub connected;
the replica stays INACTIVE at ballot `INT64_MAX` with the flag set. -/
theorem round_trip_disconnected_counterexample :
    ((upgrade_to_secondary_on_primary sample_env (sample_primary [] 0) 3).bind
        (fun s1 =>
          on_update_configuration_on_meta_server_reply sample_env_disconnected s1 ERR_OK
            { err := ERR_OK, config := sample_upgrade_request.config }
            sample_upgrade_request)).map
      (fun s2 => (s2.status, s2.get_ballot, s2.inactive_is_transient,
        s2.primary_states.reconfiguration_task))
      = some (PS_INACTIVE, 5, true, none)
    ∧ (upgrade_to_secondary_on_primary sample_env (sample_primary [] 0) 3).map
        (fun s1 => s1.primary_states.reconfiguration_task)
      = some (some { request := sample_upgrade_request, delay_ms := 0 })
    ∧ ((upgrade_to_secondary_on_primary sample_env sample_primary_max 3).bind
        (fun s1 =>
          on_update_configuration_on_meta_server_reply sample_env s1 ERR_OK
            { err := ERR_OK
              config :=
                (meta_request sample_env sample_primary_max CT_UPGRADE_TO_SECONDARY 3
                  (upgrade_to_secondary_config sample_primary_max 3)).config }
            (meta_request sample_env sample_primary_max CT_UPGRADE_TO_SECONDARY 3
              (upgrade_to_secondary_config sample_primary_max 3)))).map
      (fun s2 => (s2.status, s2.get_ballot, s2.inactive_is_transient,
        s2.primary_states.reconfiguration_task))
      = some (PS_INACTIVE, int64_max, true, none)
    ∧ (upgrade_to_secondary_on_primary sample_env sample_primary_max 3).map
        (fun s1 => s1.primary_states.reconfiguration_task)
      = some (some
          { request :=
              meta_request sample_env sample_primary_max CT_UPGRADE_TO_SECONDARY 3
                (upgrade_to_secondary_config sample_primary_max 3)
            delay_ms := 0 }) := by
  refine ⟨rfl, rfl, by decide, by decide⟩

/-- C13, amended: a primary at ballot `b`, a 64-bit value below the greatest one,
whose membership carries ballot `b` submits a configuration of the membership's
partition at that ballot that keeps this node primary, and the OK reply carrying the
request's configuration is delivered while the stub is connected. When both handlers
return, the replica was INACTIVE with the flag set in between and ends PRIMARY at
ballot `b + 1` with the flag unset, the task cleared and the reply's configuration
as membership, whose pid is the pid of the membership before. Both handlers return
when the request type is one a primary-side edit submits, the configuration is for
the replica's partition, and the prepare list is not behind the commit point. -/
theorem reconfiguration_round_trip (env env2 : environment) (s : replica)
    (type : config_type) (node : rpc_address) (newConfig : partition_configuration)
    (hs : s.status = PS_PRIMARY)
    (hmb : s.primary_states.membership.ballot = s.get_ballot)
    (hnb : newConfig.ballot = s.primary_states.membership.ballot)
    (hnpid : newConfig.pid = s.primary_states.membership.pid)
    (hnp : newConfig.primary = env2.primary_address)
    (hlo : int64_min ≤ s.get_ballot) (hhi : s.get_ballot < int64_max)
    (hconn : env2.is_connected = true) :
    (∀ s1 s2, update_configuration_on_meta_server env s type node newConfig = some s1 →
        on_update_configuration_on_meta_server_reply env2 s1 ERR_OK
            { err := ERR_OK, config := (meta_request env s type node newConfig).config }
            (meta_request env s type node newConfig) = some s2 →
        s1.status = PS_INACTIVE ∧ s1.inactive_is_transient = true
          ∧ s2.status = PS_PRIMARY ∧ s2.get_ballot = s.get_ballot + 1
          ∧ s.get_ballot < s2.get_ballot
          ∧ s2.inactive_is_transient = false
          ∧ s2.primary_states.reconfiguration_task = none
          ∧ s2.primary_states.membership = (meta_request env s type node newConfig).config
          ∧ (meta_request env s type node newConfig).config
              = { newConfig with
                  ballot := s.get_ballot + 1
                  last_committed_decree := env.last_committed_decree }
          ∧ s2.primary_states.membership.pid = s.primary_states.membership.pid)
    ∧ (type ≠ CT_ADD_SECONDARY → type ≠ CT_ADD_SECONDARY_FOR_LB →
        newConfig.pid = s.get_gpid →
        env.max_prepared_decree ≥ env.last_committed_decree →
        env2.max_prepared_decree ≥ env2.last_committed_decree →
        ∃ s1 s2, update_configuration_on_meta_server env s type node newConfig = some s1
          ∧ on_update_configuration_on_meta_server_reply env2 s1 ERR_OK
              { err := ERR_OK, config := (meta_request env s type node newConfig).config }
              (meta_request env s type node newConfig) = some s2) := by
  have hguard : ∀ s1 : replica, s1.status = PS_INACTIVE →
      ¬ (PS_INACTIVE ≠ s1.status ∨ env2.is_connected = false) := by
    intro s1 h1
    rw [h1, hconn]; simp
  have hnoretry : ¬ (effective_error env2 ERR_OK
        { err := ERR_OK, config := (meta_request env s type node newConfig).config } ≠ ERR_OK
      ∧ effective_error env2 ERR_OK
        { err := ERR_OK, config := (meta_request env s type node newConfig).config }
          ≠ ERR_INVALID_VERSION) := by
    simp [effective_error, received_response]
  have hrecv : received_response env2 ERR_OK
      { err := ERR_OK, config := (meta_request env s type node newConfig).config }
      = { err := ERR_OK, config := (meta_request env s type node newConfig).config } := by
    simp [received_response]
  have hballot : (meta_request env s type node newConfig).config.ballot = s.get_ballot + 1 := by
    show next_ballot newConfig.ballot = s.get_ballot + 1
    rw [hnb, hmb]
    exact next_ballot_of_range _ hlo hhi
  have hreq : (meta_request env s type node newConfig).config
      = { newConfig with
          ballot := s.get_ballot + 1
          last_committed_decree := env.last_committed_decree } := by
    unfold meta_request
    rw [hnb, hmb, next_ballot_of_range _ hlo hhi]
  constructor
  · intro s1 s2 h1 h2
    obtain ⟨hpre, hd⟩ :=
      update_configuration_on_meta_server_primary_pre env s type node newConfig s1 hs h1
    rw [update_configuration_on_meta_server_primary env s type node newConfig hs hpre hd] at h1
    simp only [Option.some.injEq] at h1
    subst h1
    refine ⟨rfl, rfl, ?_⟩
    unfold on_update_configuration_on_meta_server_reply at h2
    rw [if_neg (hguard (quiesced_primary env s type node newConfig) rfl)] at h2
    dsimp only at h2
    rw [if_neg hnoretry, hrecv] at h2
    have hnlt : ¬ (meta_request env s type node newConfig).config.ballot
        < (quiesced_primary env s type node newConfig).get_ballot := by
      rw [hballot]
      show ¬ s.get_ballot + 1 < s.get_ballot
      omega
    rw [if_neg hnlt] at h2
    split at h2
    · contradiction
    · rename_i s3 hw
      split at h2
      · contradiction
      · rename_i r s4 hu
        simp only [Option.some.injEq] at h2
        subst h2
        obtain ⟨w1, w2, _⟩ := post_update_work_items_frame _ _ _ _ _ hw
        have hst3 : s3.status = PS_INACTIVE := by
          simp only [replica.status, w1]
          rfl
        have hf3 : s3.inactive_is_transient = true := by rw [w2]; rfl
        have hb3 : (meta_request env s type node newConfig).config.ballot > s3.get_ballot := by
          rw [hballot]
          simp only [replica.get_ballot, w1]
          show s.config.ballot + 1 > s.config.ballot
          omega
        obtain ⟨u1, u2, u3, u4, _⟩ := update_configuration_becomes_primary env2 s3 _ r s4
          hst3 hf3 hb3 hnp hu
        refine ⟨u1, ?_, ?_, u3, rfl, u4, hreq, ?_⟩
        · show s4.get_ballot = s.get_ballot + 1
          rw [u2, hballot]
        · show s.get_ballot < s4.get_ballot
          rw [u2, hballot]
          omega
        · show s4.primary_states.membership.pid = s.primary_states.membership.pid
          rw [u4, ← hnpid]
          rfl
  · intro ht1 ht2 hpid hd hd2
    have h1 := update_configuration_on_meta_server_primary env s type node newConfig hs
      (fun _ => hnb) hd
    suffices hex : ∃ s2, on_update_configuration_on_meta_server_reply env2
        (quiesced_primary env s type node newConfig) ERR_OK
        { err := ERR_OK, config := (meta_request env s type node newConfig).config }
        (meta_request env s type node newConfig) = some s2 by
      obtain ⟨s2, h2⟩ := hex
      exact ⟨_, s2, h1, h2⟩
    unfold on_update_configuration_on_meta_server_reply
    rw [if_neg (hguard (quiesced_primary env s type node newConfig) rfl)]
    dsimp only
    rw [if_neg hnoretry, hrecv]
    have hnlt : ¬ (meta_request env s type node newConfig).config.ballot
        < (quiesced_primary env s type node newConfig).get_ballot := by
      rw [hballot]
      show ¬ s.get_ballot + 1 < s.get_ballot
      omega
    rw [if_neg hnlt]
    obtain ⟨s3, hw⟩ := post_update_work_items_returns env2
      (quiesced_primary env s type node newConfig) (meta_request env s type node newConfig)
      { err := ERR_OK, config := (meta_request env s type node newConfig).config }
      ht1 ht2 rfl
    rw [hw]
    dsimp only
    obtain ⟨w1, _, _⟩ := post_update_work_items_frame _ _ _ _ _ hw
    have hst3 : s3.status = PS_INACTIVE := by
      simp only [replica.status, w1]
      rfl
    obtain ⟨r, s4, hu⟩ := update_configuration_inactive_returns env2 s3
      (meta_request env s type node newConfig).config hst3
      (by rw [hballot]
          simp only [replica.get_ballot, w1]
          show s.config.ballot + 1 ≥ s.config.ballot
          omega)
      (by simp only [replica.get_gpid, w1]
          exact hpid) hd2
    rw [hu]
    exact ⟨_, rfl⟩

/-- The amended C13 at a concrete input: the primary of seed scenario 2 submits the
upgrade of node 3 and receives the OK reply while the stub is connected. -/
theorem reconfiguration_round_trip_witness :
    ((upgrade_to_secondary_on_primary sample_env (sample_primary [] 0) 3).bind
        (fun s1 =>
          on_update_configuration_on_meta_server_reply sample_env s1 ERR_OK
            { err := ERR_OK, config := sample_upgrade_request.config }
            sample_upgrade_request)).map
      (fun s2 => (s2.status, s2.get_ballot, s2.inactive_is_transient,
        s2.primary_states.reconfiguration_task, s2.primary_states.membership))
      = some (PS_PRIMARY, 6, false, none, sample_upgrade_request.config)
    ∧ ∃ s1 s2, update_configuration_on_meta_server sample_env (sample_primary [] 0)
          CT_UPGRADE_TO_SECONDARY 3
          { sample_membership with ballot := 5, primary := 1, secondaries := [2, 3] } = some s1
        ∧ on_update_configuration_on_meta_server_reply sample_env s1 ERR_OK
            { err := ERR_OK
              config :=
                (meta_request sample_env (sample_primary [] 0) CT_UPGRADE_TO_SECONDARY 3
                  { sample_membership with
                    ballot := 5, primary := 1, secondaries := [2, 3] }).config }
            (meta_request sample_env (sample_primary [] 0) CT_UPGRADE_TO_SECONDARY 3
              { sample_membership with ballot := 5, primary := 1, secondaries := [2, 3] })
            = some s2 :=
  ⟨rfl,
    (reconfiguration_round_trip sample_env sample_env (sample_primary [] 0)
      CT_UPGRADE_TO_SECONDARY 3
      { sample_membership with ballot := 5, primary := 1, secondaries := [2, 3] }
      rfl rfl rfl rfl rfl (by decide) (by decide) rfl).2
      (by decide) (by decide) rfl (by decide) (by decide)⟩

/-! ## C21, C24, C28: events that change nothing but the recorded task -/

/-- C21: `on_config_sync` delivered while the status is PRIMARY, or while a
reconfiguration task is recorded, or with a ballot below the local ballot, returns
the replica exactly as it was: no field is changed and nothing is appended to the
trace, so `remove_replica_on_meta_server` is not invoked. -/
theorem config_sync_ignored (env : environment) (s : replica)
    (config : partition_configuration)
    (h : s.status = PS_PRIMARY ∨ s.primary_states.reconfiguration_task ≠ none
      ∨ config.ballot < s.get_ballot) :
    on_config_sync env s config = some s := by
  unfold on_config_sync
  by_cases hb : config.ballot < s.get_ballot
  · rw [if_pos hb]
  · rw [if_neg hb]
    rcases h with h | h | h
    · rw [if_pos (Or.inl h)]
    · have hsome : s.primary_states.reconfiguration_task.isSome = true := by
        cases ht : s.primary_states.reconfiguration_task with
        | none => exact absurd ht h
        | some t => rfl
      rw [if_pos (Or.inr hsome)]
    · exact absurd h hb

/-- C21 at a concrete input: the primary of seed scenario 2 (ballot 5) is pushed a
configuration at ballot 6. -/
theorem config_sync_ignored_witness :
    on_config_sync sample_env (sample_primary [] 0) sample_config_self_primary
      = some (sample_primary [] 0) :=
  config_sync_ignored sample_env (sample_primary [] 0) sample_config_self_primary
    (Or.inl rfl)

/-- C24: a reply of the meta service (any transport error, any response) delivered
while the status is not INACTIVE or while the stub is disconnected only clears
`reconfiguration_task`: the handler returns, the stored configuration, the flag
`inactive_is_transient`, the membership and `last_prepare_decree_on_new_primary`
are what they were, and nothing is appended to the trace, so no retry is scheduled
and no `REMOVE_REPLICA` is sent. -/
theorem superseded_reply_only_clears_task (env : environment) (s : replica)
    (err : error_code) (response : configuration_update_response)
    (req : configuration_update_request)
    (h : s.status ≠ PS_INACTIVE ∨ env.is_connected = false) :
    ∃ s1, on_update_configuration_on_meta_server_reply env s err response req = some s1
      ∧ s1.primary_states.reconfiguration_task = none
      ∧ s1.config = s.config
      ∧ s1.inactive_is_transient = s.inactive_is_transient
      ∧ s1.primary_states.membership = s.primary_states.membership
      ∧ s1.primary_states.last_prepare_decree_on_new_primary
          = s.primary_states.last_prepare_decree_on_new_primary
      ∧ s1.primary_states.statuses = s.primary_states.statuses
      ∧ s1.primary_states.learners = s.primary_states.learners
      ∧ s1.primary_states.next_learning_version = s.primary_states.next_learning_version
      ∧ s1.last_config_change_time_ms = s.last_config_change_time_ms
      ∧ s1.trace = s.trace := by
  refine ⟨clear_reconfiguration_task s, ?_, rfl, rfl, rfl, rfl, rfl, rfl, rfl, rfl, rfl, rfl⟩
  unfold on_update_configuration_on_meta_server_reply
  have hc : PS_INACTIVE ≠ s.status ∨ env.is_connected = false := by
    rcases h with h | h
    · exact Or.inl (fun e => h e.symm)
    · exact Or.inr h
  rw [if_pos hc]

/-- C24 at a concrete input: the waiting replica receives an OK reply while the
stub is disconnected. -/
theorem superseded_reply_only_clears_task_witness :
    sample_env_disconnected.is_connected = false
      ∧ ∃ s1, on_update_configuration_on_meta_server_reply sample_env_disconnected
            sample_waiting ERR_OK
            { err := ERR_OK, config := (sample_proposal CT_ASSIGN_PRIMARY 2 1).config }
            (sample_proposal CT_ASSIGN_PRIMARY 2 1) = some s1
        ∧ s1.primary_states.reconfiguration_task = none
        ∧ s1.config = sample_waiting.config
        ∧ s1.inactive_is_transient = sample_waiting.inactive_is_transient
        ∧ s1.primary_states.membership = sample_waiting.primary_states.membership
        ∧ s1.primary_states.last_prepare_decree_on_new_primary
            = sample_waiting.primary_states.last_prepare_decree_on_new_primary
        ∧ s1.primary_states.statuses = sample_waiting.primary_states.statuses
        ∧ s1.primary_states.learners = sample_waiting.primary_states.learners
        ∧ s1.primary_states.next_learning_version
            = sample_waiting.primary_states.next_learning_version
        ∧ s1.last_config_change_time_ms = sample_waiting.last_config_change_time_ms
        ∧ s1.trace = sample_waiting.trace :=
  ⟨rfl, superseded_reply_only_clears_task sample_env_disconnected sample_waiting ERR_OK
    { err := ERR_OK, config := (sample_proposal CT_ASSIGN_PRIMARY 2 1).config }
    (sample_proposal CT_ASSIGN_PRIMARY 2 1) (Or.inr rfl)⟩

/-- C28: a terminal reply of the meta service (effective error OK or
INVALID_VERSION) delivered while the status is INACTIVE and the stub is connected,
whose response configuration has a ballot below the local ballot, is discarded: the
handler returns (no assertion of `update_configuration` is reached), it clears
`reconfiguration_task`, the stored configuration, the flag, the membership and
`last_prepare_decree_on_new_primary` are what they were, and nothing is appended to
the trace, so no `REMOVE_REPLICA` is sent. -/
theorem stale_terminal_reply_discarded (env : environment) (s : replica)
    (err : error_code) (response : configuration_update_response)
    (req : configuration_update_request)
    (hs : s.status = PS_INACTIVE) (hconn : env.is_connected = true)
    (he : effective_error env err response = ERR_OK
      ∨ effective_error env err response = ERR_INVALID_VERSION)
    (hb : (received_response env err response).config.ballot < s.get_ballot) :
    ∃ s1, on_update_configuration_on_meta_server_reply env s err response req = some s1
      ∧ s1.primary_states.reconfiguration_task = none
      ∧ s1.config = s.config
      ∧ s1.inactive_is_transient = s.inactive_is_transient
      ∧ s1.primary_states.membership = s.primary_states.membership
      ∧ s1.primary_states.last_prepare_decree_on_new_primary
          = s.primary_states.last_prepare_decree_on_new_primary
      ∧ s1.primary_states.statuses = s.primary_states.statuses
      ∧ s1.primary_states.learners = s.primary_states.learners
      ∧ s1.primary_states.next_learning_version = s.primary_states.next_learning_version
      ∧ s1.last_config_change_time_ms = s.last_config_change_time_ms
      ∧ s1.trace = s.trace := by
  refine ⟨clear_reconfiguration_task s, ?_, rfl, rfl, rfl, rfl, rfl, rfl, rfl, rfl, rfl, rfl⟩
  unfold on_update_configuration_on_meta_server_reply
  have hc : ¬ (PS_INACTIVE ≠ s.status ∨ env.is_connected = false) := by
    rintro (h | h)
    · exact h hs.symm
    · rw [hconn] at h; contradiction
  have hr : ¬ (effective_error env err response ≠ ERR_OK
      ∧ effective_error env err response ≠ ERR_INVALID_VERSION) := by
    rintro ⟨h1, h2⟩
    rcases he with he | he
    · exact h1 he
    · exact h2 he
  rw [if_neg hc]
  dsimp only
  rw [if_neg hr, if_pos hb]

/-- C28 at a concrete input: the waiting replica (ballot 1) receives an
INVALID_VERSION reply whose configuration is at ballot 0. -/
theorem stale_terminal_reply_discarded_witness :
    sample_waiting.status = PS_INACTIVE
      ∧ (received_response sample_env ERR_OK
            { err := ERR_INVALID_VERSION, config := sample_membership }).config.ballot
          < sample_waiting.get_ballot
      ∧ ∃ s1, on_update_configuration_on_meta_server_reply sample_env sample_waiting ERR_OK
            { err := ERR_INVALID_VERSION, config := sample_membership }
            (sample_proposal CT_ASSIGN_PRIMARY 2 1) = some s1
        ∧ s1.primary_states.reconfiguration_task = none
        ∧ s1.config = sample_waiting.config
        ∧ s1.inactive_is_transient = sample_waiting.inactive_is_transient
        ∧ s1.primary_states.membership = sample_waiting.primary_states.membership
        ∧ s1.primary_states.last_prepare_decree_on_new_primary
            = sample_waiting.primary_states.last_prepare_decree_on_new_primary
        ∧ s1.primary_states.statuses = sample_waiting.primary_states.statuses
        ∧ s1.primary_states.learners = sample_waiting.primary_states.learners
        ∧ s1.primary_states.next_learning_version
            = sample_waiting.primary_states.next_learning_version
        ∧ s1.last_config_change_time_ms = sample_waiting.last_config_change_time_ms
        ∧ s1.trace = sample_waiting.trace :=
  ⟨rfl, by decide,
    stale_terminal_reply_discarded sample_env sample_waiting ERR_OK
      { err := ERR_INVALID_VERSION, config := sample_membership }
      (sample_proposal CT_ASSIGN_PRIMARY 2 1) rfl rfl (Or.inr rfl) (by decide)⟩


/-! ## C22: seed scenario 6, same-ballot learner promotion -/

/-- C22 as stated fails: the promotion of the learner at ballot 9 returns true, and
after the three calls of the matrix arm the stub is notified, so the calls into
collaborators are four, not exactly the three the claim lists. -/
theorem learner_promotion_notifies_stub :
    (update_local_configuration sample_env (sample_replica PS_POTENTIAL_SECONDARY 9)
        (sample_replica_configuration PS_SECONDARY 9) true).map
        (fun x => (x.1, x.2.config, x.2.trace))
      = some (true, sample_replica_configuration PS_SECONDARY 9,
          [ .prepare_list_truncate 0, .potential_secondary_cleanup true,
            .check_state_completeness,
            .notify_replica_state_update (sample_replica_configuration PS_SECONDARY 9)
              false ])
    ∧ (update_local_configuration sample_env (sample_replica PS_POTENTIAL_SECONDARY 9)
        (sample_replica_configuration PS_SECONDARY 9) true).map (fun x => x.2.trace)
      ≠ some ((sample_replica PS_POTENTIAL_SECONDARY 9).trace ++
          [ .prepare_list_truncate sample_env.app_last_committed_decree,
            .potential_secondary_cleanup true, .check_state_completeness ]) := by
  refine ⟨rfl, by decide⟩

/-- C22, amended: for every replica with status POTENTIAL_SECONDARY at ballot `b`,
the call `update_local_configuration(rc, same_ballot = true)` with `rc` at ballot
`b` and status SECONDARY (for the replica's partition, the prepare list not behind
the commit point) is allowed as a same-ballot change, passes the gate, returns true
and leaves `config = rc`; the calls into collaborators are, in order, the
truncation of the prepare list to the app's `last_committed_decree`,
`potential_secondary_states.cleanup(true)`, `check_state_completeness` and the
notification of the stub with `is_closing = false`; no close is requested. -/
theorem learner_promotion (env : environment) (s : replica) (rc : replica_configuration)
    (hs : s.status = PS_POTENTIAL_SECONDARY) (hb : rc.ballot = s.get_ballot)
    (hst : rc.status = PS_SECONDARY) (hpid : rc.pid = s.get_gpid)
    (hd : env.max_prepared_decree ≥ env.last_committed_decree) :
    is_same_ballot_status_change_allowed s s.status rc.status = true
      ∧ (pre_transition_gate env s rc).1 = true
      ∧ update_local_configuration env s rc true = some (true, promoted_learner env s rc)
      ∧ (promoted_learner env s rc).status = PS_SECONDARY
      ∧ (promoted_learner env s rc).get_ballot = s.get_ballot
      ∧ (promoted_learner env s rc).trace
          = s.trace ++
              [ .prepare_list_truncate env.app_last_committed_decree,
                .potential_secondary_cleanup true, .check_state_completeness,
                .notify_replica_state_update rc false ]
      ∧ close_requests (promoted_learner env s rc) = close_requests s := by
  have ha : update_local_configuration_asserts s rc true = true := by
    simp [update_local_configuration_asserts, hb, hpid]
  have hu : is_unnecessary_change s rc = false := by
    simp [is_unnecessary_change, hs, hst]
  have hg : pre_transition_gate env s rc = (true, s) := by
    unfold pre_transition_gate
    rw [hs]
    simp [hst]
  have ht : transition_side_effects env s.status s.get_ballot
      { s with config := rc, last_config_change_time_ms := env.now_ms } rc
      = some (((({ s with config := rc, last_config_change_time_ms := env.now_ms } : replica).emit
          (.prepare_list_truncate env.app_last_committed_decree)).emit
          (.potential_secondary_cleanup true)).emit .check_state_completeness) := by
    unfold transition_side_effects
    rw [hs]
    simp [hst, potential_secondary_states_cleanup]
  refine ⟨by simp [is_same_ballot_status_change_allowed, hs, hst], by rw [hg], ?_,
    by simp [promoted_learner, replica.status, hst],
    by simp [promoted_learner, replica.get_ballot, hb], rfl, ?_⟩
  · rw [update_local_configuration_commits env s rc true s _ ha hu hg hd ht]
    unfold post_transition
    simp [replica.status, replica.get_ballot, hst, start_pending_mutations, promoted_learner,
      replica.emit]
  · simp [close_requests, promoted_learner, List.filter_append, action.is_close_request]

/-- C22 at the input of the seed scenario: a learner at ballot 9. -/
theorem learner_promotion_witness :
    (sample_replica PS_POTENTIAL_SECONDARY 9).status = PS_POTENTIAL_SECONDARY
      ∧ update_local_configuration sample_env (sample_replica PS_POTENTIAL_SECONDARY 9)
          (sample_replica_configuration PS_SECONDARY 9) true
        = some (true, promoted_learner sample_env (sample_replica PS_POTENTIAL_SECONDARY 9)
            (sample_replica_configuration PS_SECONDARY 9)) :=
  ⟨rfl, (learner_promotion sample_env (sample_replica PS_POTENTIAL_SECONDARY 9)
    (sample_replica_configuration PS_SECONDARY 9) rfl rfl rfl rfl (by decide)).2.2.1⟩


/-! ## C23: the flag `same_ballot` passed by `update_configuration` -/

/-- The head assertions of `update_local_configuration` are the assertion on the
ballot and the assertion on the partition id. -/
theorem update_local_configuration_asserts_eq (s : replica) (rc : replica_configuration)
    (sb : Bool) :
    update_local_configuration_asserts s rc sb
      = (ballot_precondition s rc sb && decide (rc.pid = s.get_gpid)) := rfl

/-- The function `update_configuration` read through `membership_reset` and
`calls_update_local_configuration`. -/
theorem update_configuration_eq (env : environment) (s : replica)
    (config : partition_configuration) :
    update_configuration env s config
      = if config.ballot ≥ s.get_ballot then
          if calls_update_local_configuration env s config = true then
            update_local_configuration env (membership_reset env s config)
              (get_replica_config config env.primary_address) true
          else some (false, membership_reset env s config)
        else none := by
  unfold update_configuration calls_update_local_configuration membership_reset
  simp only [Bool.or_eq_true, decide_eq_true_eq]

@[simp] theorem membership_reset_config (env : environment) (s : replica)
    (config : partition_configuration) : (membership_reset env s config).config = s.config := by
  unfold membership_reset
  split <;> rfl

/-- When the requested ballot is not below the local one, the flag `same_ballot` may
be passed as `true` or as "the ballots are equal": the call is the same. -/
theorem update_local_configuration_same_ballot (env : environment) (s : replica)
    (rc : replica_configuration) (hb : rc.ballot ≥ s.get_ballot) :
    update_local_configuration env s rc true
      = update_local_configuration env s rc (decide (rc.ballot = s.get_ballot)) := by
  by_cases he : rc.ballot = s.get_ballot
  · rw [decide_eq_true he]
  · have hlt : rc.ballot > s.get_ballot := lt_of_le_of_ne hb (fun e => he e.symm)
    unfold update_local_configuration update_local_configuration_asserts
    simp [hlt]

/-- The function the specification words, read through `membership_reset` and
`calls_update_local_configuration`. -/
theorem update_configuration_as_specified_eq (env : environment) (s : replica)
    (new_pc : partition_configuration) :
    update_configuration_as_specified env s new_pc
      = if calls_update_local_configuration env s new_pc = true then
          update_local_configuration env (membership_reset env s new_pc)
            (get_replica_config new_pc env.primary_address)
            (decide (new_pc.ballot = (membership_reset env s new_pc).get_ballot))
        else some (false, membership_reset env s new_pc) := by
  unfold update_configuration_as_specified calls_update_local_configuration membership_reset
  simp only [Bool.or_eq_true, decide_eq_true_eq]
  rfl

/-- C23: for every replica and every partition configuration whose ballot is not
below the local ballot, `update_configuration` as coded (it passes
`same_ballot = true`) returns the same value and leaves the same replica as the
function the specification words (it passes `same_ballot = (new_pc.ballot ==
config.ballot)`); and on the replica and the projection with which
`update_local_configuration` is called, the assertion on the ballot holds with
either value of the flag. -/
theorem update_configuration_refines_specification (env : environment) (s : replica)
    (new_pc : partition_configuration) (hb : new_pc.ballot ≥ s.get_ballot) :
    update_configuration env s new_pc = update_configuration_as_specified env s new_pc
      ∧ ballot_precondition (membership_reset env s new_pc)
          (get_replica_config new_pc env.primary_address) true = true
      ∧ ballot_precondition (membership_reset env s new_pc)
          (get_replica_config new_pc env.primary_address)
          (decide (new_pc.ballot = s.get_ballot)) = true := by
  have hb2 : (get_replica_config new_pc env.primary_address).ballot
      ≥ (membership_reset env s new_pc).get_ballot := by
    simpa [replica.get_ballot, get_replica_config] using hb
  refine ⟨?_, ?_, ?_⟩
  · rw [update_configuration_eq, if_pos hb, update_configuration_as_specified_eq]
    split
    · exact update_local_configuration_same_ballot env (membership_reset env s new_pc)
        (get_replica_config new_pc env.primary_address) hb2
    · rfl
  · unfold ballot_precondition
    rcases lt_or_eq_of_le hb2 with h | h
    · simp [h]
    · simp [h.symm]
  · unfold ballot_precondition
    rcases lt_or_eq_of_le hb with h | h
    · have h2 : (get_replica_config new_pc env.primary_address).ballot
          > (membership_reset env s new_pc).get_ballot := by
        simpa [replica.get_ballot, get_replica_config] using h
      simp [h2]
    · have h2 : (get_replica_config new_pc env.primary_address).ballot
          = (membership_reset env s new_pc).get_ballot := by
        simpa [replica.get_ballot, get_replica_config] using h.symm
      simp [h2, h.symm]

/-- C23 at a concrete input: the waiting replica (INACTIVE at ballot 1, flag set) is
given the configuration at ballot 2 that names it primary. -/
theorem update_configuration_refines_specification_witness :
    (sample_proposal CT_ASSIGN_PRIMARY 2 1).config.ballot ≥ sample_waiting.get_ballot
      ∧ update_configuration sample_env sample_waiting (sample_proposal CT_ASSIGN_PRIMARY 2 1).config
          = update_configuration_as_specified sample_env sample_waiting
              (sample_proposal CT_ASSIGN_PRIMARY 2 1).config :=
  ⟨by decide,
    (update_configuration_refines_specification sample_env sample_waiting
      (sample_proposal CT_ASSIGN_PRIMARY 2 1).config (by decide)).1⟩


/-! ## C25: the ballot precondition in `on_remove` -/

/-- C25: `on_remove` does not keep the ballot precondition of
`update_local_configuration`. For a request with status INACTIVE that passes the
two guards of `on_remove`, the call is made with `same_ballot = false`: when the
request's ballot is greater than the local ballot the assertion on the ballot
holds; when it equals the local ballot (the status is then not
POTENTIAL_SECONDARY) the assertion is false and the handler aborts. -/
theorem on_remove_ballot_precondition (env : environment) (s : replica)
    (request : replica_configuration) (hst : request.status = PS_INACTIVE)
    (hg1 : ¬ request.ballot < s.get_ballot)
    (hg2 : ¬ (request.ballot = s.get_ballot ∧ PS_POTENTIAL_SECONDARY = s.status)) :
    (request.ballot > s.get_ballot → ballot_precondition s request false = true)
      ∧ (request.ballot = s.get_ballot →
          ballot_precondition s request false = false
            ∧ on_remove env s request = none) := by
  refine ⟨fun h => by simp [ballot_precondition, h], fun h => ⟨?_, ?_⟩⟩
  · simp [ballot_precondition, h]
  · unfold on_remove
    rw [if_neg hg1, if_neg hg2, if_neg (fun hne => hne hst)]
    unfold update_local_configuration update_local_configuration_asserts
    simp [h]

/-- C25 at the failing input: a secondary at ballot 5 receives a remove request at
ballot 5. Neither guard drops it, the assertion on the ballot is false for
`same_ballot = false`, and the handler aborts. -/
theorem on_remove_ballot_precondition_witness :
    ¬ (sample_replica_configuration PS_INACTIVE 5).ballot
        < (sample_replica PS_SECONDARY 5).get_ballot
      ∧ ¬ ((sample_replica_configuration PS_INACTIVE 5).ballot
            = (sample_replica PS_SECONDARY 5).get_ballot
          ∧ PS_POTENTIAL_SECONDARY = (sample_replica PS_SECONDARY 5).status)
      ∧ ballot_precondition (sample_replica PS_SECONDARY 5)
          (sample_replica_configuration PS_INACTIVE 5) false = false
      ∧ on_remove sample_env (sample_replica PS_SECONDARY 5)
          (sample_replica_configuration PS_INACTIVE 5) = none :=
  ⟨by decide, by decide,
    (on_remove_ballot_precondition sample_env (sample_replica PS_SECONDARY 5)
      (sample_replica_configuration PS_INACTIVE 5) rfl (by decide) (by decide)).2 rfl⟩


/-! ## C26: fatal arms of the matrix reached through `update_configuration` -/

theorem get_replica_config_status_ne_potential_secondary (pc : partition_configuration)
    (node : rpc_address) : (get_replica_config pc node).status ≠ PS_POTENTIAL_SECONDARY := by
  unfold get_replica_config
  dsimp only
  split
  · simp
  · split <;> simp

/-- For a requested status that is PRIMARY, SECONDARY or INACTIVE, the only fatal
arm of the matrix that a call of `update_local_configuration` reaches is
POTENTIAL_SECONDARY to PRIMARY. -/
theorem hits_fatal_arm_iff (env : environment) (m : replica) (rc : replica_configuration)
    (sb : Bool) (h1 : rc.status ≠ PS_ERROR) (h2 : rc.status ≠ PS_POTENTIAL_SECONDARY) :
    hits_fatal_arm env m rc sb = true
      ↔ (update_local_configuration_asserts m rc sb = true
          ∧ env.max_prepared_decree ≥ env.last_committed_decree
          ∧ m.status = PS_POTENTIAL_SECONDARY ∧ rc.status = PS_PRIMARY) := by
  unfold hits_fatal_arm
  cases ha : update_local_configuration_asserts m rc sb
  · simp
  · by_cases hd : env.max_prepared_decree ≥ env.last_committed_decree
    · cases hs : m.status <;> cases hr : rc.status <;>
        first
          | exact absurd hr h1
          | exact absurd hr h2
          | (cases ht : m.inactive_is_transient <;>
              simp [pre_transition_gate, transition_side_effects, is_unnecessary_change, hs, hr,
                hd, ht, potential_secondary_states_cleanup, replica.emit])
    · simp [hd]

/-- A call of `update_local_configuration` that reaches a fatal arm aborts. -/
theorem hits_fatal_arm_aborts (env : environment) (m : replica) (rc : replica_configuration)
    (sb : Bool) (h : hits_fatal_arm env m rc sb = true) :
    update_local_configuration env m rc sb = none := by
  unfold hits_fatal_arm at h
  simp only [Bool.and_eq_true, Bool.not_eq_true', decide_eq_true_eq,
    Option.isNone_iff_eq_none] at h
  obtain ⟨⟨⟨⟨ha, hu⟩, hg⟩, hd⟩, ht⟩ := h
  unfold update_local_configuration
  rcases hgate : pre_transition_gate env m rc with ⟨g, sg⟩
  rw [hgate] at hg ht
  simp only at hg ht
  subst hg
  simp [ha, hu, hd, ht]


/-- C26: `update_configuration` does reach a fatal arm of the matrix. For a
configuration whose ballot is not below the local ballot, `update_configuration`
calls `update_local_configuration` and that call runs into an assertion inside the
matrix exactly when the replica is POTENTIAL_SECONDARY, the projection for this
node is PRIMARY and the ballot is strictly greater (the partition id matching and
the prepare list not behind the commit point, so that the earlier assertions
pass); `update_configuration` then aborts. Every other status and configuration
is rejected before the commit or commits through an arm that returns. -/
theorem update_configuration_fatal_arm (env : environment) (s : replica)
    (config : partition_configuration) (hb : config.ballot ≥ s.get_ballot) :
    ((calls_update_local_configuration env s config = true
        ∧ hits_fatal_arm env (membership_reset env s config)
            (get_replica_config config env.primary_address) true = true)
      ↔ (s.status = PS_POTENTIAL_SECONDARY
          ∧ (get_replica_config config env.primary_address).status = PS_PRIMARY
          ∧ config.ballot > s.get_ballot ∧ config.pid = s.get_gpid
          ∧ env.max_prepared_decree ≥ env.last_committed_decree))
      ∧ ((calls_update_local_configuration env s config = true
          ∧ hits_fatal_arm env (membership_reset env s config)
              (get_replica_config config env.primary_address) true = true)
        → update_configuration env s config = none) := by
  have hne1 := get_replica_config_status_ne_error config env.primary_address
  have hne2 := get_replica_config_status_ne_potential_secondary config env.primary_address
  have hst : (membership_reset env s config).status = s.status := by
    simp [replica.status]
  have hbal : (membership_reset env s config).get_ballot = s.get_ballot := by
    simp [replica.get_ballot]
  have hpid : (membership_reset env s config).get_gpid = s.get_gpid := by
    simp [replica.get_gpid]
  have hrb : (get_replica_config config env.primary_address).ballot = config.ballot := rfl
  have hrp : (get_replica_config config env.primary_address).pid = config.pid := rfl
  refine ⟨?_, ?_⟩
  · rw [hits_fatal_arm_iff env _ _ true hne1 hne2]
    constructor
    · rintro ⟨hcall, ha, hd, hs, hr⟩
      have hs2 : s.status = PS_POTENTIAL_SECONDARY := hst ▸ hs
      have hp := (asserts_ballot_le _ _ _ ha).2
      refine ⟨hs2, hr, ?_, ?_, hd⟩
      · unfold calls_update_local_configuration at hcall
        rw [hst, hbal, hs2, hr] at hcall
        simpa [is_same_ballot_status_change_allowed] using hcall
      · rw [hrp] at hp
        rw [hp]
        simp [replica.get_gpid]
    · rintro ⟨hs, hr, hgt, hp, hd⟩
      refine ⟨?_, ?_, hd, hst.trans hs, hr⟩
      · unfold calls_update_local_configuration
        rw [hbal]
        simp [hgt]
      · unfold update_local_configuration_asserts
        rw [hbal, hpid, hrb, hrp]
        simp [hgt, hp]
  · rintro ⟨hcall, hfatal⟩
    rw [update_configuration_eq, if_pos hb, if_pos hcall]
    exact hits_fatal_arm_aborts env _ _ true hfatal

/-- C26 at the failing input: a potential secondary at ballot 5 is given the
configuration at ballot 6 that names it primary. The call passes the head
assertions and the gate, stores the configuration and reaches the arm
POTENTIAL_SECONDARY to PRIMARY, whose body is a failed assertion. -/
theorem update_configuration_fatal_arm_witness :
    sample_config_self_primary.ballot ≥ (sample_replica PS_POTENTIAL_SECONDARY 5).get_ballot
      ∧ calls_update_local_configuration sample_env (sample_replica PS_POTENTIAL_SECONDARY 5)
          sample_config_self_primary = true
      ∧ hits_fatal_arm sample_env
          (membership_reset sample_env (sample_replica PS_POTENTIAL_SECONDARY 5)
            sample_config_self_primary)
          (get_replica_config sample_config_self_primary sample_env.primary_address) true = true
      ∧ transition_side_effects sample_env PS_POTENTIAL_SECONDARY 5
          { membership_reset sample_env (sample_replica PS_POTENTIAL_SECONDARY 5)
              sample_config_self_primary with
            config := get_replica_config sample_config_self_primary sample_env.primary_address
            last_config_change_time_ms := sample_env.now_ms }
          (get_replica_config sample_config_self_primary sample_env.primary_address) = none
      ∧ update_configuration sample_env (sample_replica PS_POTENTIAL_SECONDARY 5)
          sample_config_self_primary = none :=
  have hw := update_configuration_fatal_arm sample_env (sample_replica PS_POTENTIAL_SECONDARY 5)
    sample_config_self_primary (by decide)
  have hc := hw.1.2 ⟨rfl, rfl, by decide, rfl, by decide⟩
  ⟨by decide, hc.1, hc.2, rfl, hw.2 hc⟩


/-! ## C27: what `update_configuration` leaves behind when it returns true -/

theorem emit_close_requests (s : replica) (a : action) (h : a.is_close_request = false) :
    close_requests (s.emit a) = close_requests s := by
  simp [close_requests, List.filter_append, h]

theorem start_pending_mutations_close_requests (env : environment) (s : replica) :
    close_requests (start_pending_mutations env s) = close_requests s := by
  unfold start_pending_mutations
  split
  · split
    · exact emit_close_requests _ _ (by rfl)
    · rfl
  · rfl

theorem pre_transition_gate_close_requests (env : environment) (s : replica)
    (rc : replica_configuration) :
    close_requests (pre_transition_gate env s rc).2 = close_requests s := by
  unfold pre_transition_gate
  split <;> (try split) <;> first
    | rfl
    | exact emit_close_requests _ _ (by rfl)

theorem transition_side_effects_close_requests (env : environment) (os : partition_status)
    (ob : Int) (s s3 : replica) (rc : replica_configuration)
    (h : transition_side_effects env os ob s rc = some s3) :
    close_requests s3 = close_requests s := by
  unfold transition_side_effects at h
  cases os <;> cases hrc : rc.status <;> simp [hrc] at h <;>
    first
      | (subst h; split <;> simp [close_requests, List.filter_append, action.is_close_request])
      | (subst h; simp [close_requests, List.filter_append, action.is_close_request])
      | (obtain ⟨_, h⟩ := h; subst h
         simp [close_requests, List.filter_append, action.is_close_request])

/-- When the tail of `update_local_configuration` returns true it has not requested
a close. -/
theorem post_transition_true_close_requests (env : environment) (os : partition_status)
    (ob : Int) (s : replica) (rc : replica_configuration)
    (h : (post_transition env os ob s rc).1 = true) :
    close_requests (post_transition env os ob s rc).2 = close_requests s := by
  unfold post_transition at h ⊢
  dsimp only at h ⊢
  split
  · rename_i hne
    rw [if_pos hne] at h
    split
    · rename_i hcl
      rw [if_pos hcl] at h
      contradiction
    · exact (start_pending_mutations_close_requests _ _).trans (emit_close_requests _ _ (by rfl))
  · exact (start_pending_mutations_close_requests _ _).trans (emit_close_requests _ _ (by rfl))

/-- When `update_local_configuration` returns true, the stored ballot and status
are the requested ones and no close has been requested. -/
theorem update_local_configuration_true (env : environment) (s : replica)
    (rc : replica_configuration) (sb : Bool) (s1 : replica)
    (h : update_local_configuration env s rc sb = some (true, s1)) :
    s1.get_ballot = rc.ballot ∧ s1.status = rc.status
      ∧ close_requests s1 = close_requests s := by
  obtain ⟨_, hc⟩ := update_local_configuration_cases env s rc sb true s1 h
  rcases hc with ⟨hu, _, rfl⟩ | ⟨_, _, hr, _⟩ | ⟨_, _, _, s3, ht, hp⟩
  · simp only [is_unnecessary_change, Bool.and_eq_true, decide_eq_true_eq] at hu
    exact ⟨hu.2, hu.1, rfl⟩
  · contradiction
  · have h1 : (post_transition env s.status s.get_ballot s3 rc).1 = true := by rw [← hp]
    have h2 : (post_transition env s.status s.get_ballot s3 rc).2 = s1 := by rw [← hp]
    have hcl := post_transition_true_close_requests env s.status s.get_ballot s3 rc h1
    have hcfg := post_transition_config env s.status s.get_ballot s3 rc
    rw [h2] at hcl hcfg
    obtain ⟨t1, _⟩ := transition_side_effects_frame env _ _ _ s3 rc ht
    simp only at t1
    have hcfg2 : s1.config = rc := hcfg.trans t1
    refine ⟨by simp [replica.get_ballot, hcfg2], by simp [replica.status, hcfg2], ?_⟩
    rw [hcl, transition_side_effects_close_requests env _ _ _ s3 rc ht]
    exact pre_transition_gate_close_requests env s rc

theorem start_pending_mutations_trace (env : environment) (s : replica) :
    ∃ t, (start_pending_mutations env s).trace = s.trace ++ t := by
  unfold start_pending_mutations
  split
  · split
    · exact ⟨_, rfl⟩
    · exact ⟨[], (List.append_nil _).symm⟩
  · exact ⟨[], (List.append_nil _).symm⟩

theorem post_transition_trace (env : environment) (os : partition_status) (ob : Int)
    (s : replica) (rc : replica_configuration) :
    ∃ t, (post_transition env os ob s rc).2.trace = s.trace ++ t := by
  unfold post_transition
  dsimp only
  split
  · split
    · exact ⟨[.notify_replica_state_update rc
          (s.status == PS_ERROR || (s.status == PS_INACTIVE && decide (s.get_ballot > ob))),
        .begin_close_replica], by simp only [emit_trace, List.append_assoc]; rfl⟩
    · obtain ⟨t, ht⟩ := start_pending_mutations_trace env
        (s.emit (.notify_replica_state_update rc
          (s.status == PS_ERROR || (s.status == PS_INACTIVE && decide (s.get_ballot > ob)))))
      exact ⟨_, by rw [ht, emit_trace, List.append_assoc]⟩
  · obtain ⟨t, ht⟩ := start_pending_mutations_trace env
      (s.emit (.notify_replica_state_update rc false))
    exact ⟨_, by rw [ht, emit_trace, List.append_assoc]⟩

/-- Every call of `update_local_configuration` that returns only appends to the
trace. -/
theorem update_local_configuration_trace (env : environment) (s : replica)
    (rc : replica_configuration) (sb r : Bool) (s1 : replica)
    (h : update_local_configuration env s rc sb = some (r, s1)) :
    ∃ t, s1.trace = s.trace ++ t := by
  obtain ⟨_, hc⟩ := update_local_configuration_cases env s rc sb r s1 h
  rcases hc with ⟨_, _, rfl⟩ | ⟨_, _, _, rfl⟩ | ⟨_, _, _, s3, ht, hp⟩
  · exact ⟨[], (List.append_nil _).symm⟩
  · exact pre_transition_gate_trace env s rc
  · obtain ⟨g, hg⟩ := pre_transition_gate_trace env s rc
    obtain ⟨t, ht2⟩ := transition_side_effects_trace env _ _ _ s3 rc ht
    obtain ⟨u, hu⟩ := post_transition_trace env s.status s.get_ballot s3 rc
    rw [← hp] at hu
    simp only at ht2 hu
    exact ⟨g ++ t ++ u, by rw [hu, ht2, hg, List.append_assoc, List.append_assoc,
      List.append_assoc]⟩

/-- A call that appends `t` to the trace and leaves the close requests as they were
has not appended a close request. -/
theorem no_close_of_close_requests (s s1 : replica) (t : List action)
    (ht : s1.trace = s.trace ++ t) (hc : close_requests s1 = close_requests s) :
    action.begin_close_replica ∉ t := by
  unfold close_requests at hc
  rw [ht, List.filter_append] at hc
  have hnil : t.filter action.is_close_request = [] := List.append_right_eq_self.mp hc
  intro hmem
  have : action.begin_close_replica ∈ t.filter action.is_close_request :=
    List.mem_filter.mpr ⟨hmem, rfl⟩
  rw [hnil] at this
  exact absurd this (List.not_mem_nil _)

theorem membership_reset_trace (env : environment) (s : replica)
    (config : partition_configuration) : (membership_reset env s config).trace = s.trace := by
  unfold membership_reset
  split <;> rfl

/-- C27: for every replica and every partition configuration whose ballot is not
below the local ballot, if `update_configuration` returns true then afterwards the
stored ballot is the configuration's, the stored status is the projection of the
configuration for this node (PRIMARY if it is the primary, SECONDARY if it is among
the secondaries, INACTIVE otherwise), and no close of the replica was requested. -/
theorem update_configuration_true (env : environment) (s : replica)
    (new_pc : partition_configuration) (s1 : replica)
    (hb : new_pc.ballot ≥ s.get_ballot)
    (h : update_configuration env s new_pc = some (true, s1)) :
    s1.get_ballot = new_pc.ballot
      ∧ s1.status
          = (if env.primary_address = new_pc.primary then PS_PRIMARY
             else if env.primary_address ∈ new_pc.secondaries then PS_SECONDARY
             else PS_INACTIVE)
      ∧ close_requests s1 = close_requests s
      ∧ ∃ t, s1.trace = s.trace ++ t ∧ action.begin_close_replica ∉ t := by
  rw [update_configuration_eq, if_pos hb] at h
  split at h
  · obtain ⟨h1, h2, h3⟩ := update_local_configuration_true _ _ _ _ _ h
    have h4 : close_requests s1 = close_requests s := by
      rw [h3]
      simp [close_requests, membership_reset_trace]
    obtain ⟨t, ht⟩ := update_local_configuration_trace _ _ _ _ _ _ h
    rw [membership_reset_trace] at ht
    exact ⟨h1, h2, h4, t, ht, no_close_of_close_requests s s1 t ht h4⟩
  · simp at h


/-- C27 at a concrete input: the waiting replica (INACTIVE at ballot 1, flag set) is
given the configuration at ballot 2 that names it primary. -/
theorem update_configuration_true_witness :
    ∃ s1, update_configuration sample_env sample_waiting
        (sample_proposal CT_ASSIGN_PRIMARY 2 1).config = some (true, s1)
      ∧ s1.get_ballot = 2 ∧ s1.status = PS_PRIMARY
      ∧ close_requests s1 = close_requests sample_waiting :=
  ⟨_, rfl,
    (update_configuration_true sample_env sample_waiting
      (sample_proposal CT_ASSIGN_PRIMARY 2 1).config _ (by decide) rfl).1,
    (update_configuration_true sample_env sample_waiting
      (sample_proposal CT_ASSIGN_PRIMARY 2 1).config _ (by decide) rfl).2.1,
    (update_configuration_true sample_env sample_waiting
      (sample_proposal CT_ASSIGN_PRIMARY 2 1).config _ (by decide) rfl).2.2.1⟩

/-! ## C29: replaying the prepare list -/

theorem after_prepares_nil {σ μ : Type} (I : replay_interface σ μ) (st : σ) :
    after_prepares I st [] = st := rfl

theorem after_prepares_cons {σ μ : Type} (I : replay_interface σ μ) (st : σ)
    (e : Int × μ) (l : List (Int × μ)) :
    after_prepares I st (e :: l) = after_prepares I (I.init_prepare st e.2) l := rfl

/-- Past the end the loop makes no call and leaves the state, whatever the fuel. -/
theorem replay_loop_done {σ μ : Type} (I : replay_interface σ μ) (end_ : Int) (fuel : Nat)
    (decree : Int) (st : σ) (h : ¬ decree ≤ end_) :
    replay_loop I end_ fuel decree st = some ([], st) := by
  cases fuel <;> simp [replay_loop, h]

/-- A 64-bit value is never above the greatest one. -/
theorem int64_wrap_le (x : Int) : int64_wrap x ≤ int64_max := by
  unfold int64_wrap int64_max
  omega

/-- When the end is the greatest 64-bit value the loop is still running after any
number of iterations: the test `decree <= end` holds of every 64-bit value. -/
theorem replay_loop_never_returns {σ μ : Type} (I : replay_interface σ μ) :
    ∀ (fuel : Nat) (decree : Int) (st : σ), decree ≤ int64_max →
      replay_loop I int64_max fuel decree st = none := by
  intro fuel
  induction fuel with
  | zero =>
    intro decree st h
    simp [replay_loop, h]
  | succ n ih =>
    intro decree st h
    simp [replay_loop, h, ih _ _ (int64_wrap_le (decree + 1))]

/-- The loop started at `decree` with an end below the greatest 64-bit value returns
once the fuel covers the decrees from `decree` to the end: it makes one call for
each of them, in order; each call passes the mutation built from the state left by
the calls before it; the state it leaves is the state after all the calls. -/
theorem replay_loop_calls {σ μ : Type} (I : replay_interface σ μ) (end_ : Int)
    (hend : end_ < int64_max) :
    ∀ (n : Nat) (decree : Int) (st : σ), int64_min ≤ decree → (end_ + 1 - decree).toNat = n →
      ∃ (calls : List (Int × μ)) (st1 : σ),
        (∀ fuel, n ≤ fuel → replay_loop I end_ fuel decree st = some (calls, st1))
        ∧ calls.length = n
        ∧ (∀ (i : Nat) (d : Int) (mu : μ), calls[i]? = some (d, mu) →
            d = decree + (i : Int)
              ∧ mu = (match I.get_mutation_by_decree
                        (after_prepares I st (calls.take i)) d with
                      | some o =>
                        I.copy_from
                          (I.new_mutation (after_prepares I st (calls.take i)) d) o
                      | none =>
                        I.add_client_request
                          (I.new_mutation (after_prepares I st (calls.take i)) d)))
        ∧ st1 = after_prepares I st calls := by
  intro n
  induction n with
  | zero =>
    intro decree st _ hn
    have h : ¬ decree ≤ end_ := by omega
    refine ⟨[], st, fun fuel _ => replay_loop_done I end_ fuel decree st h, rfl, ?_, rfl⟩
    intro i d mu hi
    simp at hi
  | succ n ih =>
    intro decree st hlo hn
    have h : decree ≤ end_ := by omega
    have hwrap : int64_wrap (decree + 1) = decree + 1 :=
      int64_wrap_of_range _ (by unfold int64_min at hlo ⊢; omega)
        (by unfold int64_max at hend ⊢; omega)
    obtain ⟨calls, st1, ih0, ih1, ih2, ih3⟩ := ih (decree + 1)
      (I.init_prepare st
        (match I.get_mutation_by_decree st decree with
         | some o => I.copy_from (I.new_mutation st decree) o
         | none => I.add_client_request (I.new_mutation st decree)))
      (by unfold int64_min at hlo ⊢; omega) (by omega)
    refine ⟨(decree,
        match I.get_mutation_by_decree st decree with
        | some o => I.copy_from (I.new_mutation st decree) o
        | none => I.add_client_request (I.new_mutation st decree)) :: calls, st1,
      ?_, by simp [ih1], ?_, ?_⟩
    · intro fuel hf
      obtain ⟨f, rfl⟩ : ∃ f, fuel = f + 1 := ⟨fuel - 1, by omega⟩
      simp only [replay_loop, if_pos h, hwrap]
      rw [ih0 f (by omega)]
    · intro i d mu hi
      cases i with
      | zero =>
        simp only [List.getElem?_cons_zero, Option.some.injEq, Prod.mk.injEq] at hi
        obtain ⟨rfl, rfl⟩ := hi
        simp [after_prepares_nil]
      | succ j =>
        simp only [List.getElem?_cons_succ] at hi
        obtain ⟨hd, hmu⟩ := ih2 j d mu hi
        refine ⟨by rw [hd]; push_cast; ring, ?_⟩
        simp only [List.take_succ_cons, after_prepares_cons]
        exact hmu
    · simp only [after_prepares_cons]
      exact ih3

/-- C29, as stated, fails at the ends of the 64-bit range. With
`max_decree = INT64_MAX` the test `decree <= end` holds of every value of the
counter, so the loop is still running after any number of iterations. With
`last_committed_decree = INT64_MAX` the start `last_committed_decree + 1` wraps to
the least value, so a prepare list with `max_decree <= last_committed_decree` is
replayed by calls although the claim says none. -/
theorem replay_prepare_list_int64_counterexample :
    (∀ fuel : Nat,
        replay_prepare_list sample_replay_interface fuel ((int64_max - 1, int64_max), [])
          = none)
      ∧ (int64_min + 1 ≤ int64_max
          ∧ replay_prepare_list sample_replay_interface 2 ((int64_max, int64_min + 1), [])
            = some ([(int64_min, (int64_min, [0])), (int64_min + 1, (int64_min + 1, [0]))],
                ((int64_max, int64_min + 1), [int64_min, int64_min + 1]))) := by
  refine ⟨fun fuel => ?_, by decide, by decide⟩
  exact replay_loop_never_returns sample_replay_interface fuel _ _ (int64_wrap_le _)

/-- C29, amended: when `c = last_committed_decree()` and `m =
prepare_list.max_decree()` read at entry are 64-bit values below the greatest one,
`replay_prepare_list` terminates (it returns as soon as the fuel covers `max(0, m -
c)` iterations) and calls `init_prepare` `max(0, m - c)` times, none when
`m <= c`: once for each decree `c + 1, ..., m`, in strictly increasing order. The
mutation passed for decree `d` is `new_mutation(d)` with `copy_from(old)` applied
when the prepare list, as the calls before have left it, holds a mutation `old` at
`d`, and `new_mutation(d)` with one empty write request added otherwise. The state
left is the state after these calls. -/
theorem replay_prepare_list_calls {σ μ : Type} (I : replay_interface σ μ) (st : σ)
    (hc1 : int64_min ≤ I.last_committed_decree st)
    (hc2 : I.last_committed_decree st < int64_max)
    (hm : I.max_decree st < int64_max) :
    ∃ (calls : List (Int × μ)) (st1 : σ),
      (∀ fuel : Nat, (I.max_decree st - I.last_committed_decree st).toNat ≤ fuel →
          replay_prepare_list I fuel st = some (calls, st1))
      ∧ (calls.length : Int) = max 0 (I.max_decree st - I.last_committed_decree st)
      ∧ (I.max_decree st ≤ I.last_committed_decree st ↔ calls = [])
      ∧ calls.map Prod.fst
          = (List.range (I.max_decree st - I.last_committed_decree st).toNat).map
              (fun (i : Nat) => I.last_committed_decree st + 1 + (i : Int))
      ∧ (calls.map Prod.fst).Pairwise (fun a b => a < b)
      ∧ (∀ d : Int, d ∈ calls.map Prod.fst
            ↔ (I.last_committed_decree st < d ∧ d ≤ I.max_decree st))
      ∧ (∀ (i : Nat) (d : Int) (mu : μ), calls[i]? = some (d, mu) ↔
            (i < calls.length
              ∧ d = I.last_committed_decree st + 1 + (i : Int)
              ∧ mu = (match I.get_mutation_by_decree
                        (after_prepares I st (calls.take i)) d with
                      | some old =>
                        I.copy_from
                          (I.new_mutation (after_prepares I st (calls.take i)) d) old
                      | none =>
                        I.add_client_request
                          (I.new_mutation (after_prepares I st (calls.take i)) d))))
      ∧ st1 = after_prepares I st calls := by
  have hn : (I.max_decree st + 1 - (I.last_committed_decree st + 1)).toNat
      = (I.max_decree st - I.last_committed_decree st).toNat := by
    congr 1
    ring
  have hstart : int64_wrap (I.last_committed_decree st + 1) = I.last_committed_decree st + 1 :=
    int64_wrap_of_range _ (by unfold int64_min at hc1 ⊢; omega)
      (by unfold int64_max at hc2 ⊢; omega)
  obtain ⟨calls, st1, h0, h1, h2, h3⟩ := replay_loop_calls I (I.max_decree st) hm _
    (I.last_committed_decree st + 1) st (by unfold int64_min at hc1 ⊢; omega) hn
  have hdec : calls.map Prod.fst
      = (List.range (I.max_decree st - I.last_committed_decree st).toNat).map
          (fun (i : Nat) => I.last_committed_decree st + 1 + (i : Int)) := by
    apply List.ext_getElem?
    intro i
    rw [List.getElem?_map, List.getElem?_map]
    by_cases hi : i < (I.max_decree st - I.last_committed_decree st).toNat
    · have hi2 : i < calls.length := by rw [h1]; exact hi
      rw [List.getElem?_eq_getElem hi2, List.getElem?_range hi]
      have hget := h2 i (calls[i]).1 (calls[i]).2 (List.getElem?_eq_getElem hi2)
      simp only [Option.map_some']
      rw [hget.1]
    · have hi2 : calls.length ≤ i := by rw [h1]; omega
      rw [List.getElem?_eq_none hi2, List.getElem?_eq_none (by simpa using hi)]
      rfl
  refine ⟨calls, st1, ?_, ?_, ?_, hdec, ?_, ?_, ?_, h3⟩
  · intro fuel hf
    unfold replay_prepare_list
    dsimp only
    rw [hstart]
    exact h0 fuel hf
  · rw [h1]
    omega
  · rw [← List.length_eq_zero, h1]
    omega
  · rw [hdec, List.pairwise_map]
    exact (List.pairwise_lt_range _).imp (fun h => by omega)
  · intro d
    rw [hdec]
    simp only [List.mem_map, List.mem_range]
    constructor
    · rintro ⟨i, hi, rfl⟩
      omega
    · rintro ⟨hd1, hd2⟩
      exact ⟨(d - I.last_committed_decree st - 1).toNat, by omega, by omega⟩
  · intro i d mu
    constructor
    · intro hi
      obtain ⟨hd, hmu⟩ := h2 i d mu hi
      have hlt : i < calls.length := by
        by_contra hge
        rw [List.getElem?_eq_none (by omega)] at hi
        contradiction
      exact ⟨hlt, hd, hmu⟩
    · rintro ⟨hlt, hd, hmu⟩
      rw [List.getElem?_eq_getElem hlt]
      obtain ⟨hd2, hmu2⟩ := h2 i _ _ (List.getElem?_eq_getElem hlt)
      rw [← hd] at hd2
      rw [hd2] at hmu2
      rw [← hmu] at hmu2
      rw [Option.some.injEq]
      exact Prod.ext hd2 hmu2

/-- The sample prepare list with `last_committed_decree = 2` and `max_decree = 5`
is replayed by three calls, for the decrees 3, 4 and 5; the mutation of decree 4
is copied from the prepare list, the two others carry one empty write. Two
iterations do not finish the loop. -/
theorem replay_prepare_list_sample :
    replay_prepare_list sample_replay_interface 3 ((2, 5), [])
      = some ([(3, (3, [0])), (4, (4, [7])), (5, (5, [0]))], ((2, 5), [3, 4, 5]))
    ∧ replay_prepare_list sample_replay_interface 2 ((2, 5), []) = none := by
  refine ⟨by decide, by decide⟩

/-- The amended C29 at a concrete input: the sample prepare list with
`last_committed_decree = 2` and `max_decree = 5`. -/
theorem replay_prepare_list_calls_witness :
    ∃ (calls : List (Int × (Int × List Nat))) (st1 : (Int × Int) × List Int),
      (∀ fuel : Nat, 3 ≤ fuel →
          replay_prepare_list sample_replay_interface fuel ((2, 5), []) = some (calls, st1))
      ∧ (calls.length : Int) = 3
      ∧ calls.map Prod.fst = [3, 4, 5] := by
  obtain ⟨calls, st1, h0, h1, _, h3, _⟩ :=
    replay_prepare_list_calls sample_replay_interface ((2, 5), []) (by decide) (by decide)
      (by decide)
  exact ⟨calls, st1, h0, h1, h3⟩


end rdsn
